import Mathlib

/-!
CloudEye, configuration-item core.

A shallow embedding of the configuration-item management core of CloudEye
(`internal/models`, `internal/repository`, `internal/service`,
`internal/pkg/excel`) together with theorems about it.

Conventions of the embedding:

* Go's `uint` identifiers are natural numbers; the operations modelled here only
  compare them, so no wrap-around can occur.
* `time.Time` is the number of seconds since Go's zero instant, read on the wall
  clock of the location of the time, so the zero value of `time.Time` is `0`.
* Go's `int` is a 64-bit integer: values are mathematical integers, and the one
  product that can overflow is wrapped explicitly.
* A Go function with a pointer receiver on the database returns the new store
  next to its `error` result (`none` is Go's `nil` error).
* The relational store reached through gorm is modelled by three row lists, a
  primary key on `ID`, and an explicit oracle `Faults` saying which calls the
  database rejects.
* A workbook is the list of the cells set through excelize. `GetRows` reads a cell
  back the way excelize does after the workbook is saved and opened again: a number
  of 16 digits or more comes back in E notation, a string is cut to 32767
  characters, loses the characters XML 1.0 does not allow and has its `_xHHHH_`
  escapes decoded.
* The calls of the provider and product repositories other than the lookups by id
  have their own oracle `CatalogFaults`. A text comparison made by the database
  follows the collation of the column, taken to be case-insensitive on the ASCII
  letters. The indexes named in the struct tags are not part of the store: the
  program never creates the schema. A record is written as its columns; what gorm
  does with a non-zero association field of a record it saves is not modelled.
* Where the part of `time.Now()` below the second matters, the reading is an
  `Instant` in nanoseconds, of which a layout without fractional seconds shows the
  whole seconds only.
-/

namespace CloudEye

/-! ## Models (`internal/models`) -/

/-- Instants of `time.Time`, counted in seconds from Go's zero instant on the wall clock of
the location of the time. -/
abbrev Time := Nat

/-- The struct `models.BaseModel`. Go embeds it in every model; the models below carry its
three fields directly. -/
structure BaseModel where
  ID : Nat
  CreatedAt : Time
  UpdatedAt : Time
deriving DecidableEq, Repr

/-- The struct `models.CloudProvider`; the preload-only slice `Products` is not stored in a
row and is left out. -/
structure CloudProvider where
  ID : Nat
  CreatedAt : Time
  UpdatedAt : Time
  Name : String
  Code : String
  Description : String
deriving DecidableEq, Repr

/-- The struct `models.CloudProduct`; the preload-only slice `ConfigItems` is not stored in a
row and is left out. -/
structure CloudProduct where
  ID : Nat
  CreatedAt : Time
  UpdatedAt : Time
  CloudProviderID : Nat
  Name : String
  Code : String
  Description : String
  Provider : CloudProvider
deriving DecidableEq, Repr

/-- The struct `models.ConfigurationItem`. `Provider` and `Product` are the association
fields filled by `Preload`; they are not columns of the row. -/
structure ConfigurationItem where
  ID : Nat
  CreatedAt : Time
  UpdatedAt : Time
  CloudProviderID : Nat
  ProductID : Nat
  Name : String
  RecommendedValue : String
  RiskDescription : String
  CheckMethod : String
  ConfigurationMethod : String
  Reference : String
  Provider : CloudProvider
  Product : CloudProduct
deriving DecidableEq, Repr

/-- Go's zero value of `models.CloudProvider`. -/
def CloudProvider.zero : CloudProvider :=
  ⟨0, 0, 0, "", "", ""⟩

/-- Go's zero value of `models.CloudProduct`. -/
def CloudProduct.zero : CloudProduct :=
  ⟨0, 0, 0, 0, "", "", "", CloudProvider.zero⟩

/-! ## The relational store behind gorm -/

/-- An error value returned by gorm. -/
structure DbError where
  msg : String
deriving DecidableEq, Repr

/-- The three tables. -/
structure Store where
  providers : List CloudProvider
  products : List CloudProduct
  items : List ConfigurationItem
deriving DecidableEq, Repr

/-- The struct `repository.ConfigItemFilter`; a `nil` pointer is `none`, and `Page` and
`PageSize` are Go `int`s. -/
structure ConfigItemFilter where
  CloudProviderID : Option Nat
  ProductID : Option Nat
  Keyword : Option String
  Page : Int
  PageSize : Int
deriving DecidableEq, Repr

/-- The struct `repository.PageResult`; `Data` holds the `[]models.ConfigurationItem` that
`GetByFilter` stores in it. -/
structure PageResult where
  Total : Int
  Page : Int
  PageSize : Int
  Data : List ConfigurationItem
deriving DecidableEq, Repr

/-- Which database calls fail, and with what error: one oracle per repository method,
indexed by the argument of the call. `none` means that the call goes through. -/
structure Faults where
  providerGetByID : Nat → Option DbError
  productGetByID : Nat → Option DbError
  itemGetByID : Nat → Option DbError
  itemCreate : ConfigurationItem → Option DbError
  itemSave : ConfigurationItem → Option DbError
  itemDelete : Nat → Option DbError
  itemCount : ConfigItemFilter → Option DbError
  itemFind : ConfigItemFilter → Option DbError

/-- A database on which every call goes through. -/
def noFaults : Faults :=
  ⟨fun _ => none, fun _ => none, fun _ => none, fun _ => none, fun _ => none, fun _ => none,
    fun _ => none, fun _ => none⟩

/-- The error MySQL raises for an insert whose primary key is already taken. -/
def duplicateKey : DbError :=
  ⟨"Error 1062: Duplicate entry for key PRIMARY"⟩

/-- The next value of the auto-increment column of the configuration-item table. -/
def nextItemID (rows : List ConfigurationItem) : Nat :=
  (rows.map (fun r => r.ID)).foldr max 0 + 1

/-- The row gorm writes for `Create(item)`: a zero `ID` is replaced by the auto-increment
value, and zero timestamps are replaced by the current instant. -/
def createdRow (now : Time) (rows : List ConfigurationItem) (item : ConfigurationItem) :
    ConfigurationItem :=
  { item with
    ID := if item.ID = 0 then nextItemID rows else item.ID
    CreatedAt := if item.CreatedAt = 0 then now else item.CreatedAt
    UpdatedAt := if item.UpdatedAt = 0 then now else item.UpdatedAt }

/-- The row gorm writes for `Save(item)` on an existing primary key: every column is taken
from the struct, and `updated_at` is set to the current instant. -/
def savedRow (now : Time) (item : ConfigurationItem) : ConfigurationItem :=
  { item with UpdatedAt := now }

/-! ## Repositories (`internal/repository`) -/

/-- The method `cloudProviderRepository.GetByID`: `First(&provider, id)`, where
`gorm.ErrRecordNotFound` becomes `nil, nil`. -/
def cloudProviderRepository.GetByID (fl : Faults) (s : Store) (id : Nat) :
    Except DbError (Option CloudProvider) :=
  match fl.providerGetByID id with
  | some e => .error e
  | none => .ok (s.providers.find? (fun p => p.ID == id))

/-- The method `cloudProductRepository.GetByID`. -/
def cloudProductRepository.GetByID (fl : Faults) (s : Store) (id : Nat) :
    Except DbError (Option CloudProduct) :=
  match fl.productGetByID id with
  | some e => .error e
  | none => .ok (s.products.find? (fun p => p.ID == id))

/-- The method `configurationItemRepository.GetByID`. -/
def configurationItemRepository.GetByID (fl : Faults) (s : Store) (id : Nat) :
    Except DbError (Option ConfigurationItem) :=
  match fl.itemGetByID id with
  | some e => .error e
  | none => .ok (s.items.find? (fun r => r.ID == id))

/-- The method `configurationItemRepository.Create`: one `INSERT`. It fails when the oracle
says so or when the primary key is already taken; the table is then unchanged. -/
def configurationItemRepository.Create (fl : Faults) (now : Time) (s : Store)
    (item : ConfigurationItem) : Store × Option DbError :=
  match fl.itemCreate item with
  | some e => (s, some e)
  | none =>
    let row := createdRow now s.items item
    if s.items.any (fun r => r.ID == row.ID) then (s, some duplicateKey)
    else ({ s with items := s.items ++ [row] }, none)

/-- The method `configurationItemRepository.Update`: gorm's `Save`. With a zero primary key
`Save` inserts; otherwise it rewrites every column of the row with that key, and inserts
the row when no row has that key. -/
def configurationItemRepository.Update (fl : Faults) (now : Time) (s : Store)
    (item : ConfigurationItem) : Store × Option DbError :=
  match fl.itemSave item with
  | some e => (s, some e)
  | none =>
    if item.ID = 0 then configurationItemRepository.Create fl now s item
    else if s.items.any (fun r => r.ID == item.ID) then
      ({ s with items := s.items.map (fun r => if r.ID = item.ID then savedRow now item else r) },
        none)
    else ({ s with items := s.items ++ [savedRow now item] }, none)

/-- The method `configurationItemRepository.Delete`. -/
def configurationItemRepository.Delete (fl : Faults) (s : Store) (id : Nat) :
    Store × Option DbError :=
  match fl.itemDelete id with
  | some e => (s, some e)
  | none => ({ s with items := s.items.filter (fun r => r.ID != id) }, none)

/-- The loop inside the transaction of `BatchInsert`: `tx.Create(&item)` for every item in
order, stopping at the first error. -/
def configurationItemRepository.insertLoop (fl : Faults) (now : Time) :
    Store → List ConfigurationItem → Store × Option DbError
  | s, [] => (s, none)
  | s, item :: rest =>
    match configurationItemRepository.Create fl now s item with
    | (_, some e) => (s, some e)
    | (s1, none) => configurationItemRepository.insertLoop fl now s1 rest

/-- The method `configurationItemRepository.BatchInsert`: the insert loop inside
`Transaction`, which commits when the callback returns `nil` and rolls back to the state
before the call when it returns an error. -/
def configurationItemRepository.BatchInsert (fl : Faults) (now : Time) (s : Store)
    (items : List ConfigurationItem) : Store × Option DbError :=
  match configurationItemRepository.insertLoop fl now s items with
  | (s1, none) => (s1, none)
  | (_, some e) => (s, some e)

/-! ## Service errors (`internal/service/service.go`) -/

/-- Error code for a resource that was not found. -/
def ErrCodeNotFound : Nat := 1001
/-- Error code for invalid data. -/
def ErrCodeInvalidData : Nat := 1002
/-- Error code for a database error. -/
def ErrCodeDatabase : Nat := 1003
/-- Error code for duplicate data. -/
def ErrCodeDuplicate : Nat := 1004
/-- Error code for an internal error. -/
def ErrCodeInternal : Nat := 1005

/-- The struct `service.ServiceError`. -/
structure ServiceError where
  Code : Nat
  Message : String
  Err : Option DbError
deriving DecidableEq, Repr

/-- The constructor `NewServiceError`. -/
def NewServiceError (code : Nat) (message : String) (err : Option DbError) : ServiceError :=
  ⟨code, message, err⟩

/-- Go's conversion `string(n)` of an integer: the UTF-8 text of the code point `n`, and of
U+FFFD when `n` is not a valid code point. -/
def goStringOfInt (n : Nat) : String :=
  if Nat.isValidChar n then String.singleton (Char.ofNat n)
  else String.singleton (Char.ofNat 0xFFFD)

/-! ## The configuration-item service (`internal/service/configuration_item_service.go`) -/

/-- The method `configurationItemService.CreateConfigItem`. -/
def CreateConfigItem (fl : Faults) (now : Time) (s : Store) (item : ConfigurationItem) :
    Store × Option ServiceError :=
  match cloudProviderRepository.GetByID fl s item.CloudProviderID with
  | .error e => (s, some (NewServiceError ErrCodeDatabase "创建配置项失败" (some e)))
  | .ok none => (s, some (NewServiceError ErrCodeNotFound "云服务商不存在" none))
  | .ok (some _) =>
    match cloudProductRepository.GetByID fl s item.ProductID with
    | .error e => (s, some (NewServiceError ErrCodeDatabase "创建配置项失败" (some e)))
    | .ok none => (s, some (NewServiceError ErrCodeNotFound "云产品不存在" none))
    | .ok (some product) =>
      if product.CloudProviderID ≠ item.CloudProviderID then
        (s, some (NewServiceError ErrCodeInvalidData "云产品不属于指定的云服务商" none))
      else
        match configurationItemRepository.Create fl now s item with
        | (s1, some e) => (s1, some (NewServiceError ErrCodeDatabase "创建配置项失败" (some e)))
        | (s1, none) => (s1, none)

/-- The provider check of `UpdateConfigItem`, run only when the provider id changes. -/
def UpdateConfigItem.checkProvider (fl : Faults) (s : Store) (item existingItem : ConfigurationItem) :
    Option ServiceError :=
  if item.CloudProviderID ≠ existingItem.CloudProviderID then
    match cloudProviderRepository.GetByID fl s item.CloudProviderID with
    | .error e => some (NewServiceError ErrCodeDatabase "更新配置项失败" (some e))
    | .ok none => some (NewServiceError ErrCodeNotFound "云服务商不存在" none)
    | .ok (some _) => none
  else none

/-- The product check of `UpdateConfigItem`, run only when the product id changes. -/
def UpdateConfigItem.checkProduct (fl : Faults) (s : Store) (item existingItem : ConfigurationItem) :
    Option ServiceError :=
  if item.ProductID ≠ existingItem.ProductID then
    match cloudProductRepository.GetByID fl s item.ProductID with
    | .error e => some (NewServiceError ErrCodeDatabase "更新配置项失败" (some e))
    | .ok none => some (NewServiceError ErrCodeNotFound "云产品不存在" none)
    | .ok (some product) =>
      if product.CloudProviderID ≠ item.CloudProviderID then
        some (NewServiceError ErrCodeInvalidData "云产品不属于指定的云服务商" none)
      else none
  else none

/-- The method `configurationItemService.UpdateConfigItem`. -/
def UpdateConfigItem (fl : Faults) (now : Time) (s : Store) (item : ConfigurationItem) :
    Store × Option ServiceError :=
  match configurationItemRepository.GetByID fl s item.ID with
  | .error e => (s, some (NewServiceError ErrCodeDatabase "更新配置项失败" (some e)))
  | .ok none => (s, some (NewServiceError ErrCodeNotFound "配置项不存在" none))
  | .ok (some existingItem) =>
    match UpdateConfigItem.checkProvider fl s item existingItem with
    | some err => (s, some err)
    | none =>
      match UpdateConfigItem.checkProduct fl s item existingItem with
      | some err => (s, some err)
      | none =>
        match configurationItemRepository.Update fl now s item with
        | (s1, some e) => (s1, some (NewServiceError ErrCodeDatabase "更新配置项失败" (some e)))
        | (s1, none) => (s1, none)

/-- The body of the validation loop of `BatchImportConfigItems` for the item at index `i`:
the error it returns, or `none` when the loop goes on to the next item. -/
def BatchImportConfigItems.validateOne (fl : Faults) (s : Store) (i : Nat)
    (item : ConfigurationItem) : Option ServiceError :=
  match cloudProviderRepository.GetByID fl s item.CloudProviderID with
  | .error e =>
    some (NewServiceError ErrCodeDatabase "批量导入配置项失败：验证云服务商出错" (some e))
  | .ok none =>
    some (NewServiceError ErrCodeNotFound
      ("批量导入配置项失败：第" ++ goStringOfInt (i + 1) ++ "条记录的云服务商不存在") none)
  | .ok (some _) =>
    match cloudProductRepository.GetByID fl s item.ProductID with
    | .error e =>
      some (NewServiceError ErrCodeDatabase "批量导入配置项失败：验证云产品出错" (some e))
    | .ok none =>
      some (NewServiceError ErrCodeNotFound
        ("批量导入配置项失败：第" ++ goStringOfInt (i + 1) ++ "条记录的云产品不存在") none)
    | .ok (some product) =>
      if product.CloudProviderID ≠ item.CloudProviderID then
        some (NewServiceError ErrCodeInvalidData
          ("批量导入配置项失败：第" ++ goStringOfInt (i + 1) ++ "条记录的云产品不属于指定的云服务商")
          none)
      else none

/-- The validation loop `for i, item := range items` of `BatchImportConfigItems`, entered
at index `i`: the error of the first item that stops the loop. -/
def BatchImportConfigItems.validate (fl : Faults) (s : Store) :
    Nat → List ConfigurationItem → Option ServiceError
  | _, [] => none
  | i, item :: rest =>
    match BatchImportConfigItems.validateOne fl s i item with
    | some err => some err
    | none => BatchImportConfigItems.validate fl s (i + 1) rest

/-- The method `configurationItemService.BatchImportConfigItems`. -/
def BatchImportConfigItems (fl : Faults) (now : Time) (s : Store)
    (items : List ConfigurationItem) : Store × Option ServiceError :=
  match BatchImportConfigItems.validate fl s 0 items with
  | some err => (s, some err)
  | none =>
    match configurationItemRepository.BatchInsert fl now s items with
    | (s1, some e) => (s1, some (NewServiceError ErrCodeDatabase "批量导入配置项失败" (some e)))
    | (s1, none) => (s1, none)

/-! ## Spreadsheet import (`internal/pkg/excel/excel.go`) -/

/-- The two errors of Go's `strconv` package. -/
inductive NumError where
  | ErrSyntax
  | ErrRange
deriving DecidableEq, Repr

/-- The digit value `strconv.ParseUint` gives to one byte: `c - 48` for a decimal digit,
`lower(c) - 97 + 10` for an ASCII letter, nothing otherwise. A character outside ASCII is
several bytes, none of which is a digit or a letter. -/
def strconv.digitOf (c : Char) : Option Nat :=
  if 48 ≤ c.toNat ∧ c.toNat ≤ 57 then some (c.toNat - 48)
  else if c.toNat < 128 ∧ 97 ≤ (c.toNat ||| 32) ∧ (c.toNat ||| 32) ≤ 122 then
    some ((c.toNat ||| 32) - 97 + 10)
  else none

/-- The digit loop of `strconv.ParseUint` in base 10 on 64-bit words: `n` is the value read
so far and `maxVal` the largest value of the requested bit size. -/
def strconv.ParseUint.loop (maxVal : Nat) : Nat → List Char → Except NumError Nat
  | n, [] => .ok n
  | n, c :: cs =>
    match strconv.digitOf c with
    | none => .error NumError.ErrSyntax
    | some d =>
      if d ≥ 10 then .error NumError.ErrSyntax
      else if n ≥ (2 ^ 64 - 1) / 10 + 1 then .error NumError.ErrRange
      else
        let n10 := (n * 10) % 2 ^ 64
        let n1 := (n10 + d) % 2 ^ 64
        if n1 < n10 ∨ n1 > maxVal then .error NumError.ErrRange
        else strconv.ParseUint.loop maxVal n1 cs

/-- Go's `strconv.ParseUint(s, 10, bitSize)`. -/
def strconv.ParseUint (s : String) (bitSize : Nat) : Except NumError Nat :=
  if s = "" then .error NumError.ErrSyntax
  else strconv.ParseUint.loop (2 ^ bitSize - 1) 0 s.data

/-- The error values of package `excel`. -/
inductive ExcelError where
  | ErrInvalidFile
  | ErrInvalidSheetName
  | ErrInvalidData
deriving DecidableEq, Repr

/-- The body of the row loop of `ImportConfigItems`: the item appended for a row, or `none`
when the loop skips the row. `row[k]` is written `row.getD k ""`; every index used is below
the length checked first. -/
def ImportConfigItems.parseRow (row : List String) : Option ConfigurationItem :=
  if row.length < 9 then none
  else
    match strconv.ParseUint (row.getD 1 "") 32 with
    | .error _ => none
    | .ok providerID =>
      match strconv.ParseUint (row.getD 2 "") 32 with
      | .error _ => none
      | .ok productID =>
        some ⟨0, 0, 0, providerID, productID, row.getD 3 "", row.getD 4 "", row.getD 5 "",
          row.getD 6 "", row.getD 7 "", row.getD 8 "", CloudProvider.zero, CloudProduct.zero⟩

/-- The method `ConfigItemImporter.ImportConfigItems`, from the rows that `GetRows` returns
for the first sheet: row 0 is the header, the loop runs over the rows from index 1. -/
def ImportConfigItems (rows : List (List String)) : Except ExcelError (List ConfigurationItem) :=
  if rows.length < 2 then .error ExcelError.ErrInvalidData
  else
    let items := (rows.drop 1).filterMap ImportConfigItems.parseRow
    if items.length = 0 then .error ExcelError.ErrInvalidData
    else .ok items

/-! ## Vocabulary of the specification -/

/-- Some provider row has this id. -/
def Store.hasProvider (s : Store) (id : Nat) : Prop :=
  ∃ p ∈ s.providers, p.ID = id

/-- Some product row has this id. -/
def Store.hasProduct (s : Store) (id : Nat) : Prop :=
  ∃ q ∈ s.products, q.ID = id

/-- The primary key of the product table: no two product rows share an id. -/
def Store.productKeysUnique (s : Store) : Prop :=
  (s.products.map (fun q => q.ID)).Nodup

/-- Referential validity of a candidate: its provider exists, and its product exists and is
owned by that provider. -/
def Store.refValid (s : Store) (item : ConfigurationItem) : Prop :=
  s.hasProvider item.CloudProviderID ∧
    ∃ q ∈ s.products, q.ID = item.ProductID ∧ q.CloudProviderID = item.CloudProviderID

/-- Mutual consistency of the stored configuration items: the product of every item exists
and is owned by the provider of the item. -/
def Store.consistent (s : Store) : Prop :=
  ∀ it ∈ s.items, ∃ q ∈ s.products, q.ID = it.ProductID ∧ q.CloudProviderID = it.CloudProviderID

/-- The provider and product lookups of the database go through for every id. -/
def Faults.lookupsOk (fl : Faults) : Prop :=
  (∀ id, fl.providerGetByID id = none) ∧ (∀ id, fl.productGetByID id = none)

/-- The columns of a configuration item that a caller supplies: both ids and the six texts. -/
def ConfigurationItem.sameContent (a b : ConfigurationItem) : Prop :=
  a.CloudProviderID = b.CloudProviderID ∧ a.ProductID = b.ProductID ∧ a.Name = b.Name ∧
    a.RecommendedValue = b.RecommendedValue ∧ a.RiskDescription = b.RiskDescription ∧
    a.CheckMethod = b.CheckMethod ∧ a.ConfigurationMethod = b.ConfigurationMethod ∧
    a.Reference = b.Reference

/-- The number a list of decimal digits writes, most significant digit first. -/
def decimalValue (cs : List Char) : Nat :=
  cs.foldl (fun n c => n * 10 + (c.toNat - 48)) 0

/-- The non-negative integer a text writes in decimal: the text is not empty and each of its
characters is one of the digits 0 to 9. -/
def decimalText? (s : String) : Option Nat :=
  if s.data ≠ [] ∧ ∀ c ∈ s.data, 48 ≤ c.toNat ∧ c.toNat ≤ 57 then some (decimalValue s.data)
  else none

/-- A data row survives the skipping of `ImportConfigItems`: it has at least 9 cells and its
two id cells are accepted by `ParseUint`. -/
def survives (row : List String) : Prop :=
  9 ≤ row.length ∧ (∃ n, strconv.ParseUint (row.getD 1 "") 32 = .ok n) ∧
    ∃ m, strconv.ParseUint (row.getD 2 "") 32 = .ok m

instance (s : Store) (id : Nat) : Decidable (s.hasProvider id) := by
  unfold Store.hasProvider; exact inferInstance

instance (s : Store) (id : Nat) : Decidable (s.hasProduct id) := by
  unfold Store.hasProduct; exact inferInstance

instance (s : Store) : Decidable s.productKeysUnique := by
  unfold Store.productKeysUnique; exact inferInstance

instance (s : Store) (item : ConfigurationItem) : Decidable (s.refValid item) := by
  unfold Store.refValid; exact inferInstance

instance (s : Store) : Decidable s.consistent := by
  unfold Store.consistent; exact inferInstance

instance (a b : ConfigurationItem) : Decidable (a.sameContent b) := by
  unfold ConfigurationItem.sameContent; exact inferInstance

/-! ## Sample data: the scenario of the specification -/

/-- Provider 1, code `aws`. -/
def sampleAws : CloudProvider := ⟨1, 0, 0, "AWS", "aws", ""⟩

/-- Provider 2, which owns no product. -/
def sampleAliyun : CloudProvider := ⟨2, 0, 0, "Aliyun", "aliyun", ""⟩

/-- Product 10 of provider 1, code `ec2`. -/
def sampleEc2 : CloudProduct := ⟨10, 0, 0, 1, "EC2", "ec2", "", CloudProvider.zero⟩

/-- A candidate with the given provider id, product id and name. -/
def sampleItem (providerID productID : Nat) (name : String) : ConfigurationItem :=
  ⟨0, 0, 0, providerID, productID, name, "enabled", "risk", "check", "method", "doc",
    CloudProvider.zero, CloudProduct.zero⟩

/-- Two providers, one product, no configuration item. -/
def sampleStore : Store := ⟨[sampleAws, sampleAliyun], [sampleEc2], []⟩

/-- The sample store after configuration item 1 was created for provider 1, product 10. -/
def sampleStoreWithItem : Store :=
  ⟨[sampleAws, sampleAliyun], [sampleEc2], [createdRow 5 [] (sampleItem 1 10 "mfa")]⟩

/-- The update of configuration item 1 that changes only its provider, from 1 to 2. -/
def sampleUpdate : ConfigurationItem :=
  { sampleItem 2 10 "mfa" with ID := 1 }

/-- Four candidates; the third names product 11, which does not exist. -/
def sampleBatch : List ConfigurationItem :=
  [sampleItem 1 10 "a", sampleItem 1 10 "b", sampleItem 1 11 "c", sampleItem 1 10 "d"]

/-- Columns 2 to 9 of a row, the ones a candidate is read from. -/
def columns2to9 (row : List String) : List String :=
  (row.drop 1).take 8

/-- Two rows agree on whether they have 9 cells and on their columns 2 to 9. -/
def sameColumns2to9 (r r1 : List String) : Prop :=
  (r.length < 9 ↔ r1.length < 9) ∧ columns2to9 r = columns2to9 r1

/-- A header row with the titles the exporter writes. -/
def sampleHeader : List String :=
  ["ID", "云服务商", "云产品", "配置项名称", "推荐配置值", "风险说明", "检查方法", "配置方式",
    "参考资料", "创建时间", "更新时间"]

/-- A data row for provider 1 and product 10 with all 11 cells. -/
def sampleRow : List String :=
  ["7", "1", "10", "mfa", "enabled", "risk", "check", "method", "doc",
    "2024-01-02 03:04:05", "2024-01-02 03:04:05"]

/-- The same data as `sampleRow` with other contents in columns 1, 10 and 11. -/
def sampleRowOther : List String :=
  ["", "1", "10", "mfa", "enabled", "risk", "check", "method", "doc", "x"]

/-- A data row with 5 cells. -/
def sampleShortRow : List String :=
  ["8", "1", "10", "mfa", "enabled"]

/-- A data row with 9 cells whose provider cell holds a display name. -/
def sampleNameRow : List String :=
  ["9", "AWS", "10", "mfa", "enabled", "risk", "check", "method", "doc"]

/-- The candidate read from `sampleRow`. -/
def sampleCandidate : ConfigurationItem :=
  ⟨0, 0, 0, 1, 10, "mfa", "enabled", "risk", "check", "method", "doc",
    CloudProvider.zero, CloudProduct.zero⟩

/-- A second complete data row, for provider 1 and product 10, named `tls`. -/
def sampleRowTls : List String :=
  ["12", "1", "10", "tls", "enabled", "risk", "check", "method", "doc",
    "2024-01-02 03:04:05", "2024-01-02 03:04:05"]

/-- The candidate read from `sampleRowTls`. -/
def sampleCandidateTls : ConfigurationItem :=
  ⟨0, 0, 0, 1, 10, "tls", "enabled", "risk", "check", "method", "doc",
    CloudProvider.zero, CloudProduct.zero⟩

/-- The candidate read from a row that names the missing product 11. -/
def sampleCandidateBad : ConfigurationItem :=
  ⟨0, 0, 0, 1, 11, "waf", "enabled", "risk", "check", "method", "doc",
    CloudProvider.zero, CloudProduct.zero⟩

/-- A batch whose first candidate is inserted with the fresh id 1 and whose second candidate
asks for the id 1 itself. -/
def sampleClashBatch : List ConfigurationItem :=
  [sampleItem 1 10 "a", { sampleItem 1 10 "b" with ID := 1 }]

/-! ## Filtered and paginated queries -/

/-- The value a Go `int` holds, on a 64-bit platform, for an integer expression whose
mathematical value is `x`: two's-complement wrap-around. -/
def wrapInt64 (x : Int) : Int :=
  (x + 2 ^ 63) % 2 ^ 64 - 2 ^ 63

/-- The function `repository.Paginate`: the offset and the limit it passes to `db.Offset`
and `db.Limit`. After the defaults `page` is at least 1, so `page - 1` cannot wrap; the
product can. -/
def Paginate (page pageSize : Int) : Int × Int :=
  let page := if page ≤ 0 then 1 else page
  let pageSize := if pageSize ≤ 0 then 10 else pageSize
  let pageSize := if pageSize > 100 then 100 else pageSize
  let offset := wrapInt64 ((page - 1) * pageSize)
  (offset, pageSize)

/-- Equality of two characters under the collation of the text columns, taken to be
case-insensitive on the ASCII letters. -/
def collationEq (a b : Char) : Bool :=
  a.toLower == b.toLower

/-- One step of `LIKE`: the text has a first character accepted by `ok`, and the rest of the
text is accepted by `rest`. -/
def sqlLike.one (ok : Char → Bool) (rest : List Char → Bool) : List Char → Bool
  | [] => false
  | x :: u => ok x && rest u

/-- SQL `text LIKE pattern` with the default escape character: `%` matches any run of
characters, `_` matches one character, a backslash makes the next pattern character literal
(and is itself literal at the end of the pattern), and every other character matches itself
under the collation. -/
def sqlLike : List Char → List Char → Bool
  | [], t => t.isEmpty
  | c :: p, t =>
    if c = '%' then t.tails.any (sqlLike p)
    else if c = '_' then sqlLike.one (fun _ => true) (sqlLike p) t
    else if c = Char.ofNat 92 then
      match p with
      | [] => sqlLike.one (collationEq c) (fun u => u.isEmpty) t
      | d :: q => sqlLike.one (collationEq d) (sqlLike q) t
    else sqlLike.one (collationEq c) (sqlLike p) t

/-- The `WHERE` clause that `GetByFilter` builds for a filter, evaluated on one row: the
conditions added by successive `Where` calls are joined by `AND`, and gorm puts the keyword
condition, which contains `OR`, in parentheses. -/
def configurationItemRepository.whereClause (filter : ConfigItemFilter)
    (r : ConfigurationItem) : Bool :=
  (match filter.CloudProviderID with
    | some id => r.CloudProviderID == id
    | none => true) &&
  (match filter.ProductID with
    | some id => r.ProductID == id
    | none => true) &&
  (match filter.Keyword with
    | some kw =>
      if kw ≠ "" then
        sqlLike ("%" ++ kw ++ "%").data r.Name.data ||
          sqlLike ("%" ++ kw ++ "%").data r.RecommendedValue.data ||
          sqlLike ("%" ++ kw ++ "%").data r.RiskDescription.data
      else true
    | none => true)

/-- The effect of `Preload("Provider").Preload("Product")` on one row: the association
fields are filled with the rows the two foreign keys point to, and stay zero when there is
no such row. -/
def configurationItemRepository.preload (s : Store) (r : ConfigurationItem) :
    ConfigurationItem :=
  { r with
    Provider := (s.providers.find? (fun p => p.ID == r.CloudProviderID)).getD CloudProvider.zero
    Product := (s.products.find? (fun q => q.ID == r.ProductID)).getD CloudProduct.zero }

/-- The method `configurationItemRepository.GetByFilter`: a `COUNT` over the filtered rows,
then a `SELECT` with the offset and limit of `Paginate`. The rows come in table order, and an
offset that is not positive adds no `OFFSET` clause. -/
def configurationItemRepository.GetByFilter (fl : Faults) (s : Store)
    (filter : ConfigItemFilter) : Except DbError PageResult :=
  match fl.itemCount filter with
  | some e => .error e
  | none =>
    let matching := s.items.filter (configurationItemRepository.whereClause filter)
    match fl.itemFind filter with
    | some e => .error e
    | none =>
      let offset := (Paginate filter.Page filter.PageSize).1
      let limit := (Paginate filter.Page filter.PageSize).2
      .ok ⟨(matching.length : Int), filter.Page, filter.PageSize,
        ((matching.drop offset.toNat).take limit.toNat).map
          (configurationItemRepository.preload s)⟩

/-- The provider pre-check of `GetConfigItemsByFilter`, run when the filter names a
provider. -/
def GetConfigItemsByFilter.checkProvider (fl : Faults) (s : Store) (filter : ConfigItemFilter) :
    Option ServiceError :=
  match filter.CloudProviderID with
  | some id =>
    match cloudProviderRepository.GetByID fl s id with
    | .error e => some (NewServiceError ErrCodeDatabase "获取配置项列表失败" (some e))
    | .ok none => some (NewServiceError ErrCodeNotFound "云服务商不存在" none)
    | .ok (some _) => none
  | none => none

/-- The product pre-check of `GetConfigItemsByFilter`, run when the filter names a
product. -/
def GetConfigItemsByFilter.checkProduct (fl : Faults) (s : Store) (filter : ConfigItemFilter) :
    Option ServiceError :=
  match filter.ProductID with
  | some id =>
    match cloudProductRepository.GetByID fl s id with
    | .error e => some (NewServiceError ErrCodeDatabase "获取配置项列表失败" (some e))
    | .ok none => some (NewServiceError ErrCodeNotFound "云产品不存在" none)
    | .ok (some _) => none
  | none => none

/-- The defaults `GetConfigItemsByFilter` sets on the page and the page size of the
filter. -/
def GetConfigItemsByFilter.withDefaults (filter : ConfigItemFilter) : ConfigItemFilter :=
  { filter with
    Page := if filter.Page ≤ 0 then 1 else filter.Page
    PageSize :=
      if filter.PageSize ≤ 0 then 10
      else if filter.PageSize > 100 then 100
      else filter.PageSize }

/-- The method `configurationItemService.GetConfigItemsByFilter`; the result is Go's pair of
a `*PageResult` and an `error`. -/
def GetConfigItemsByFilter (fl : Faults) (s : Store) (filter : ConfigItemFilter) :
    Option PageResult × Option ServiceError :=
  match GetConfigItemsByFilter.checkProvider fl s filter with
  | some err => (none, some err)
  | none =>
    match GetConfigItemsByFilter.checkProduct fl s filter with
    | some err => (none, some err)
    | none =>
      match configurationItemRepository.GetByFilter fl s
          (GetConfigItemsByFilter.withDefaults filter) with
      | .error e => (none, some (NewServiceError ErrCodeDatabase "获取配置项列表失败" (some e)))
      | .ok result => (some result, none)

/-- A text starts with a keyword, compared under the collation. -/
def startsWithFold : List Char → List Char → Bool
  | [], _ => true
  | _ :: _, [] => false
  | c :: p, x :: u => collationEq c x && startsWithFold p u

/-- A keyword occurs in a text as a literal substring, compared case-insensitively. -/
def containsFold (kw text : String) : Bool :=
  text.data.tails.any (startsWithFold kw.data)

/-- The matching rule of the specification: the id filters are absent or equal the ids of
the item, and the keyword is absent or occurs literally in the name, the recommended value
or the risk description. -/
def matchesFilter (filter : ConfigItemFilter) (r : ConfigurationItem) : Bool :=
  (match filter.CloudProviderID with
    | some id => r.CloudProviderID == id
    | none => true) &&
  (match filter.ProductID with
    | some id => r.ProductID == id
    | none => true) &&
  (match filter.Keyword with
    | some kw =>
      containsFold kw r.Name || containsFold kw r.RecommendedValue ||
        containsFold kw r.RiskDescription
    | none => true)

/-- The sample store with three configuration items of provider 1 and product 10. -/
def sampleStoreThree : Store :=
  ⟨[sampleAws, sampleAliyun], [sampleEc2],
    [{ sampleItem 1 10 "MFA for root" with ID := 1 },
      { sampleItem 1 10 "tls" with ID := 2 },
      { sampleItem 1 10 "disk 100% encrypted" with ID := 3 }]⟩

/-- A filter with no id, no keyword and the given page and page size. -/
def samplePageFilter (page pageSize : Int) : ConfigItemFilter :=
  ⟨none, none, none, page, pageSize⟩

/-- A filter with the given keyword on page 1 with page size 10. -/
def sampleKeywordFilter (kw : String) : ConfigItemFilter :=
  ⟨none, none, some kw, 1, 10⟩

/-- The page result for page 2 of the three sample items with a requested page size of 500. -/
def samplePageTwo : PageResult :=
  ⟨3, 2, 100, []⟩

/-- The page result for the three sample items with a requested page and page size of 0. -/
def samplePageOne : PageResult :=
  ⟨3, 1, 10, sampleStoreThree.items.map (configurationItemRepository.preload sampleStoreThree)⟩

/-- The page after the defaults: 1 for a requested page of at most 0. -/
def normalPage (page : Int) : Int :=
  if page ≤ 0 then 1 else page

/-- The page size after the defaults: 10 for a requested size of at most 0, 100 for a
requested size above 100. -/
def normalPageSize (pageSize : Int) : Int :=
  if pageSize ≤ 0 then 10 else if pageSize > 100 then 100 else pageSize

/-! ## Time formatting (Go's `time.Time.Format`) -/

/-- Days before each month of a common year, as in Go's table `daysBefore`. -/
def Time.daysBefore : List Nat :=
  [0, 31, 59, 90, 120, 151, 181, 212, 243, 273, 304, 334, 365]

/-- Go's `isLeap`. -/
def Time.isLeap (year : Nat) : Bool :=
  year % 4 == 0 && (year % 100 != 0 || year % 400 == 0)

/-- Year and day of the year (from 0) of an instant: the cycle arithmetic of Go's
`absDate`, counted from year 1. -/
def Time.yearDay (t : Time) : Nat × Nat :=
  let d := t / 86400
  let n400 := d / 146097
  let d := d - 146097 * n400
  let n100 := d / 36524
  let n100 := n100 - n100 / 4
  let d := d - 36524 * n100
  let n4 := d / 1461
  let d := d - 1461 * n4
  let n1 := d / 365
  let n1 := n1 - n1 / 4
  let d := d - 365 * n1
  (400 * n400 + 100 * n100 + 4 * n4 + n1 + 1, d)

/-- Month and day of the month for a day of the year, as in Go's `absDate`. -/
def Time.monthDay (leap : Bool) (yday : Nat) : Nat × Nat :=
  if leap && yday == 31 + 29 - 1 then (2, 29)
  else
    let day := if leap && decide (yday > 31 + 29 - 1) then yday - 1 else yday
    let month := day / 31
    let last := Time.daysBefore.getD (month + 1) 0
    if day ≥ last then (month + 2, day - last + 1)
    else (month + 1, day - Time.daysBefore.getD month 0 + 1)

/-- Go's `appendInt`: the decimal digits of `x`, padded with zeros on the left up to
`width`. -/
def Time.appendInt (x width : Nat) : List Char :=
  List.replicate (width - (Nat.toDigits 10 x).length) '0' ++ Nat.toDigits 10 x

/-- The method `Format` with the layout `2006-01-02 15:04:05`. -/
def Time.formatDateTime (t : Time) : String :=
  let yd := Time.yearDay t
  let md := Time.monthDay (Time.isLeap yd.1) yd.2
  let sec := t % 86400
  String.mk (Time.appendInt yd.1 4 ++ ['-'] ++ Time.appendInt md.1 2 ++ ['-'] ++
    Time.appendInt md.2 2 ++ [' '] ++ Time.appendInt (sec / 3600) 2 ++ [':'] ++
    Time.appendInt (sec % 3600 / 60) 2 ++ [':'] ++ Time.appendInt (sec % 60) 2)

/-- The method `Format` with the layout `20060102150405`. -/
def Time.formatCompact (t : Time) : String :=
  let yd := Time.yearDay t
  let md := Time.monthDay (Time.isLeap yd.1) yd.2
  let sec := t % 86400
  String.mk (Time.appendInt yd.1 4 ++ Time.appendInt md.1 2 ++ Time.appendInt md.2 2 ++
    Time.appendInt (sec / 3600) 2 ++ Time.appendInt (sec % 3600 / 60) 2 ++
    Time.appendInt (sec % 60) 2)
/-! ## Spreadsheet export (`internal/pkg/excel/excel.go`) -/

/-- A value handed to excelize's `SetCellValue`: an unsigned integer or a string. -/
inductive CellValue where
  | num (n : Nat)
  | str (s : String)
deriving DecidableEq, Repr

/-- One call `SetCellValue(sheet, fmt.Sprintf("%c%d", column, row), value)`: the cell
reference is kept as its column letter and its row number. -/
structure CellWrite where
  column : Char
  row : Nat
  value : CellValue
deriving DecidableEq, Repr

/-- The workbook saved by `Export`: its path, the name of its sheet and the cells set. -/
structure ExportedFile where
  path : String
  sheetName : String
  cells : List CellWrite
deriving DecidableEq, Repr

/-- Which file-system calls of `Export` fail, and with what message. -/
structure FileFaults where
  mkdirAll : String → Option String
  saveAs : String → Option String

/-- A file system on which every call goes through. -/
def noFileFaults : FileFaults :=
  ⟨fun _ => none, fun _ => none⟩

/-- The text of an error value that reaches a caller of package `excel`: one of the three
declared errors, or an error of the file system or of excelize. -/
inductive ExportError where
  | declared (e : ExcelError)
  | foreign (msg : String)
deriving DecidableEq, Repr

/-- The method `Error()` of the errors of package `excel`. -/
def ExcelError.Error : ExcelError → String
  | .ErrInvalidFile => "无效的Excel文件"
  | .ErrInvalidSheetName => "无效的工作表名称"
  | .ErrInvalidData => "无效的数据"

/-- The method `Error()` of an error returned by `Export`. -/
def ExportError.Error : ExportError → String
  | .declared e => e.Error
  | .foreign msg => msg

/-- The slice `headers` of `Export`. -/
def Export.headers : List String :=
  ["ID", "云服务商", "云产品", "配置项名称", "推荐配置值", "风险说明", "检查方法", "配置方式",
    "参考资料", "创建时间", "更新时间"]

/-- The slice `rowData` that `Export` builds for one item. -/
def Export.rowData (item : ConfigurationItem) : List CellValue :=
  [.num item.ID, .str item.Provider.Name, .str item.Product.Name, .str item.Name,
    .str item.RecommendedValue, .str item.RiskDescription, .str item.CheckMethod,
    .str item.ConfigurationMethod, .str item.Reference,
    .str (Time.formatDateTime item.CreatedAt), .str (Time.formatDateTime item.UpdatedAt)]

/-- The inner loops `for j, cellData := range rowData` and `for i, header := range headers`,
entered at index `j`: the cell in row `row` and column `'A' + j` is set to the value at
index `j`. -/
def Export.rowCells (row : Nat) : Nat → List CellValue → List CellWrite
  | _, [] => []
  | j, v :: vs => ⟨Char.ofNat (65 + j), row, v⟩ :: Export.rowCells row (j + 1) vs

/-- The loop `for i, item := range items`, entered at index `i`: the item at index `i` is
written to row `i + 2`. -/
def Export.dataCells : Nat → List ConfigurationItem → List CellWrite
  | _, [] => []
  | i, item :: rest =>
    Export.rowCells (i + 2) 0 (Export.rowData item) ++ Export.dataCells (i + 1) rest

/-- Every cell `Export` sets, in the order of the calls: the header in row 1, then the data
rows. -/
def Export.cells (items : List ConfigurationItem) : List CellWrite :=
  Export.rowCells 1 0 (Export.headers.map CellValue.str) ++ Export.dataCells 0 items

/-- Go's `filepath.Join` of a directory and a file name, for a directory path that is
already clean. -/
def filepathJoin (dir file : String) : String :=
  if dir = "" then file else dir ++ "/" ++ file

/-- The method `ConfigItemExporter.Export`: the returned path and error, and the workbook
saved when there is no error. Header style and column widths carry no cell content and are
left out. -/
def Export (fsl : FileFaults) (exportPath : String) (now : Time)
    (items : List ConfigurationItem) : (String × Option ExportError) × Option ExportedFile :=
  if items.length = 0 then (("", some (.declared .ErrInvalidData)), none)
  else
    match fsl.mkdirAll exportPath with
    | some msg => (("", some (.foreign msg)), none)
    | none =>
      let filename := "配置项列表_" ++ Time.formatCompact now ++ ".xlsx"
      let filepath := filepathJoin exportPath filename
      match fsl.saveAs filepath with
      | some msg => (("", some (.foreign msg)), none)
      | none => ((filepath, none), some ⟨filepath, "配置项列表", Export.cells items⟩)

/-- The constant `TotalCellChars` of excelize: the most characters a cell holds. -/
def excelize.TotalCellChars : Nat := 32767

/-- The test `isInCharacterRange` of `encoding/xml`: the characters XML 1.0 allows. -/
def xml.isInCharacterRange (c : Char) : Bool :=
  c.toNat == 0x09 || c.toNat == 0x0A || c.toNat == 0x0D ||
    (0x20 ≤ c.toNat && c.toNat ≤ 0xD7FF) || (0xE000 ≤ c.toNat && c.toNat ≤ 0xFFFD) ||
    (0x10000 ≤ c.toNat && c.toNat ≤ 0x10FFFF)

/-- A character of a text node after `xml.Marshal` and the XML decoder: the encoder writes
U+FFFD for a character XML 1.0 does not allow, and every other character comes back as it
was. -/
def xml.roundTripChar (c : Char) : Char :=
  if xml.isInCharacterRange c then c else Char.ofNat 0xFFFD

/-- The value of a hexadecimal digit, as in Go's `unhex`. -/
def excelize.unhex (c : Char) : Option Nat :=
  if 48 ≤ c.toNat ∧ c.toNat ≤ 57 then some (c.toNat - 48)
  else if 97 ≤ c.toNat ∧ c.toNat ≤ 102 then some (c.toNat - 87)
  else if 65 ≤ c.toNat ∧ c.toNat ≤ 70 then some (c.toNat - 55)
  else none

/-- The text begins with a match of the pattern `_x[a-zA-Z\d]{4}_` that excelize's
`bstrUnmarshal` looks for. -/
def excelize.startsEscape : List Char → Bool
  | c0 :: c1 :: a :: b :: c :: d :: c6 :: _ =>
    c0 == '_' && c1 == 'x' && a.isAlphanum && b.isAlphanum && c.isAlphanum && d.isAlphanum &&
      c6 == '_'
  | _ => false

/-- What `bstrUnmarshal` puts in place of the escape a text begins with: the character with
the code the four hexadecimal digits write, and nothing when `strconv.Unquote` refuses the
four characters (a character that is no hexadecimal digit, or the code of a surrogate). -/
def excelize.unescape : List Char → List Char
  | _ :: _ :: a :: b :: c :: d :: _ =>
    match excelize.unhex a, excelize.unhex b, excelize.unhex c, excelize.unhex d with
    | some p, some q, some r, some s =>
      if Nat.isValidChar (((p * 16 + q) * 16 + r) * 16 + s) then
        [Char.ofNat (((p * 16 + q) * 16 + r) * 16 + s)]
      else []
    | _, _, _, _ => []
  | _ => []

/-- The function `bstrUnmarshal` of excelize, which `GetRows` applies to the text of a shared
string: every match of the escape pattern, found from left to right without overlap, is
replaced by what it stands for. The first argument counts the characters of a match still to
pass over. -/
def excelize.bstrUnmarshal : Nat → List Char → List Char
  | _, [] => []
  | skip + 1, _ :: rest => excelize.bstrUnmarshal skip rest
  | 0, c :: rest =>
    if excelize.startsEscape (c :: rest) then
      excelize.unescape (c :: rest) ++ excelize.bstrUnmarshal 6 rest
    else c :: excelize.bstrUnmarshal 0 rest

/-- The `float64` nearest to a natural number, ties to even, as a natural number. -/
def float64OfNat (n : Nat) : Nat :=
  if n < 2 ^ 53 then n
  else
    let e := (Nat.toDigits 2 n).length - 53
    let q := n / 2 ^ e
    let r := n % 2 ^ e
    let q := if 2 * r > 2 ^ e ∨ (2 * r = 2 ^ e ∧ q % 2 = 1) then q + 1 else q
    q * 2 ^ e

/-- Go's `strconv.FormatFloat(f, 'G', 15, 64)` for a whole number `f` of 16 digits or more:
15 significant digits, ties to even, without the zeros at the end, in E notation. -/
def formatFloatG15 (f : Nat) : String :=
  let nd := (Nat.toDigits 10 f).length
  let k := nd - 15
  let q := f / 10 ^ k
  let r := f % 10 ^ k
  let q := if 2 * r > 10 ^ k ∨ (2 * r = 10 ^ k ∧ q % 2 = 1) then q + 1 else q
  let exp := if q = 10 ^ 15 then nd else nd - 1
  let q := if q = 10 ^ 15 then 10 ^ 14 else q
  let mant := ((Nat.toDigits 10 q).reverse.dropWhile (fun c => c == '0')).reverse
  String.mk (mant.take 1 ++ (if mant.length > 1 then '.' :: mant.drop 1 else []) ++
    ['E', '+'] ++ Time.appendInt exp 2)

/-- The text `GetRows` returns for a cell that holds a whole number and has no number
format: the decimal digits for a number of at most 15 digits, and the number as a
`float64` with 15 significant digits in E notation for a longer one. -/
def excelize.general (n : Nat) : String :=
  if n < 10 ^ 15 then toString n else formatFloatG15 (float64OfNat n)

/-- The text excelize's `GetRows` returns, once the workbook is saved and opened again, for
a cell set to a value by `SetCellValue`. A number is read with the general format. A string
is cut after `TotalCellChars` characters when it is set, written and read as XML, and passed
through `bstrUnmarshal`. -/
def CellValue.text : CellValue → String
  | .num n => excelize.general n
  | .str s =>
    String.mk (excelize.bstrUnmarshal 0
      ((s.data.take excelize.TotalCellChars).map xml.roundTripChar))

/-- A text that a cell gives back as it was set: at most `TotalCellChars` characters, each
of them allowed by XML 1.0, and no match of the escape pattern anywhere. -/
def excelize.keepsText (s : String) : Bool :=
  decide (s.data.length ≤ excelize.TotalCellChars) && s.data.all xml.isInCharacterRange &&
    s.data.tails.all (fun t => !excelize.startsEscape t)

/-- The value of a cell after a sequence of `SetCellValue` calls: the last value set at that
reference, if any. -/
def cellAt (column : Char) (row : Nat) : List CellWrite → Option CellValue
  | [] => none
  | w :: rest =>
    match cellAt column row rest with
    | some v => some v
    | none => if w.column = column ∧ w.row = row then some w.value else none

/-- A row without the run of empty cells at its end. -/
def dropTrailingEmpty : List String → List String
  | [] => []
  | c :: rest =>
    match dropTrailingEmpty rest with
    | [] => if c = "" then [] else [c]
    | kept => c :: kept

/-- The rows without the run of rows at the end that hold no text. -/
def dropTrailingRows : List (List String) → List (List String)
  | [] => []
  | r :: rest =>
    match dropTrailingRows rest with
    | [] => if r = [] then [] else [r]
    | kept => r :: kept

/-- The rows excelize's `GetRows` returns for a saved sheet whose cells were set by the given
calls in columns `A` to `Z`: one row for every row number up to the last row that holds a
text, each row holding the texts its cells give back, up to the last cell whose text is not
empty. -/
def GetRows (cells : List CellWrite) : List (List String) :=
  dropTrailingRows ((List.range ((cells.map (fun w => w.row)).foldr max 0)).map (fun r =>
    dropTrailingEmpty ((List.range 26).map (fun j =>
      match cellAt (Char.ofNat (65 + j)) (r + 1) cells with
      | some v => v.text
      | none => ""))))

/-! ## Handlers (`internal/api/handler`) -/

/-- The struct `handler.Response` together with the HTTP status it is sent with; `Data` is
the `gin.H` object of string fields of a success response. -/
structure Response where
  httpStatus : Nat
  Code : Nat
  Message : String
  Data : List (String × String)
deriving DecidableEq, Repr

/-- The method `BaseHandler.Success` for a `gin.H` payload. -/
def Success (data : List (String × String)) : Response :=
  ⟨200, 0, "success", data⟩

/-- The method `BaseHandler.Error`. -/
def Error (httpStatus code : Nat) (message : String) : Response :=
  ⟨httpStatus, code, message, []⟩

/-- A Go `error` value that reaches `HandleServiceError`: a `*service.ServiceError` or any
other error. -/
inductive GoError where
  | service (e : ServiceError)
  | other (msg : String)
deriving DecidableEq, Repr

/-- The method `BaseHandler.HandleServiceError` for a non-nil error. -/
def HandleServiceError (err : GoError) : Response :=
  match err with
  | .other _ => Error 500 5000 "服务器内部错误"
  | .service serviceErr =>
    if serviceErr.Code = ErrCodeNotFound then Error 404 4004 serviceErr.Message
    else if serviceErr.Code = ErrCodeInvalidData then Error 400 4000 serviceErr.Message
    else if serviceErr.Code = ErrCodeDuplicate then Error 409 4009 serviceErr.Message
    else Error 500 5000 serviceErr.Message

/-- The method `BaseHandler.GetUintQueryParam` on the text of the query parameter, which is
empty when the parameter is absent. -/
def GetUintQueryParam (valueStr : String) : Nat × Bool :=
  if valueStr = "" then (0, false)
  else
    match strconv.ParseUint valueStr 32 with
    | .error _ => (0, false)
    | .ok value => (value, true)

/-- The method `BaseHandler.GetQueryParam` on the text of the query parameter. -/
def GetQueryParam (value : String) : String × Bool :=
  (value, value ≠ "")

/-- Go's `filepath.Base` for a path without a trailing separator: the text after the last
`/`, and `.` for the empty path. -/
def filepathBase (path : String) : String :=
  if path = "" then "."
  else String.mk ((path.data.reverse.takeWhile (fun c => c ≠ '/')).reverse)

/-- The query parameters read by `ExportExcel`. -/
structure ExportQuery where
  cloudProviderId : String
  productId : String
  keyword : String
deriving DecidableEq, Repr

/-- The filter `ExportExcel` builds from the query: page 1, page size 1000 and the optional
parameters that are present. -/
def ExportExcel.filter (q : ExportQuery) : ConfigItemFilter :=
  ⟨if (GetUintQueryParam q.cloudProviderId).2 then some (GetUintQueryParam q.cloudProviderId).1
    else none,
    if (GetUintQueryParam q.productId).2 then some (GetUintQueryParam q.productId).1 else none,
    if (GetQueryParam q.keyword).2 then some (GetQueryParam q.keyword).1 else none,
    1, 1000⟩

/-- The handler `ConfigurationItemHandler.ExportExcel`: the response and the workbook saved,
if any. A `nil` result next to a `nil` error would make the handler dereference `nil`; gin
answers a panic with status 500. -/
def ExportExcel (fl : Faults) (fsl : FileFaults) (exportPath : String) (now : Time)
    (s : Store) (q : ExportQuery) : Response × Option ExportedFile :=
  match GetConfigItemsByFilter fl s (ExportExcel.filter q) with
  | (_, some err) => (HandleServiceError (.service err), none)
  | (none, none) => (⟨500, 0, "", []⟩, none)
  | (some result, none) =>
    match Export fsl exportPath now result.Data with
    | ((_, some err), file) => (Error 500 5000 ("导出Excel失败：" ++ err.Error), file)
    | ((filePath, none), file) =>
      (Success [("message", "导出成功"), ("filePath", filePath),
        ("fileName", filepathBase filePath)], file)

/-- The texts `GetRows` returns for the row `Export` writes for one item. -/
def Export.rowTexts (item : ConfigurationItem) : List String :=
  (Export.rowData item).map CellValue.text

/-- A data row read back from an exported sheet with columns 2 and 3 replaced by the decimal
provider id and product id of the item. -/
def remapIds (item : ConfigurationItem) (row : List String) : List String :=
  (row.set 1 (toString item.CloudProviderID)).set 2 (toString item.ProductID)

/-- The candidate the import reads for an item: its ids and texts, with a zero id, zero
timestamps and zero associations. -/
def candidateOf (item : ConfigurationItem) : ConfigurationItem :=
  ⟨0, 0, 0, item.CloudProviderID, item.ProductID, item.Name, item.RecommendedValue,
    item.RiskDescription, item.CheckMethod, item.ConfigurationMethod, item.Reference,
    CloudProvider.zero, CloudProduct.zero⟩

/-- A store with 150 configuration items of provider 1 and product 10. -/
def sampleStoreMany : Store :=
  ⟨[sampleAws, sampleAliyun], [sampleEc2],
    (List.range 150).map (fun i => { sampleItem 1 10 "tls" with ID := i + 1 })⟩

/-- The workbook exported from the store with 150 items: the first 100 items, preloaded. -/
def sampleExportMany : ExportedFile :=
  ⟨"exports/配置项列表_20240101070405.xlsx", "配置项列表",
    Export.cells ((List.range 100).map (fun i =>
      { sampleItem 1 10 "tls" with ID := i + 1, Provider := sampleAws, Product := sampleEc2 }))⟩

/-- A text has the shape `YYYY-MM-DD HH:MM:SS`: 19 characters, decimal digits except for the
two hyphens, the blank and the two colons. -/
def isDateTimeText (s : String) : Bool :=
  match s.data with
  | [y1, y2, y3, y4, a, m1, m2, b, d1, d2, c, h1, h2, e, n1, n2, f, s1, s2] =>
    [y1, y2, y3, y4, m1, m2, d1, d2, h1, h2, n1, n2, s1, s2].all
        (fun x => decide (48 ≤ x.toNat ∧ x.toNat ≤ 57)) &&
      a == '-' && b == '-' && c == ' ' && e == ':' && f == ':'
  | _ => false

/-- The rows of an exported sheet prepared for import: the rows read back from the cells,
with columns 2 and 3 of the data row of each item replaced by the decimal ids of the item. -/
def roundTripRows (cells : List CellWrite) (items : List ConfigurationItem) :
    List (List String) :=
  match GetRows cells with
  | [] => []
  | header :: data => header :: List.zipWith remapIds items data

/-- An item as `GetByFilter` returns it: id 7, provider 1, product 10, an empty reference,
both associations preloaded and both timestamps on 2024-01-01 07:04:05. -/
def sampleExportItem : ConfigurationItem :=
  { sampleItem 1 10 "mfa" with
    ID := 7, Reference := "", CreatedAt := 63839689445, UpdatedAt := 63839689445,
    Provider := sampleAws, Product := sampleEc2 }

/-- The workbook `Export` saves for `sampleExportItem`. -/
def sampleExportFile : ExportedFile :=
  ⟨"exports/配置项列表_20240101070405.xlsx", "配置项列表", Export.cells [sampleExportItem]⟩

/-- An item whose provider id is `2 ^ 32`. -/
def sampleWideItem : ConfigurationItem :=
  { sampleExportItem with CloudProviderID := 4294967296 }

/-! ## The catalogue: providers and products -/

/-- Which database calls of the provider and product repositories fail, other than the
lookups by id: one oracle per repository method, indexed by the argument of the call. -/
structure CatalogFaults where
  providerGetByCode : String → Option DbError
  providerCreate : CloudProvider → Option DbError
  providerSave : CloudProvider → Option DbError
  providerDelete : Nat → Option DbError
  productGetByCode : Nat → String → Option DbError
  productCreate : CloudProduct → Option DbError
  productSave : CloudProduct → Option DbError
  productDelete : Nat → Option DbError

/-- A catalogue on which every call goes through. -/
def noCatalogFaults : CatalogFaults :=
  ⟨fun _ => none, fun _ => none, fun _ => none, fun _ => none, fun _ _ => none, fun _ => none,
    fun _ => none, fun _ => none⟩

/-- SQL `a = b` on two texts of a `code` column: equality under the collation of the column,
which compares the characters the way `collationEq` does, so that two texts are equal when
they are the same text once every character is folded. -/
def sqlEq (a b : String) : Bool :=
  a.data.map Char.toLower == b.data.map Char.toLower

/-- gorm's `First` on the rows that satisfy a condition: the statement orders by primary
key, so the row returned is the one with the least key. -/
def firstByKey {α : Type} (key : α → Nat) (cond : α → Bool) (rows : List α) : Option α :=
  (rows.filter cond).foldl
    (fun best r =>
      match best with
      | none => some r
      | some b => if key r < key b then some r else some b)
    none

/-- The method `cloudProviderRepository.GetByCode`: `Where("code = ?", code).First`. -/
def cloudProviderRepository.GetByCode (cfl : CatalogFaults) (s : Store) (code : String) :
    Except DbError (Option CloudProvider) :=
  match cfl.providerGetByCode code with
  | some e => .error e
  | none => .ok (firstByKey (fun p => p.ID) (fun p => sqlEq p.Code code) s.providers)

/-- The next value of the auto-increment column of the provider table. -/
def nextProviderID (rows : List CloudProvider) : Nat :=
  (rows.map (fun r => r.ID)).foldr max 0 + 1

/-- The row gorm writes for `Create(provider)`. -/
def createdProvider (now : Time) (rows : List CloudProvider) (provider : CloudProvider) :
    CloudProvider :=
  { provider with
    ID := if provider.ID = 0 then nextProviderID rows else provider.ID
    CreatedAt := if provider.CreatedAt = 0 then now else provider.CreatedAt
    UpdatedAt := if provider.UpdatedAt = 0 then now else provider.UpdatedAt }

/-- The method `cloudProviderRepository.Create`: one `INSERT` into the provider table. -/
def cloudProviderRepository.Create (cfl : CatalogFaults) (now : Time) (s : Store)
    (provider : CloudProvider) : Store × Option DbError :=
  match cfl.providerCreate provider with
  | some e => (s, some e)
  | none =>
    let row := createdProvider now s.providers provider
    if s.providers.any (fun r => r.ID == row.ID) then (s, some duplicateKey)
    else ({ s with providers := s.providers ++ [row] }, none)

/-- The row gorm writes for `Save(provider)` on an existing primary key. -/
def savedProvider (now : Time) (provider : CloudProvider) : CloudProvider :=
  { provider with UpdatedAt := now }

/-- The method `cloudProviderRepository.Update`: gorm's `Save` on the provider table. -/
def cloudProviderRepository.Update (cfl : CatalogFaults) (now : Time) (s : Store)
    (provider : CloudProvider) : Store × Option DbError :=
  match cfl.providerSave provider with
  | some e => (s, some e)
  | none =>
    if provider.ID = 0 then cloudProviderRepository.Create cfl now s provider
    else if s.providers.any (fun r => r.ID == provider.ID) then
      let row := savedProvider now provider
      ({ s with providers := s.providers.map (fun r => if r.ID = provider.ID then row else r) },
        none)
    else ({ s with providers := s.providers ++ [savedProvider now provider] }, none)

/-- The method `cloudProviderRepository.Delete`: `DELETE FROM cloud_providers WHERE id = ?`.
No other table is named in the statement. -/
def cloudProviderRepository.Delete (cfl : CatalogFaults) (s : Store) (id : Nat) :
    Store × Option DbError :=
  match cfl.providerDelete id with
  | some e => (s, some e)
  | none => ({ s with providers := s.providers.filter (fun r => r.ID != id) }, none)

/-- The method `cloudProductRepository.GetByCode`:
`Where("cloud_provider_id = ? AND code = ?", providerID, code).First`. -/
def cloudProductRepository.GetByCode (cfl : CatalogFaults) (s : Store) (providerID : Nat)
    (code : String) : Except DbError (Option CloudProduct) :=
  match cfl.productGetByCode providerID code with
  | some e => .error e
  | none =>
    .ok (firstByKey (fun p => p.ID)
      (fun p => p.CloudProviderID == providerID && sqlEq p.Code code) s.products)

/-- The next value of the auto-increment column of the product table. -/
def nextProductID (rows : List CloudProduct) : Nat :=
  (rows.map (fun r => r.ID)).foldr max 0 + 1

/-- The row gorm writes for `Create(product)`. -/
def createdProduct (now : Time) (rows : List CloudProduct) (product : CloudProduct) :
    CloudProduct :=
  { product with
    ID := if product.ID = 0 then nextProductID rows else product.ID
    CreatedAt := if product.CreatedAt = 0 then now else product.CreatedAt
    UpdatedAt := if product.UpdatedAt = 0 then now else product.UpdatedAt }

/-- The method `cloudProductRepository.Create`: one `INSERT` into the product table. -/
def cloudProductRepository.Create (cfl : CatalogFaults) (now : Time) (s : Store)
    (product : CloudProduct) : Store × Option DbError :=
  match cfl.productCreate product with
  | some e => (s, some e)
  | none =>
    let row := createdProduct now s.products product
    if s.products.any (fun r => r.ID == row.ID) then (s, some duplicateKey)
    else ({ s with products := s.products ++ [row] }, none)

/-- The row gorm writes for `Save(product)` on an existing primary key. -/
def savedProduct (now : Time) (product : CloudProduct) : CloudProduct :=
  { product with UpdatedAt := now }

/-- The method `cloudProductRepository.Update`: gorm's `Save` on the product table. -/
def cloudProductRepository.Update (cfl : CatalogFaults) (now : Time) (s : Store)
    (product : CloudProduct) : Store × Option DbError :=
  match cfl.productSave product with
  | some e => (s, some e)
  | none =>
    if product.ID = 0 then cloudProductRepository.Create cfl now s product
    else if s.products.any (fun r => r.ID == product.ID) then
      let row := savedProduct now product
      ({ s with products := s.products.map (fun r => if r.ID = product.ID then row else r) },
        none)
    else ({ s with products := s.products ++ [savedProduct now product] }, none)

/-- The method `cloudProductRepository.Delete`: `DELETE FROM cloud_products WHERE id = ?`. -/
def cloudProductRepository.Delete (cfl : CatalogFaults) (s : Store) (id : Nat) :
    Store × Option DbError :=
  match cfl.productDelete id with
  | some e => (s, some e)
  | none => ({ s with products := s.products.filter (fun r => r.ID != id) }, none)

/-- The method `cloudProviderService.CreateProvider`. -/
def CreateProvider (cfl : CatalogFaults) (now : Time) (s : Store) (provider : CloudProvider) :
    Store × Option ServiceError :=
  match cloudProviderRepository.GetByCode cfl s provider.Code with
  | .error e => (s, some (NewServiceError ErrCodeDatabase "创建云服务商失败" (some e)))
  | .ok (some _) => (s, some (NewServiceError ErrCodeDuplicate "云服务商代码已存在" none))
  | .ok none =>
    match cloudProviderRepository.Create cfl now s provider with
    | (s1, some e) => (s1, some (NewServiceError ErrCodeDatabase "创建云服务商失败" (some e)))
    | (s1, none) => (s1, none)

/-- The code check of `UpdateProvider`, run only when the code changes. -/
def UpdateProvider.checkCode (cfl : CatalogFaults) (s : Store)
    (provider existingProvider : CloudProvider) : Option ServiceError :=
  if provider.Code ≠ existingProvider.Code then
    match cloudProviderRepository.GetByCode cfl s provider.Code with
    | .error e => some (NewServiceError ErrCodeDatabase "更新云服务商失败" (some e))
    | .ok (some codeCheck) =>
      if codeCheck.ID ≠ provider.ID then
        some (NewServiceError ErrCodeDuplicate "云服务商代码已存在" none)
      else none
    | .ok none => none
  else none

/-- The method `cloudProviderService.UpdateProvider`. -/
def UpdateProvider (fl : Faults) (cfl : CatalogFaults) (now : Time) (s : Store)
    (provider : CloudProvider) : Store × Option ServiceError :=
  match cloudProviderRepository.GetByID fl s provider.ID with
  | .error e => (s, some (NewServiceError ErrCodeDatabase "更新云服务商失败" (some e)))
  | .ok none => (s, some (NewServiceError ErrCodeNotFound "云服务商不存在" none))
  | .ok (some existingProvider) =>
    match UpdateProvider.checkCode cfl s provider existingProvider with
    | some err => (s, some err)
    | none =>
      match cloudProviderRepository.Update cfl now s provider with
      | (s1, some e) => (s1, some (NewServiceError ErrCodeDatabase "更新云服务商失败" (some e)))
      | (s1, none) => (s1, none)

/-- The method `cloudProviderService.DeleteProvider`. -/
def DeleteProvider (fl : Faults) (cfl : CatalogFaults) (s : Store) (id : Nat) :
    Store × Option ServiceError :=
  match cloudProviderRepository.GetByID fl s id with
  | .error e => (s, some (NewServiceError ErrCodeDatabase "删除云服务商失败" (some e)))
  | .ok none => (s, some (NewServiceError ErrCodeNotFound "云服务商不存在" none))
  | .ok (some _) =>
    match cloudProviderRepository.Delete cfl s id with
    | (s1, some e) => (s1, some (NewServiceError ErrCodeDatabase "删除云服务商失败" (some e)))
    | (s1, none) => (s1, none)

/-- The method `cloudProductService.CreateProduct`. -/
def CreateProduct (fl : Faults) (cfl : CatalogFaults) (now : Time) (s : Store)
    (product : CloudProduct) : Store × Option ServiceError :=
  match cloudProviderRepository.GetByID fl s product.CloudProviderID with
  | .error e => (s, some (NewServiceError ErrCodeDatabase "创建云产品失败" (some e)))
  | .ok none => (s, some (NewServiceError ErrCodeNotFound "云服务商不存在" none))
  | .ok (some _) =>
    match cloudProductRepository.GetByCode cfl s product.CloudProviderID product.Code with
    | .error e => (s, some (NewServiceError ErrCodeDatabase "创建云产品失败" (some e)))
    | .ok (some _) =>
      (s, some (NewServiceError ErrCodeDuplicate "该服务商下云产品代码已存在" none))
    | .ok none =>
      match cloudProductRepository.Create cfl now s product with
      | (s1, some e) => (s1, some (NewServiceError ErrCodeDatabase "创建云产品失败" (some e)))
      | (s1, none) => (s1, none)

/-- The provider check of `UpdateProduct`, run only when the provider id changes. -/
def UpdateProduct.checkProvider (fl : Faults) (s : Store)
    (product existingProduct : CloudProduct) : Option ServiceError :=
  if product.CloudProviderID ≠ existingProduct.CloudProviderID then
    match cloudProviderRepository.GetByID fl s product.CloudProviderID with
    | .error e => some (NewServiceError ErrCodeDatabase "更新云产品失败" (some e))
    | .ok none => some (NewServiceError ErrCodeNotFound "云服务商不存在" none)
    | .ok (some _) => none
  else none

/-- The code check of `UpdateProduct`, run only when the code or the provider id changes. -/
def UpdateProduct.checkCode (cfl : CatalogFaults) (s : Store)
    (product existingProduct : CloudProduct) : Option ServiceError :=
  if product.Code ≠ existingProduct.Code ∨
      product.CloudProviderID ≠ existingProduct.CloudProviderID then
    match cloudProductRepository.GetByCode cfl s product.CloudProviderID product.Code with
    | .error e => some (NewServiceError ErrCodeDatabase "更新云产品失败" (some e))
    | .ok (some codeCheck) =>
      if codeCheck.ID ≠ product.ID then
        some (NewServiceError ErrCodeDuplicate "该服务商下云产品代码已存在" none)
      else none
    | .ok none => none
  else none

/-- The method `cloudProductService.UpdateProduct`. -/
def UpdateProduct (fl : Faults) (cfl : CatalogFaults) (now : Time) (s : Store)
    (product : CloudProduct) : Store × Option ServiceError :=
  match cloudProductRepository.GetByID fl s product.ID with
  | .error e => (s, some (NewServiceError ErrCodeDatabase "更新云产品失败" (some e)))
  | .ok none => (s, some (NewServiceError ErrCodeNotFound "云产品不存在" none))
  | .ok (some existingProduct) =>
    match UpdateProduct.checkProvider fl s product existingProduct with
    | some err => (s, some err)
    | none =>
      match UpdateProduct.checkCode cfl s product existingProduct with
      | some err => (s, some err)
      | none =>
        match cloudProductRepository.Update cfl now s product with
        | (s1, some e) => (s1, some (NewServiceError ErrCodeDatabase "更新云产品失败" (some e)))
        | (s1, none) => (s1, none)

/-- The method `cloudProductService.DeleteProduct`. -/
def DeleteProduct (fl : Faults) (cfl : CatalogFaults) (s : Store) (id : Nat) :
    Store × Option ServiceError :=
  match cloudProductRepository.GetByID fl s id with
  | .error e => (s, some (NewServiceError ErrCodeDatabase "删除云产品失败" (some e)))
  | .ok none => (s, some (NewServiceError ErrCodeNotFound "云产品不存在" none))
  | .ok (some _) =>
    match cloudProductRepository.Delete cfl s id with
    | (s1, some e) => (s1, some (NewServiceError ErrCodeDatabase "删除云产品失败" (some e)))
    | (s1, none) => (s1, none)

/-- The checks `CreateConfigItem` runs before the insert: the error it returns from them, or
`none` when it goes on to `repo.Create`. -/
def CreateConfigItem.validation (fl : Faults) (s : Store) (item : ConfigurationItem) :
    Option ServiceError :=
  match cloudProviderRepository.GetByID fl s item.CloudProviderID with
  | .error e => some (NewServiceError ErrCodeDatabase "创建配置项失败" (some e))
  | .ok none => some (NewServiceError ErrCodeNotFound "云服务商不存在" none)
  | .ok (some _) =>
    match cloudProductRepository.GetByID fl s item.ProductID with
    | .error e => some (NewServiceError ErrCodeDatabase "创建配置项失败" (some e))
    | .ok none => some (NewServiceError ErrCodeNotFound "云产品不存在" none)
    | .ok (some product) =>
      if product.CloudProviderID ≠ item.CloudProviderID then
        some (NewServiceError ErrCodeInvalidData "云产品不属于指定的云服务商" none)
      else none

/-- Product 20, of provider 2. -/
def sampleEcs : CloudProduct := ⟨20, 0, 0, 2, "ECS", "ecs", "", CloudProvider.zero⟩

/-- Two providers, one product of each, and configuration item 1 of provider 1 and
product 10, created at instant 5. -/
def sampleCatalogStore : Store :=
  ⟨[sampleAws, sampleAliyun], [sampleEc2, sampleEcs], [createdRow 5 [] (sampleItem 1 10 "mfa")]⟩

/-- The update of configuration item 1 that moves it to provider 7, which does not exist, and
to product 20, which belongs to provider 2. -/
def sampleUpdateBoth : ConfigurationItem :=
  { sampleItem 7 20 "mfa" with ID := 1 }

/-- The helper `BaseHandler.GetIDFromPath`: the id read from the path parameter, or `none`
when the helper has answered 400. -/
def GetIDFromPath (idStr : String) : Option Nat :=
  match strconv.ParseUint idStr 32 with
  | .error _ => none
  | .ok id => some id

/-- The handler `ConfigurationItemHandler.Update`: the store after the request and the
response. `body` is what `ShouldBindJSON` makes of the request body: the text of its error,
or the item it has filled, in which a field absent from the body keeps its zero value. -/
def ConfigurationItemHandler.Update (fl : Faults) (now : Time) (s : Store) (idStr : String)
    (body : Except String ConfigurationItem) : Store × Response :=
  match GetIDFromPath idStr with
  | none => (s, Error 400 4000 "无效的ID参数")
  | some id =>
    match body with
    | .error msg => (s, Error 400 4000 ("无效的请求参数: " ++ msg))
    | .ok item =>
      match UpdateConfigItem fl now s { item with ID := id } with
      | (s1, some err) => (s1, HandleServiceError (.service err))
      | (s1, none) => (s1, Success [("message", "配置项更新成功")])

/-- Two products share a (provider id, code) pair, the codes being compared as the database
compares them. -/
def CloudProduct.samePair (a b : CloudProduct) : Prop :=
  a.CloudProviderID = b.CloudProviderID ∧ sqlEq a.Code b.Code = true

/-- No two product rows share a (provider id, code) pair. -/
def Store.productCodesUnique (s : Store) : Prop :=
  s.products.Pairwise (fun a b => ¬ a.samePair b)

/-- No two provider rows share a code, the codes being compared as the database compares
them. -/
def Store.providerCodesUnique (s : Store) : Prop :=
  s.providers.Pairwise (fun a b => sqlEq a.Code b.Code = false)

/-- The primary key of the provider table: no two provider rows share an id. -/
def Store.providerKeysUnique (s : Store) : Prop :=
  (s.providers.map (fun p => p.ID)).Nodup

instance (a b : CloudProduct) : Decidable (a.samePair b) := by
  unfold CloudProduct.samePair; infer_instance

instance (s : Store) : Decidable s.productCodesUnique := by
  unfold Store.productCodesUnique; infer_instance

instance (s : Store) : Decidable s.providerCodesUnique := by
  unfold Store.providerCodesUnique; infer_instance

instance (s : Store) : Decidable s.providerKeysUnique := by
  unfold Store.providerKeysUnique; infer_instance

/-- An instant as `time.Now()` reads it: the nanoseconds of the wall clock since the zero
instant. -/
abbrev Instant := Nat

/-- The whole seconds of an instant; a layout without fractional seconds shows nothing
else of it. -/
def Instant.seconds (i : Instant) : Time :=
  i / 1000000000

/-- The method `Export` called at an instant: `time.Now()` is read once, for the name of the
file. -/
def Export.atInstant (fsl : FileFaults) (exportPath : String) (i : Instant)
    (items : List ConfigurationItem) : (String × Option ExportError) × Option ExportedFile :=
  Export fsl exportPath (Instant.seconds i) items

/-! ## What a saved workbook gives back -/

/-- The six texts of an item that the import reads are texts a cell gives back as they were
set. -/
def ConfigurationItem.textsKept (it : ConfigurationItem) : Prop :=
  excelize.keepsText it.Name = true ∧ excelize.keepsText it.RecommendedValue = true ∧
    excelize.keepsText it.RiskDescription = true ∧ excelize.keepsText it.CheckMethod = true ∧
    excelize.keepsText it.ConfigurationMethod = true ∧ excelize.keepsText it.Reference = true

/-- Every value of the exported row of an item is one a cell gives back as it was set: an
id of at most 15 digits, the two names and the six texts kept, and both instants before year
10000. -/
def ConfigurationItem.readsBack (it : ConfigurationItem) : Prop :=
  it.ID < 10 ^ 15 ∧ excelize.keepsText it.Provider.Name = true ∧
    excelize.keepsText it.Product.Name = true ∧ it.textsKept ∧
    it.CreatedAt < 315537897600 ∧ it.UpdatedAt < 315537897600

instance (it : ConfigurationItem) : Decidable it.textsKept := by
  unfold ConfigurationItem.textsKept; infer_instance

instance (it : ConfigurationItem) : Decidable it.readsBack := by
  unfold ConfigurationItem.readsBack; infer_instance

/-- The candidate the import reads from the exported row of an item once columns 2 and 3
hold its ids: the ids of the item and the six texts as the workbook gives them back. -/
def candidateRead (item : ConfigurationItem) : ConfigurationItem :=
  ⟨0, 0, 0, item.CloudProviderID, item.ProductID, (CellValue.str item.Name).text,
    (CellValue.str item.RecommendedValue).text, (CellValue.str item.RiskDescription).text,
    (CellValue.str item.CheckMethod).text, (CellValue.str item.ConfigurationMethod).text,
    (CellValue.str item.Reference).text, CloudProvider.zero, CloudProduct.zero⟩

/-- The sample export item created on 10000-01-01 00:00:00. -/
def sampleLateItem : ConfigurationItem :=
  { sampleExportItem with CreatedAt := 315537897600 }

/-- The sample export item with the id `10 ^ 15`. -/
def sampleBigIdItem : ConfigurationItem :=
  { sampleExportItem with ID := 1000000000000000 }

/-- The sample export item named `_x0041_`, with the character U+0001 as its check method. -/
def sampleEscapeItem : ConfigurationItem :=
  { sampleExportItem with Name := "_x0041_", CheckMethod := String.singleton (Char.ofNat 1) }

/-- The sample export item with a name of 40000 characters. -/
def sampleLongItem : ConfigurationItem :=
  { sampleExportItem with Name := String.mk (List.replicate 40000 'a') }

/-! ## Lookups in the store -/

theorem find?_key_none {α : Type} (f : α → Nat) (l : List α) (id : Nat) :
    l.find? (fun p => f p == id) = none ↔ ∀ p ∈ l, f p ≠ id := by
  simp [List.find?_eq_none]

theorem find?_key_of_nodup {α : Type} (f : α → Nat) (l : List α) (id : Nat) (q : α)
    (hnd : (l.map f).Nodup) (hq : q ∈ l) (hid : f q = id) :
    l.find? (fun p => f p == id) = some q := by
  induction l with
  | nil => simp at hq
  | cons a t ih =>
    simp only [List.map_cons, List.nodup_cons, List.mem_map, not_exists, not_and] at hnd
    rcases List.mem_cons.1 hq with rfl | hmem
    · simp [List.find?_cons, hid]
    · have hne : f a ≠ id := by
        intro h
        exact hnd.1 q hmem (by rw [hid, h])
      simp [List.find?_cons, hne, ih hnd.2 hmem]

theorem find?_key_some_of_has {α : Type} (f : α → Nat) (l : List α) (id : Nat)
    (h : ∃ p ∈ l, f p = id) : ∃ p, l.find? (fun p => f p == id) = some p := by
  cases hfind : l.find? (fun p => f p == id) with
  | some p => exact ⟨p, rfl⟩
  | none =>
    obtain ⟨p, hp, hpid⟩ := h
    exact absurd hpid ((find?_key_none f l id).1 hfind p hp)

theorem providerGetByID_of_has (fl : Faults) (s : Store) (id : Nat)
    (hfl : fl.providerGetByID id = none) (h : s.hasProvider id) :
    ∃ p, cloudProviderRepository.GetByID fl s id = .ok (some p) := by
  obtain ⟨p, hp⟩ := find?_key_some_of_has (fun p : CloudProvider => p.ID) s.providers id h
  exact ⟨p, by simp [cloudProviderRepository.GetByID, hfl, hp]⟩

theorem providerGetByID_of_not_has (fl : Faults) (s : Store) (id : Nat)
    (hfl : fl.providerGetByID id = none) (h : ¬ s.hasProvider id) :
    cloudProviderRepository.GetByID fl s id = .ok none := by
  have : s.providers.find? (fun p => p.ID == id) = none :=
    (find?_key_none (fun p : CloudProvider => p.ID) s.providers id).2
      (fun p hp hid => h ⟨p, hp, hid⟩)
  simp [cloudProviderRepository.GetByID, hfl, this]

theorem productGetByID_of_mem (fl : Faults) (s : Store) (id : Nat) (q : CloudProduct)
    (hfl : fl.productGetByID id = none) (hkeys : s.productKeysUnique)
    (hq : q ∈ s.products) (hid : q.ID = id) :
    cloudProductRepository.GetByID fl s id = .ok (some q) := by
  have := find?_key_of_nodup (fun p : CloudProduct => p.ID) s.products id q hkeys hq hid
  simp [cloudProductRepository.GetByID, hfl, this]

theorem productGetByID_of_not_has (fl : Faults) (s : Store) (id : Nat)
    (hfl : fl.productGetByID id = none) (h : ¬ s.hasProduct id) :
    cloudProductRepository.GetByID fl s id = .ok none := by
  have : s.products.find? (fun p => p.ID == id) = none :=
    (find?_key_none (fun p : CloudProduct => p.ID) s.products id).2
      (fun p hp hid => h ⟨p, hp, hid⟩)
  simp [cloudProductRepository.GetByID, hfl, this]

theorem create_ok_shape (fl : Faults) (now : Time) (s s1 : Store) (item : ConfigurationItem)
    (h : configurationItemRepository.Create fl now s item = (s1, none)) :
    s1 = { s with items := s.items ++ [createdRow now s.items item] } := by
  unfold configurationItemRepository.Create at h
  split at h
  · simp at h
  · simp only at h
    split at h
    · simp at h
    · simp only [Prod.mk.injEq, and_true] at h
      exact h.symm

/-- C2: when the provider of a configuration item exists and its product exists but is owned
by another provider, `CreateConfigItem` fails with `ErrCodeInvalidData` and leaves the store,
and with it the stored configuration items, unchanged. -/
theorem createConfigItem_mismatch_invalidData (fl : Faults) (now : Time) (s : Store)
    (item : ConfigurationItem) (q : CloudProduct)
    (hfp : fl.providerGetByID item.CloudProviderID = none)
    (hfq : fl.productGetByID item.ProductID = none)
    (hkeys : s.productKeysUnique)
    (hprov : s.hasProvider item.CloudProviderID)
    (hq : q ∈ s.products) (hqid : q.ID = item.ProductID)
    (hown : q.CloudProviderID ≠ item.CloudProviderID) :
    CreateConfigItem fl now s item =
      (s, some ⟨ErrCodeInvalidData, "云产品不属于指定的云服务商", none⟩) := by
  obtain ⟨p, hp⟩ := providerGetByID_of_has fl s _ hfp hprov
  have hprod := productGetByID_of_mem fl s _ q hfq hkeys hq hqid
  simp [CreateConfigItem, hp, hprod, hown, NewServiceError]

/-- C2 witness: provider 2 exists, product 10 belongs to provider 1, and the item names the
pair (2, 10). -/
theorem createConfigItem_mismatch_invalidData_witness :
    CreateConfigItem noFaults 5 sampleStore (sampleItem 2 10 "mfa") =
      (sampleStore, some ⟨ErrCodeInvalidData, "云产品不属于指定的云服务商", none⟩) :=
  createConfigItem_mismatch_invalidData noFaults 5 sampleStore (sampleItem 2 10 "mfa") sampleEc2
    rfl rfl (by decide) (by decide) (by decide) rfl (by decide)

/-- C3: with lookups that go through, `CreateConfigItem` answers a missing provider with the
provider `NotFound` error whether or not the product exists, answers an existing provider
with a missing product with the product `NotFound` error, and returns the product `NotFound`
error only when the provider exists and the product does not; the store is unchanged. -/
theorem createConfigItem_notFound_provider_first (fl : Faults) (now : Time) (s : Store)
    (item : ConfigurationItem)
    (hfp : fl.providerGetByID item.CloudProviderID = none)
    (hfq : fl.productGetByID item.ProductID = none) :
    (¬ s.hasProvider item.CloudProviderID →
        CreateConfigItem fl now s item = (s, some ⟨ErrCodeNotFound, "云服务商不存在", none⟩)) ∧
      (s.hasProvider item.CloudProviderID → ¬ s.hasProduct item.ProductID →
        CreateConfigItem fl now s item = (s, some ⟨ErrCodeNotFound, "云产品不存在", none⟩)) ∧
      ((CreateConfigItem fl now s item).2 = some ⟨ErrCodeNotFound, "云产品不存在", none⟩ →
        s.hasProvider item.CloudProviderID ∧ ¬ s.hasProduct item.ProductID) := by
  have hA : ¬ s.hasProvider item.CloudProviderID →
      CreateConfigItem fl now s item = (s, some ⟨ErrCodeNotFound, "云服务商不存在", none⟩) := by
    intro h
    simp [CreateConfigItem, providerGetByID_of_not_has fl s _ hfp h, NewServiceError]
  have hB : s.hasProvider item.CloudProviderID → ¬ s.hasProduct item.ProductID →
      CreateConfigItem fl now s item = (s, some ⟨ErrCodeNotFound, "云产品不存在", none⟩) := by
    intro h1 h2
    obtain ⟨p, hp⟩ := providerGetByID_of_has fl s _ hfp h1
    simp [CreateConfigItem, hp, productGetByID_of_not_has fl s _ hfq h2, NewServiceError]
  refine ⟨hA, hB, ?_⟩
  intro hres
  by_cases h1 : s.hasProvider item.CloudProviderID
  · refine ⟨h1, ?_⟩
    intro h2
    obtain ⟨p, hp⟩ := providerGetByID_of_has fl s _ hfp h1
    obtain ⟨q, hq⟩ := find?_key_some_of_has (fun p : CloudProduct => p.ID) s.products _ h2
    have hprod : cloudProductRepository.GetByID fl s item.ProductID = .ok (some q) := by
      simp [cloudProductRepository.GetByID, hfq, hq]
    unfold CreateConfigItem at hres
    simp only [hp, hprod] at hres
    split at hres
    · simp [NewServiceError, ErrCodeInvalidData, ErrCodeNotFound] at hres
    · split at hres
      · simp [NewServiceError, ErrCodeDatabase, ErrCodeNotFound] at hres
      · simp at hres
  · rw [hA h1] at hres
    simp at hres

/-- C3 witness: in the sample store provider 7 does not exist, and the provider error is
returned for the existing product 10 and for the missing product 11 alike; for provider 1
and the missing product 11 the product error is returned. -/
theorem createConfigItem_notFound_provider_first_witness :
    CreateConfigItem noFaults 5 sampleStore (sampleItem 7 10 "mfa") =
        (sampleStore, some ⟨ErrCodeNotFound, "云服务商不存在", none⟩) ∧
      CreateConfigItem noFaults 5 sampleStore (sampleItem 7 11 "mfa") =
        (sampleStore, some ⟨ErrCodeNotFound, "云服务商不存在", none⟩) ∧
      CreateConfigItem noFaults 5 sampleStore (sampleItem 1 11 "mfa") =
        (sampleStore, some ⟨ErrCodeNotFound, "云产品不存在", none⟩) :=
  ⟨(createConfigItem_notFound_provider_first noFaults 5 sampleStore (sampleItem 7 10 "mfa")
      rfl rfl).1 (by decide),
    (createConfigItem_notFound_provider_first noFaults 5 sampleStore (sampleItem 7 11 "mfa")
      rfl rfl).1 (by decide),
    (createConfigItem_notFound_provider_first noFaults 5 sampleStore (sampleItem 1 11 "mfa")
      rfl rfl).2.1 (by decide) (by decide)⟩

/-! ## The validation loop of the batch import -/

theorem validateOne_none_refValid (fl : Faults) (s : Store) (i : Nat) (c : ConfigurationItem)
    (h : BatchImportConfigItems.validateOne fl s i c = none) : s.refValid c := by
  unfold BatchImportConfigItems.validateOne at h
  split at h
  · simp at h
  · simp at h
  · rename_i p hp
    split at h
    · simp at h
    · simp at h
    · rename_i q hq
      split at h
      · simp at h
      · rename_i hown
        simp only [cloudProviderRepository.GetByID] at hp
        simp only [cloudProductRepository.GetByID] at hq
        split at hp
        · simp at hp
        · split at hq
          · simp at hq
          · simp only [Except.ok.injEq] at hp hq
            have hp1 := List.mem_of_find?_eq_some hp
            have hp2 := List.find?_some hp
            have hq1 := List.mem_of_find?_eq_some hq
            have hq2 := List.find?_some hq
            simp only [beq_iff_eq] at hp2 hq2
            exact ⟨⟨p, hp1, hp2⟩, q, hq1, hq2, by simpa using hown⟩

theorem validateOne_refValid_none (fl : Faults) (s : Store) (i : Nat) (c : ConfigurationItem)
    (hfl : fl.lookupsOk) (hkeys : s.productKeysUnique) (h : s.refValid c) :
    BatchImportConfigItems.validateOne fl s i c = none := by
  obtain ⟨hprov, q, hq, hqid, hown⟩ := h
  obtain ⟨p, hp⟩ := providerGetByID_of_has fl s _ (hfl.1 _) hprov
  have hprod := productGetByID_of_mem fl s _ q (hfl.2 _) hkeys hq hqid
  simp [BatchImportConfigItems.validateOne, hp, hprod, hown]

theorem validateOne_code (fl : Faults) (s : Store) (i : Nat) (c : ConfigurationItem)
    (err : ServiceError) (hfl : fl.lookupsOk)
    (h : BatchImportConfigItems.validateOne fl s i c = some err) :
    ((¬ s.hasProvider c.CloudProviderID ∨ ¬ s.hasProduct c.ProductID) →
        err.Code = ErrCodeNotFound) ∧
      (s.hasProvider c.CloudProviderID → s.hasProduct c.ProductID →
        err.Code = ErrCodeInvalidData) := by
  by_cases h1 : s.hasProvider c.CloudProviderID
  · obtain ⟨p, hp⟩ := providerGetByID_of_has fl s _ (hfl.1 _) h1
    by_cases h2 : s.hasProduct c.ProductID
    · obtain ⟨q, hq⟩ := find?_key_some_of_has (fun p : CloudProduct => p.ID) s.products _ h2
      have hprod : cloudProductRepository.GetByID fl s c.ProductID = .ok (some q) := by
        simp [cloudProductRepository.GetByID, hfl.2, hq]
      unfold BatchImportConfigItems.validateOne at h
      simp only [hp, hprod] at h
      split at h
      · simp only [Option.some.injEq] at h
        subst h
        simp [h1, h2, NewServiceError]
      · simp at h
    · have hprod := productGetByID_of_not_has fl s _ (hfl.2 _) h2
      unfold BatchImportConfigItems.validateOne at h
      simp only [hp, hprod, Option.some.injEq] at h
      subst h
      simp [h1, h2, NewServiceError]
  · have hp := providerGetByID_of_not_has fl s _ (hfl.1 _) h1
    unfold BatchImportConfigItems.validateOne at h
    simp only [hp, Option.some.injEq] at h
    subst h
    simp [h1, NewServiceError]

theorem validate_ne_none_of_invalid (fl : Faults) (s : Store) (items : List ConfigurationItem) :
    ∀ i, (∃ c ∈ items, ¬ s.refValid c) → BatchImportConfigItems.validate fl s i items ≠ none := by
  induction items with
  | nil => intro i h; simp at h
  | cons a t ih =>
    intro i h
    unfold BatchImportConfigItems.validate
    cases hone : BatchImportConfigItems.validateOne fl s i a with
    | some err => simp
    | none =>
      simp only
      apply ih
      obtain ⟨c, hc, hbad⟩ := h
      rcases List.mem_cons.1 hc with rfl | hmem
      · exact absurd (validateOne_none_refValid fl s i c hone) hbad
      · exact ⟨c, hmem, hbad⟩

theorem validate_first_invalid (fl : Faults) (s : Store) (hfl : fl.lookupsOk)
    (hkeys : s.productKeysUnique) (items : List ConfigurationItem) :
    ∀ i, (∃ c ∈ items, ¬ s.refValid c) →
      ∃ front c back, items = front ++ c :: back ∧ (∀ x ∈ front, s.refValid x) ∧
        ¬ s.refValid c ∧
        BatchImportConfigItems.validate fl s i items =
          BatchImportConfigItems.validateOne fl s (i + front.length) c := by
  induction items with
  | nil => intro i h; simp at h
  | cons a t ih =>
    intro i h
    by_cases ha : s.refValid a
    · have hrest : ∃ c ∈ t, ¬ s.refValid c := by
        obtain ⟨c, hc, hbad⟩ := h
        rcases List.mem_cons.1 hc with rfl | hmem
        · exact absurd ha hbad
        · exact ⟨c, hmem, hbad⟩
      obtain ⟨front, c, back, ht, hfront, hc, hval⟩ := ih (i + 1) hrest
      refine ⟨a :: front, c, back, by simp [ht], ?_, hc, ?_⟩
      · intro x hx
        rcases List.mem_cons.1 hx with rfl | hmem
        · exact ha
        · exact hfront x hmem
      · unfold BatchImportConfigItems.validate
        rw [validateOne_refValid_none fl s i a hfl hkeys ha]
        simp only [hval, List.length_cons]
        congr 1
        omega
    · refine ⟨[], a, t, rfl, by simp, ha, ?_⟩
      unfold BatchImportConfigItems.validate
      cases hone : BatchImportConfigItems.validateOne fl s i a with
      | some err => simp [hone]
      | none => exact absurd (validateOne_none_refValid fl s i a hone) ha

/-- C5: when some candidate of the list fails referential validation, `BatchImportConfigItems`
returns an error and leaves the store unchanged, so no row is persisted; and with lookups that
go through, the error is the one the loop body produces for the first failing candidate at
its index: `ErrCodeNotFound` when its provider or product is missing, `ErrCodeInvalidData`
when both exist. -/
theorem batchImport_aborts_on_first_invalid (fl : Faults) (now : Time) (s : Store)
    (items : List ConfigurationItem) (h : ∃ c ∈ items, ¬ s.refValid c) :
    (BatchImportConfigItems fl now s items).1 = s ∧
      (BatchImportConfigItems fl now s items).2 ≠ none ∧
      (fl.lookupsOk → s.productKeysUnique →
        ∃ front c back err, items = front ++ c :: back ∧ (∀ x ∈ front, s.refValid x) ∧
          ¬ s.refValid c ∧
          BatchImportConfigItems fl now s items = (s, some err) ∧
          BatchImportConfigItems.validateOne fl s front.length c = some err ∧
          ((¬ s.hasProvider c.CloudProviderID ∨ ¬ s.hasProduct c.ProductID) →
            err.Code = ErrCodeNotFound) ∧
          (s.hasProvider c.CloudProviderID → s.hasProduct c.ProductID →
            err.Code = ErrCodeInvalidData)) := by
  have hne := validate_ne_none_of_invalid fl s items 0 h
  obtain ⟨err, herr⟩ := Option.ne_none_iff_exists'.1 hne
  have hres : BatchImportConfigItems fl now s items = (s, some err) := by
    simp [BatchImportConfigItems, herr]
  refine ⟨by rw [hres], by rw [hres]; simp, ?_⟩
  intro hfl hkeys
  obtain ⟨front, c, back, hitems, hfront, hc, hval⟩ := validate_first_invalid fl s hfl hkeys items 0 h
  rw [herr, Nat.zero_add] at hval
  exact ⟨front, c, back, err, hitems, hfront, hc, hres, hval.symm,
    validateOne_code fl s front.length c err hfl hval.symm⟩

/-- C5 witness: four candidates of which the third names the missing product 11; nothing is
persisted and the error is the product `NotFound` error built for index 2. -/
theorem batchImport_aborts_on_first_invalid_witness :
    (BatchImportConfigItems noFaults 5 sampleStore sampleBatch).1 = sampleStore ∧
      (BatchImportConfigItems noFaults 5 sampleStore sampleBatch).2 ≠ none ∧
      ∃ front c back err, sampleBatch = front ++ c :: back ∧
        (∀ x ∈ front, sampleStore.refValid x) ∧ ¬ sampleStore.refValid c ∧
        BatchImportConfigItems noFaults 5 sampleStore sampleBatch = (sampleStore, some err) ∧
        BatchImportConfigItems.validateOne noFaults sampleStore front.length c = some err ∧
        ((¬ sampleStore.hasProvider c.CloudProviderID ∨ ¬ sampleStore.hasProduct c.ProductID) →
          err.Code = ErrCodeNotFound) ∧
        (sampleStore.hasProvider c.CloudProviderID → sampleStore.hasProduct c.ProductID →
          err.Code = ErrCodeInvalidData) :=
  have h := batchImport_aborts_on_first_invalid noFaults 5 sampleStore sampleBatch
    ⟨sampleItem 1 11 "c", by decide, by decide⟩
  ⟨h.1, h.2.1, h.2.2 ⟨fun _ => rfl, fun _ => rfl⟩ (by decide)⟩

/-! ## Mutual consistency: the paths that preserve it -/

theorem productGetByID_some_mem (fl : Faults) (s : Store) (id : Nat) (q : CloudProduct)
    (h : cloudProductRepository.GetByID fl s id = .ok (some q)) : q ∈ s.products ∧ q.ID = id := by
  simp only [cloudProductRepository.GetByID] at h
  split at h
  · simp at h
  · simp only [Except.ok.injEq] at h
    have h2 := List.find?_some h
    simp only [beq_iff_eq] at h2
    exact ⟨List.mem_of_find?_eq_some h, h2⟩

theorem consistent_append_row (s : Store) (row : ConfigurationItem) (hc : s.consistent)
    (hrow : ∃ q ∈ s.products, q.ID = row.ProductID ∧ q.CloudProviderID = row.CloudProviderID) :
    Store.consistent { s with items := s.items ++ [row] } := by
  intro it hit
  simp only [List.mem_append, List.mem_singleton] at hit
  rcases hit with hit | rfl
  · exact hc it hit
  · exact hrow

/-- A successful `CreateConfigItem` keeps providers and products and preserves mutual
consistency of the stored configuration items. -/
theorem createConfigItem_preserves_consistent (fl : Faults) (now : Time) (s s1 : Store)
    (item : ConfigurationItem) (hc : s.consistent)
    (h : CreateConfigItem fl now s item = (s1, none)) :
    s1.consistent ∧ s1.providers = s.providers ∧ s1.products = s.products := by
  unfold CreateConfigItem at h
  split at h
  · simp at h
  · simp at h
  · split at h
    · simp at h
    · simp at h
    · rename_i q hq
      split at h
      · simp at h
      · rename_i hown
        split at h
        · simp at h
        · rename_i s2 hcreate
          simp only [Prod.mk.injEq, and_true] at h
          subst h
          have hshape := create_ok_shape fl now s s2 item hcreate
          obtain ⟨hmem, hid⟩ := productGetByID_some_mem fl s _ q hq
          rw [hshape]
          refine ⟨consistent_append_row s _ hc ⟨q, hmem, ?_, ?_⟩, rfl, rfl⟩
          · simpa [createdRow] using hid
          · simpa [createdRow] using hown

theorem insertLoop_ok_rows (fl : Faults) (now : Time) (items : List ConfigurationItem) :
    ∀ s s1, configurationItemRepository.insertLoop fl now s items = (s1, none) →
      s1.providers = s.providers ∧ s1.products = s.products ∧
        s1.items.length = s.items.length + items.length ∧
        ∀ r ∈ s1.items, r ∈ s.items ∨
          ∃ c ∈ items, r.CloudProviderID = c.CloudProviderID ∧ r.ProductID = c.ProductID := by
  induction items with
  | nil =>
    intro s s1 h
    simp only [configurationItemRepository.insertLoop, Prod.mk.injEq, and_true] at h
    subst h
    exact ⟨rfl, rfl, rfl, fun r hr => Or.inl hr⟩
  | cons a t ih =>
    intro s s1 h
    unfold configurationItemRepository.insertLoop at h
    split at h
    · simp at h
    · rename_i s2 hcreate
      have hshape := create_ok_shape fl now s s2 a hcreate
      obtain ⟨hp, hq, hlen, hrows⟩ := ih s2 s1 h
      rw [hshape] at hp hq hlen hrows
      refine ⟨hp, hq, ?_, ?_⟩
      · simp only [List.length_append, List.length_cons, List.length_nil] at hlen ⊢
        omega
      · intro r hr
        rcases hrows r hr with hmem | ⟨c, hc, hcp, hcq⟩
        · simp only [List.mem_append, List.mem_singleton] at hmem
          rcases hmem with hmem | rfl
          · exact Or.inl hmem
          · exact Or.inr ⟨a, List.mem_cons_self a t, by simp [createdRow], by simp [createdRow]⟩
        · exact Or.inr ⟨c, List.mem_cons_of_mem a hc, hcp, hcq⟩

theorem validate_none_all_refValid (fl : Faults) (s : Store) (items : List ConfigurationItem) :
    ∀ i, BatchImportConfigItems.validate fl s i items = none → ∀ c ∈ items, s.refValid c := by
  intro i h c hc
  by_contra hbad
  exact validate_ne_none_of_invalid fl s items i ⟨c, hc, hbad⟩ h

/-- A successful `BatchImportConfigItems` keeps providers and products, adds one row per
candidate and preserves mutual consistency of the stored configuration items. -/
theorem batchImport_preserves_consistent (fl : Faults) (now : Time) (s s1 : Store)
    (items : List ConfigurationItem) (hc : s.consistent)
    (h : BatchImportConfigItems fl now s items = (s1, none)) :
    s1.consistent ∧ s1.providers = s.providers ∧ s1.products = s.products ∧
      s1.items.length = s.items.length + items.length := by
  unfold BatchImportConfigItems at h
  split at h
  · simp at h
  · rename_i hval
    have hvalid := validate_none_all_refValid fl s items 0 hval
    split at h
    · simp at h
    · rename_i s2 hbatch
      simp only [Prod.mk.injEq, and_true] at h
      subst h
      unfold configurationItemRepository.BatchInsert at hbatch
      split at hbatch
      · rename_i s3 hloop
        simp only [Prod.mk.injEq, and_true] at hbatch
        subst hbatch
        obtain ⟨hp, hq, hlen, hrows⟩ := insertLoop_ok_rows fl now items s s3 hloop
        refine ⟨?_, hp, hq, hlen⟩
        intro it hit
        rw [hq]
        rcases hrows it hit with hmem | ⟨c, hcm, hcp, hcq⟩
        · exact hc it hmem
        · obtain ⟨_, q, hqm, hqid, hqown⟩ := hvalid c hcm
          exact ⟨q, hqm, by rw [hcq]; exact hqid, by rw [hcp]; exact hqown⟩
      · simp at hbatch

/-- A successful `UpdateConfigItem` preserves mutual consistency whenever the update changes
the product id or keeps the provider id of the stored item. -/
theorem updateConfigItem_preserves_consistent (fl : Faults) (now : Time) (s s1 : Store)
    (item existingItem : ConfigurationItem) (hc : s.consistent)
    (hex : configurationItemRepository.GetByID fl s item.ID = .ok (some existingItem))
    (hchg : item.ProductID ≠ existingItem.ProductID ∨
      item.CloudProviderID = existingItem.CloudProviderID)
    (h : UpdateConfigItem fl now s item = (s1, none)) :
    s1.consistent ∧ s1.providers = s.providers ∧ s1.products = s.products := by
  have hexm : existingItem ∈ s.items ∧ existingItem.ID = item.ID := by
    simp only [configurationItemRepository.GetByID] at hex
    split at hex
    · simp at hex
    · simp only [Except.ok.injEq] at hex
      have h2 := List.find?_some hex
      simp only [beq_iff_eq] at h2
      exact ⟨List.mem_of_find?_eq_some hex, h2⟩
  unfold UpdateConfigItem at h
  simp only [hex] at h
  split at h
  · simp at h
  · split at h
    · simp at h
    · rename_i hprod
      have hrow : ∃ q ∈ s.products, q.ID = item.ProductID ∧
          q.CloudProviderID = item.CloudProviderID := by
        unfold UpdateConfigItem.checkProduct at hprod
        split at hprod
        · split at hprod
          · simp at hprod
          · simp at hprod
          · rename_i q hq
            split at hprod
            · simp at hprod
            · rename_i hown
              obtain ⟨hmem, hid⟩ := productGetByID_some_mem fl s _ q hq
              exact ⟨q, hmem, hid, by simpa using hown⟩
        · rename_i hsame
          have hsame' : item.ProductID = existingItem.ProductID := by simpa using hsame
          have hprov : item.CloudProviderID = existingItem.CloudProviderID :=
            hchg.resolve_left (fun hne => hne hsame')
          obtain ⟨q, hqm, hqid, hqown⟩ := hc existingItem hexm.1
          exact ⟨q, hqm, by rw [hsame']; exact hqid, by rw [hprov]; exact hqown⟩
      split at h
      · simp at h
      · rename_i s2 hupd
        simp only [Prod.mk.injEq, and_true] at h
        subst h
        unfold configurationItemRepository.Update at hupd
        split at hupd
        · simp at hupd
        · split at hupd
          · have hshape := create_ok_shape fl now s s2 item hupd
            rw [hshape]
            exact ⟨consistent_append_row s _ hc (by simpa [createdRow] using hrow), rfl, rfl⟩
          · split at hupd
            · simp only [Prod.mk.injEq, and_true] at hupd
              subst hupd
              refine ⟨?_, rfl, rfl⟩
              intro it hit
              simp only [List.mem_map] at hit
              obtain ⟨r, hr, hrit⟩ := hit
              split at hrit
              · subst hrit
                simpa [savedRow] using hrow
              · subst hrit
                exact hc r hr
            · simp only [Prod.mk.injEq, and_true] at hupd
              subst hupd
              exact ⟨consistent_append_row s _ hc (by simpa [savedRow] using hrow), rfl, rfl⟩

/-- C4: an update of configuration item 1 that changes only its provider id, from provider 1
to the existing provider 2, and keeps product 10 of provider 1, is accepted by
`UpdateConfigItem` without error; providers and products are unchanged, the store was
mutually consistent before the update and is not after it. -/
theorem updateConfigItem_provider_only_breaks_consistency :
    sampleStoreWithItem.consistent ∧
      (UpdateConfigItem noFaults 9 sampleStoreWithItem sampleUpdate).2 = none ∧
      (UpdateConfigItem noFaults 9 sampleStoreWithItem sampleUpdate).1.providers =
        sampleStoreWithItem.providers ∧
      (UpdateConfigItem noFaults 9 sampleStoreWithItem sampleUpdate).1.products =
        sampleStoreWithItem.products ∧
      ¬ (UpdateConfigItem noFaults 9 sampleStoreWithItem sampleUpdate).1.consistent := by
  decide

/-- C6: for four candidates of which the third (index 2) is the first to fail validation, the
message of the error returned by `BatchImportConfigItems` carries the control character
U+0003 where the position is reported, and the digit 3 occurs nowhere in it. -/
theorem batchImport_message_position_not_decimal :
    (BatchImportConfigItems noFaults 5 sampleStore sampleBatch).2 =
        some ⟨ErrCodeNotFound,
          "批量导入配置项失败：第" ++ String.singleton (Char.ofNat 3) ++ "条记录的云产品不存在",
          none⟩ ∧
      ∀ err, (BatchImportConfigItems noFaults 5 sampleStore sampleBatch).2 = some err →
        ¬ ("3".data <:+: err.Message.data) := by
  constructor
  · decide
  · intro err herr
    have h : (BatchImportConfigItems noFaults 5 sampleStore sampleBatch).2 =
        some ⟨ErrCodeNotFound,
          "批量导入配置项失败：第" ++ String.singleton (Char.ofNat 3) ++ "条记录的云产品不存在",
          none⟩ := by decide
    rw [h] at herr
    simp only [Option.some.injEq] at herr
    subst herr
    decide

/-! ## Decimal parsing -/

theorem digitOf_lt_ten (c : Char) (d : Nat) :
    (strconv.digitOf c = some d ∧ d < 10) ↔ (48 ≤ c.toNat ∧ c.toNat ≤ 57) ∧ d = c.toNat - 48 := by
  unfold strconv.digitOf
  constructor
  · rintro ⟨h, hd⟩
    split at h
    · rename_i hc
      simp only [Option.some.injEq] at h
      exact ⟨hc, h.symm⟩
    · split at h
      · simp only [Option.some.injEq] at h
        omega
      · simp at h
  · rintro ⟨hc, rfl⟩
    rw [if_pos hc]
    exact ⟨rfl, by omega⟩

theorem decimal_foldl_ge (cs : List Char) :
    ∀ n, n ≤ cs.foldl (fun n c => n * 10 + (c.toNat - 48)) n := by
  induction cs with
  | nil => intro n; simp
  | cons c t ih =>
    intro n
    simp only [List.foldl_cons]
    exact le_trans (by omega) (ih _)

theorem parseUint_loop_ok (maxVal : Nat) (hmax : maxVal ≤ 2 ^ 32 - 1) (cs : List Char) :
    ∀ n m, n ≤ maxVal →
      (strconv.ParseUint.loop maxVal n cs = .ok m ↔
        (∀ c ∈ cs, 48 ≤ c.toNat ∧ c.toNat ≤ 57) ∧
          cs.foldl (fun n c => n * 10 + (c.toNat - 48)) n = m ∧ m ≤ maxVal) := by
  induction cs with
  | nil =>
    intro n m hn
    simp only [strconv.ParseUint.loop, Except.ok.injEq, List.not_mem_nil, false_implies,
      implies_true, List.foldl_nil, true_and]
    constructor
    · rintro rfl; exact ⟨rfl, hn⟩
    · rintro ⟨h, _⟩; exact h
  | cons c t ih =>
    intro n m hn
    have hcut : (2 ^ 64 - 1) / 10 + 1 = 1844674407370955162 := by norm_num
    have h32 : (2:Nat) ^ 32 - 1 = 4294967295 := by norm_num
    have h64 : (2:Nat) ^ 64 = 18446744073709551616 := by norm_num
    rw [h32] at hmax
    constructor
    · intro h
      unfold strconv.ParseUint.loop at h
      cases hd : strconv.digitOf c with
      | none => simp [hd] at h
      | some d =>
        simp only [hd] at h
        by_cases hd10 : d ≥ 10
        · simp [hd10] at h
        · rw [if_neg hd10] at h
          have hdig := (digitOf_lt_ten c d).1 ⟨hd, by omega⟩
          rw [hcut, h64] at h
          have hn' : ¬ n ≥ 1844674407370955162 := by omega
          rw [if_neg hn'] at h
          have e1 : n * 10 % 18446744073709551616 = n * 10 := Nat.mod_eq_of_lt (by omega)
          have e2 : (n * 10 + d) % 18446744073709551616 = n * 10 + d :=
            Nat.mod_eq_of_lt (by omega)
          simp only [e1, e2] at h
          split at h
          · simp at h
          · rename_i hle
            have hle' : n * 10 + d ≤ maxVal := by omega
            have := (ih (n * 10 + d) m hle').1 h
            refine ⟨?_, ?_, this.2.2⟩
            · intro x hx
              rcases List.mem_cons.1 hx with rfl | hmem
              · exact hdig.1
              · exact this.1 x hmem
            · simp only [List.foldl_cons]
              rw [← hdig.2]
              exact this.2.1
    · rintro ⟨hall, hfold, hm⟩
      have hc := hall c (List.mem_cons_self c t)
      have hdig := (digitOf_lt_ten c (c.toNat - 48)).2 ⟨hc, rfl⟩
      simp only [List.foldl_cons] at hfold
      have hge := decimal_foldl_ge t (n * 10 + (c.toNat - 48))
      rw [hfold] at hge
      unfold strconv.ParseUint.loop
      simp only [hdig.1]
      have hd10 : ¬ (c.toNat - 48 ≥ 10) := by omega
      rw [if_neg hd10, hcut, h64]
      have hn' : ¬ n ≥ 1844674407370955162 := by omega
      rw [if_neg hn']
      have e1 : n * 10 % 18446744073709551616 = n * 10 := Nat.mod_eq_of_lt (by omega)
      have e2 : (n * 10 + (c.toNat - 48)) % 18446744073709551616 = n * 10 + (c.toNat - 48) :=
        Nat.mod_eq_of_lt (by omega)
      simp only [e1, e2]
      have hle : ¬ (n * 10 + (c.toNat - 48) < n * 10 ∨ n * 10 + (c.toNat - 48) > maxVal) := by
        omega
      rw [if_neg hle]
      exact (ih _ m (by omega)).2 ⟨fun x hx => hall x (List.mem_cons_of_mem c hx), hfold, hm⟩

/-- `ParseUint(s, 10, 32)` accepts exactly the decimal texts of the integers up to `2 ^ 32 - 1`,
and returns the integer written. -/
theorem parseUint32_ok_iff (s : String) (n : Nat) :
    strconv.ParseUint s 32 = .ok n ↔ decimalText? s = some n ∧ n ≤ 4294967295 := by
  have h32 : (2:Nat) ^ 32 - 1 = 4294967295 := by norm_num
  have hloop := parseUint_loop_ok (2 ^ 32 - 1) le_rfl s.data 0 n (Nat.zero_le _)
  unfold strconv.ParseUint decimalText?
  by_cases hs : s = ""
  · subst hs
    simp
  · have hdata : s.data ≠ [] := by
      intro h
      apply hs
      cases s
      simp_all
    rw [if_neg hs, hloop, h32]
    unfold decimalValue
    constructor
    · rintro ⟨hall, hfold, hle⟩
      exact ⟨by rw [if_pos ⟨hdata, hall⟩, hfold], hle⟩
    · rintro ⟨h, hle⟩
      split at h
      · rename_i hc
        simp only [Option.some.injEq] at h
        exact ⟨hc.2, h, hle⟩
      · simp at h

theorem char_isDigit_iff (c : Char) : c.isDigit = true ↔ 48 ≤ c.toNat ∧ c.toNat ≤ 57 := by
  simp only [Char.isDigit, Bool.and_eq_true, decide_eq_true_eq, Char.toNat, ge_iff_le]
  rw [UInt32.le_def, UInt32.le_def]
  simp [UInt32.toNat, BitVec.le_def]

theorem string_isEmpty_iff (s : String) : s.isEmpty = true ↔ s.data = [] := by
  cases s with
  | mk l =>
    cases l with
    | nil => simp [String.isEmpty, String.endPos, String.utf8ByteSize, String.utf8ByteSize.go]
    | cons a t =>
      simp [String.isEmpty, String.endPos, String.utf8ByteSize, String.utf8ByteSize.go,
        String.Pos.ext_iff]
      have := Char.utf8Size_pos a
      omega

/-- The decimal reading used in the statements below is the one of the standard library. -/
theorem decimalText?_eq_toNat? (s : String) : decimalText? s = s.toNat? := by
  unfold decimalText? String.toNat? String.isNat decimalValue
  have hall : (s.all fun c => c.isDigit) = true ↔ ∀ c ∈ s.data, 48 ≤ c.toNat ∧ c.toNat ≤ 57 := by
    rw [String.all_eq]
    simp only [List.all_eq_true, char_isDigit_iff]
  have hempty := string_isEmpty_iff s
  by_cases h : s.data ≠ [] ∧ ∀ c ∈ s.data, 48 ≤ c.toNat ∧ c.toNat ≤ 57
  · have h1 : (!s.isEmpty && s.all fun c => c.isDigit) = true := by
      simp only [Bool.and_eq_true, Bool.not_eq_true', hall]
      refine ⟨?_, h.2⟩
      cases he : s.isEmpty with
      | false => rfl
      | true => exact absurd (hempty.1 he) h.1
    rw [if_pos h, if_pos h1, String.foldl_eq]
    rfl
  · have h1 : ¬ ((!s.isEmpty && s.all fun c => c.isDigit) = true) := by
      simp only [Bool.and_eq_true, Bool.not_eq_true', hall]
      rintro ⟨he, ha⟩
      apply h
      refine ⟨?_, ha⟩
      intro hd
      rw [hempty.2 hd] at he
      exact absurd he (by decide)
    rw [if_neg h, if_neg h1]

/-! ## The row loop of the import -/

theorem parseRow_some_iff_survives (row : List String) :
    (∃ item, ImportConfigItems.parseRow row = some item) ↔ survives row := by
  unfold ImportConfigItems.parseRow survives
  constructor
  · rintro ⟨item, h⟩
    split at h
    · simp at h
    · rename_i hlen
      split at h
      · simp at h
      · rename_i pid hp
        split at h
        · simp at h
        · rename_i qid hq
          exact ⟨by omega, ⟨pid, hp⟩, ⟨qid, hq⟩⟩
  · rintro ⟨hlen, ⟨pid, hp⟩, ⟨qid, hq⟩⟩
    have hlen' : ¬ row.length < 9 := by omega
    rw [if_neg hlen']
    simp only [hp, hq]
    exact ⟨_, rfl⟩

theorem parseRow_none_of_not_survives (row : List String) (h : ¬ survives row) :
    ImportConfigItems.parseRow row = none := by
  cases hrow : ImportConfigItems.parseRow row with
  | none => rfl
  | some item => exact absurd ((parseRow_some_iff_survives row).1 ⟨item, hrow⟩) h

theorem importConfigItems_drop_skipped (header row : List String)
    (front back : List (List String)) (h : ImportConfigItems.parseRow row = none) :
    ImportConfigItems (header :: (front ++ row :: back)) =
      ImportConfigItems (header :: (front ++ back)) := by
  unfold ImportConfigItems
  have hlen : ¬ (header :: (front ++ row :: back)).length < 2 := by
    simp only [List.length_cons, List.length_append]
    omega
  rw [if_neg hlen]
  simp only [List.drop_succ_cons, List.drop_zero, List.filterMap_append, List.filterMap_cons, h]
  by_cases hshort : (header :: (front ++ back)).length < 2
  · rw [if_pos hshort]
    have hnil : front ++ back = [] := by
      simp only [List.length_cons] at hshort
      exact List.length_eq_zero.1 (by omega)
    obtain ⟨rfl, rfl⟩ := List.append_eq_nil.1 hnil
    simp
  · rw [if_neg hshort]

theorem importConfigItems_ok_of_survivor (header : List String) (data : List (List String))
    (h : ∃ r ∈ data, survives r) :
    ImportConfigItems (header :: data) = .ok (data.filterMap ImportConfigItems.parseRow) ∧
      data.filterMap ImportConfigItems.parseRow ≠ [] := by
  obtain ⟨r, hr, hs⟩ := h
  obtain ⟨item, hitem⟩ := (parseRow_some_iff_survives r).2 hs
  have hmem : item ∈ data.filterMap ImportConfigItems.parseRow :=
    List.mem_filterMap.2 ⟨r, hr, hitem⟩
  have hne : data.filterMap ImportConfigItems.parseRow ≠ [] := List.ne_nil_of_mem hmem
  refine ⟨?_, hne⟩
  unfold ImportConfigItems
  have hlen : ¬ (header :: data).length < 2 := by
    have := List.length_pos_of_mem hr
    simp only [List.length_cons]
    omega
  have hlen0 : ¬ (data.filterMap ImportConfigItems.parseRow).length = 0 := by
    intro h0
    exact hne (List.length_eq_zero.1 h0)
  rw [if_neg hlen]
  simp only [List.drop_succ_cons, List.drop_zero]
  rw [if_neg hlen0]

/-- C7: a data row with fewer than 9 cells yields no candidate and raises no error: the
result of `ImportConfigItems` on the sheet is the result on the sheet without that row, and
when some other data row survives the result is the non-empty list of the candidates of the
other rows. -/
theorem importConfigItems_skips_short_row (header row : List String)
    (front back : List (List String)) (hshort : row.length < 9) :
    ImportConfigItems.parseRow row = none ∧
      ImportConfigItems (header :: (front ++ row :: back)) =
        ImportConfigItems (header :: (front ++ back)) ∧
      ((∃ r ∈ front ++ back, survives r) →
        ImportConfigItems (header :: (front ++ row :: back)) =
            .ok ((front ++ back).filterMap ImportConfigItems.parseRow) ∧
          (front ++ back).filterMap ImportConfigItems.parseRow ≠ []) := by
  have hnone : ImportConfigItems.parseRow row = none := by
    simp [ImportConfigItems.parseRow, hshort]
  refine ⟨hnone, importConfigItems_drop_skipped header row front back hnone, ?_⟩
  intro h
  rw [importConfigItems_drop_skipped header row front back hnone]
  exact importConfigItems_ok_of_survivor header (front ++ back) h

/-- C7 witness: a sheet whose row 2 has 5 cells and whose row 3 is complete. -/
theorem importConfigItems_skips_short_row_witness :
    ImportConfigItems.parseRow sampleShortRow = none ∧
      ImportConfigItems [sampleHeader, sampleShortRow, sampleRow] =
        ImportConfigItems [sampleHeader, sampleRow] ∧
      ImportConfigItems [sampleHeader, sampleShortRow, sampleRow] = .ok [sampleCandidate] :=
  have h := importConfigItems_skips_short_row sampleHeader sampleShortRow [] [sampleRow]
    (by decide)
  ⟨h.1, h.2.1, (h.2.2 ⟨sampleRow, by decide, by decide, ⟨1, rfl⟩, ⟨10, rfl⟩⟩).1⟩

/-- C8: a data row with at least 9 cells whose provider cell or product cell is not the
decimal text of a non-negative integer yields no candidate and raises no error: the result of
`ImportConfigItems` on the sheet is the result on the sheet without that row, and when some
other data row survives the result is the non-empty list of the candidates of the other
rows. -/
theorem importConfigItems_skips_non_numeric_row (header row : List String)
    (front back : List (List String)) (_hlen : 9 ≤ row.length)
    (hbad : decimalText? (row.getD 1 "") = none ∨ decimalText? (row.getD 2 "") = none) :
    ImportConfigItems.parseRow row = none ∧
      ImportConfigItems (header :: (front ++ row :: back)) =
        ImportConfigItems (header :: (front ++ back)) ∧
      ((∃ r ∈ front ++ back, survives r) →
        ImportConfigItems (header :: (front ++ row :: back)) =
            .ok ((front ++ back).filterMap ImportConfigItems.parseRow) ∧
          (front ++ back).filterMap ImportConfigItems.parseRow ≠ []) := by
  have hnone : ImportConfigItems.parseRow row = none := by
    apply parseRow_none_of_not_survives
    rintro ⟨_, ⟨n, hn⟩, ⟨m, hm⟩⟩
    have h1 := ((parseUint32_ok_iff _ n).1 hn).1
    have h2 := ((parseUint32_ok_iff _ m).1 hm).1
    rcases hbad with h | h
    · rw [h] at h1; simp at h1
    · rw [h] at h2; simp at h2
  refine ⟨hnone, importConfigItems_drop_skipped header row front back hnone, ?_⟩
  intro h
  rw [importConfigItems_drop_skipped header row front back hnone]
  exact importConfigItems_ok_of_survivor header (front ++ back) h

/-- C8 witness: a row whose provider cell holds the display name `AWS`, before a complete
row. -/
theorem importConfigItems_skips_non_numeric_row_witness :
    ImportConfigItems.parseRow sampleNameRow = none ∧
      ImportConfigItems [sampleHeader, sampleNameRow, sampleRow] =
        ImportConfigItems [sampleHeader, sampleRow] ∧
      ImportConfigItems [sampleHeader, sampleNameRow, sampleRow] = .ok [sampleCandidate] :=
  have h := importConfigItems_skips_non_numeric_row sampleHeader sampleNameRow [] [sampleRow]
    (by decide) (Or.inl (by decide))
  ⟨h.1, h.2.1, (h.2.2 ⟨sampleRow, by decide, by decide, ⟨1, rfl⟩, ⟨10, rfl⟩⟩).1⟩

/-- C9: on the rows of a sheet `ImportConfigItems` fails exactly when the sheet has fewer than
2 rows or no data row survives the skipping, the failure is always `ErrInvalidData`, and in
every other case it returns a non-empty list of candidates. -/
theorem importConfigItems_fails_iff (rows : List (List String)) :
    (ImportConfigItems rows = .error ExcelError.ErrInvalidData ↔
        rows.length < 2 ∨ ∀ r ∈ rows.drop 1, ¬ survives r) ∧
      (∀ e, ImportConfigItems rows = .error e → e = ExcelError.ErrInvalidData) ∧
      (¬ (rows.length < 2 ∨ ∀ r ∈ rows.drop 1, ¬ survives r) →
        ∃ items, ImportConfigItems rows = .ok items ∧ items ≠ []) := by
  have hok : ¬ (rows.length < 2 ∨ ∀ r ∈ rows.drop 1, ¬ survives r) →
      ∃ items, ImportConfigItems rows = .ok items ∧ items ≠ [] := by
    intro h
    rw [not_or] at h
    obtain ⟨hlen, hsurv⟩ := h
    have hex : ∃ r ∈ rows.drop 1, survives r := by
      by_contra hno
      exact hsurv (fun r hr hs => hno ⟨r, hr, hs⟩)
    cases rows with
    | nil => simp at hlen
    | cons header data =>
      simp only [List.drop_succ_cons, List.drop_zero] at hex
      have := importConfigItems_ok_of_survivor header data hex
      exact ⟨_, this.1, this.2⟩
  have hfail : (rows.length < 2 ∨ ∀ r ∈ rows.drop 1, ¬ survives r) →
      ImportConfigItems rows = .error ExcelError.ErrInvalidData := by
    intro h
    unfold ImportConfigItems
    by_cases hlen : rows.length < 2
    · rw [if_pos hlen]
    · rw [if_neg hlen]
      have hsurv := h.resolve_left hlen
      have hnil : (rows.drop 1).filterMap ImportConfigItems.parseRow = [] := by
        rw [List.filterMap_eq_nil_iff]
        intro r hr
        exact parseRow_none_of_not_survives r (hsurv r hr)
      simp only [hnil, List.length_nil, if_true]
  refine ⟨⟨?_, hfail⟩, ?_, hok⟩
  · intro herr
    by_contra hcon
    obtain ⟨items, hitems, _⟩ := hok hcon
    rw [hitems] at herr
    simp at herr
  · intro e herr
    by_cases hcon : rows.length < 2 ∨ ∀ r ∈ rows.drop 1, ¬ survives r
    · rw [hfail hcon] at herr
      simp only [Except.error.injEq] at herr
      exact herr.symm
    · obtain ⟨items, hitems, _⟩ := hok hcon
      rw [hitems] at herr
      simp at herr

theorem columns2to9_getD (row : List String) (k : Nat) (hk : k < 8) :
    (columns2to9 row).getD k "" = row.getD (k + 1) "" := by
  unfold columns2to9
  simp only [List.getD_eq_getElem?_getD, List.getElem?_take, if_pos hk, List.getElem?_drop]
  rw [Nat.add_comm]

theorem parseRow_congr (r r1 : List String) (h : sameColumns2to9 r r1) :
    ImportConfigItems.parseRow r = ImportConfigItems.parseRow r1 := by
  obtain ⟨hlen, hcols⟩ := h
  have hget : ∀ k, k < 8 → r.getD (k + 1) "" = r1.getD (k + 1) "" := by
    intro k hk
    rw [← columns2to9_getD r k hk, ← columns2to9_getD r1 k hk, hcols]
  have h1 := hget 0 (by omega)
  have h2 := hget 1 (by omega)
  have h3 := hget 2 (by omega)
  have h4 := hget 3 (by omega)
  have h5 := hget 4 (by omega)
  have h6 := hget 5 (by omega)
  have h7 := hget 6 (by omega)
  have h8 := hget 7 (by omega)
  simp only [Nat.zero_add, Nat.reduceAdd] at h1 h2 h3 h4 h5 h6 h7 h8
  unfold ImportConfigItems.parseRow
  by_cases hr : r.length < 9
  · rw [if_pos hr, if_pos (hlen.1 hr)]
  · rw [if_neg hr, if_neg (fun h => hr (hlen.2 h)), h1, h2, h3, h4, h5, h6, h7, h8]

theorem filterMap_parseRow_congr (data data1 : List (List String))
    (h : List.Forall₂ sameColumns2to9 data data1) :
    data.filterMap ImportConfigItems.parseRow = data1.filterMap ImportConfigItems.parseRow := by
  induction h with
  | nil => rfl
  | cons hrow _ ih =>
    simp only [List.filterMap_cons, parseRow_congr _ _ hrow, ih]

/-- C10: the candidate of a surviving data row has its two ids equal to the decimal values of
columns 2 and 3, its six texts equal to columns 4 to 9 in that order, and a zero id and zero
timestamps; and two sheets whose data rows agree on columns 2 to 9 give the same result,
whatever their header rows and their columns 1, 10 and 11 hold. -/
theorem importConfigItems_reads_columns_2_to_9 (header header1 : List String)
    (data data1 : List (List String)) (hsame : List.Forall₂ sameColumns2to9 data data1) :
    ImportConfigItems (header :: data) = ImportConfigItems (header1 :: data1) ∧
      (∀ items, ImportConfigItems (header :: data) = .ok items →
        items = data.filterMap ImportConfigItems.parseRow) ∧
      ∀ row ∈ data, survives row →
        ∃ providerID productID,
          decimalText? (row.getD 1 "") = some providerID ∧
          decimalText? (row.getD 2 "") = some productID ∧
          ImportConfigItems.parseRow row =
            some ⟨0, 0, 0, providerID, productID, row.getD 3 "", row.getD 4 "", row.getD 5 "",
              row.getD 6 "", row.getD 7 "", row.getD 8 "", CloudProvider.zero,
              CloudProduct.zero⟩ := by
  refine ⟨?_, ?_, ?_⟩
  · have hlen : data.length = data1.length := hsame.length_eq
    unfold ImportConfigItems
    simp only [List.length_cons, List.drop_succ_cons, List.drop_zero, hlen,
      filterMap_parseRow_congr data data1 hsame]
  · intro items h
    unfold ImportConfigItems at h
    simp only [List.drop_succ_cons, List.drop_zero] at h
    split at h
    · simp at h
    · split at h
      · simp at h
      · simp only [Except.ok.injEq] at h
        exact h.symm
  · rintro row _ ⟨hlen, ⟨pid, hp⟩, ⟨qid, hq⟩⟩
    refine ⟨pid, qid, ((parseUint32_ok_iff _ pid).1 hp).1, ((parseUint32_ok_iff _ qid).1 hq).1, ?_⟩
    unfold ImportConfigItems.parseRow
    rw [if_neg (by omega)]
    simp only [hp, hq]

/-- C10 witness: two sheets with one data row each, which differ in the header and in
columns 1, 10 and 11 of the data row, both give the candidate of provider 1 and product 10. -/
theorem importConfigItems_reads_columns_2_to_9_witness :
    ImportConfigItems [sampleHeader, sampleRow] = ImportConfigItems [[], sampleRowOther] ∧
      ImportConfigItems [sampleHeader, sampleRow] = .ok [sampleCandidate] ∧
      ∃ providerID productID,
        decimalText? (sampleRow.getD 1 "") = some providerID ∧
        decimalText? (sampleRow.getD 2 "") = some productID ∧
        ImportConfigItems.parseRow sampleRow =
          some ⟨0, 0, 0, providerID, productID, sampleRow.getD 3 "", sampleRow.getD 4 "",
            sampleRow.getD 5 "", sampleRow.getD 6 "", sampleRow.getD 7 "", sampleRow.getD 8 "",
            CloudProvider.zero, CloudProduct.zero⟩ :=
  have h := importConfigItems_reads_columns_2_to_9 sampleHeader [] [sampleRow] [sampleRowOther]
    (List.Forall₂.cons ⟨by decide, by decide⟩ List.Forall₂.nil)
  ⟨h.1, rfl, h.2.2 sampleRow (List.mem_singleton.2 rfl) ⟨by decide, ⟨1, rfl⟩, ⟨10, rfl⟩⟩⟩

/-! ## Document order -/

theorem filterMap_forall₂_filter {α β : Type} (f : α → Option β) (l : List α) :
    List.Forall₂ (fun a b => f a = some b) (l.filter (fun a => (f a).isSome)) (l.filterMap f) := by
  induction l with
  | nil => exact List.Forall₂.nil
  | cons a t ih =>
    cases hfa : f a with
    | none => simpa [List.filter_cons, List.filterMap_cons, hfa] using ih
    | some b =>
      simp only [List.filter_cons, List.filterMap_cons, hfa, Option.isSome_some, if_true]
      exact List.Forall₂.cons hfa ih

theorem filterMap_getElem?_of_all_some {α β : Type} (f : α → Option β) (l : List α)
    (h : ∀ a ∈ l, (f a).isSome) :
    (l.filterMap f).length = l.length ∧ ∀ k : Nat, (l.filterMap f)[k]? = (l[k]?).bind f := by
  induction l with
  | nil => exact ⟨rfl, fun k => by simp⟩
  | cons a t ih =>
    obtain ⟨b, hb⟩ := Option.isSome_iff_exists.1 (h a (List.mem_cons_self a t))
    obtain ⟨hlen, hget⟩ := ih (fun x hx => h x (List.mem_cons_of_mem a hx))
    refine ⟨by simp [List.filterMap_cons, hb, hlen], ?_⟩
    intro k
    cases k with
    | zero => simp [List.filterMap_cons, hb]
    | succ k => simpa [List.filterMap_cons, hb] using hget k

theorem validate_stops_at_first_error (fl : Faults) (s : Store) (c : ConfigurationItem)
    (back : List ConfigurationItem) (err : ServiceError) (front : List ConfigurationItem) :
    ∀ i, (∀ (k : Nat) x, front[k]? = some x → BatchImportConfigItems.validateOne fl s (i + k) x = none) →
      BatchImportConfigItems.validateOne fl s (i + front.length) c = some err →
      BatchImportConfigItems.validate fl s i (front ++ c :: back) = some err := by
  induction front with
  | nil =>
    intro i _ hc
    simp only [List.length_nil, Nat.add_zero] at hc
    simp [BatchImportConfigItems.validate, hc]
  | cons a t ih =>
    intro i hfront hc
    have ha : BatchImportConfigItems.validateOne fl s i a = none := by
      simpa using hfront 0 a (by simp)
    simp only [List.cons_append, BatchImportConfigItems.validate, ha]
    apply ih (i + 1)
    · intro k x hk
      have := hfront (k + 1) x (by simpa using hk)
      rwa [show i + 1 + k = i + (k + 1) by omega]
    · rwa [show i + 1 + t.length = i + (a :: t).length by simp; omega]

/-- C11: the candidates returned by `ImportConfigItems` are the candidates of the surviving
data rows in the order of the rows, so when every data row survives the candidate at position
`k` is the one of the data row at position `k`; and `BatchImportConfigItems` runs its checks
over the candidates in list order and returns the error of the first candidate whose check
fails, whatever follows it, leaving the store unchanged. -/
theorem importConfigItems_preserves_order (fl : Faults) (now : Time) (s : Store)
    (header : List String) (data : List (List String)) (items : List ConfigurationItem)
    (h : ImportConfigItems (header :: data) = .ok items) :
    List.Forall₂ (fun row c => ImportConfigItems.parseRow row = some c)
        (data.filter (fun row => (ImportConfigItems.parseRow row).isSome)) items ∧
      (∀ row, (ImportConfigItems.parseRow row).isSome = true ↔ survives row) ∧
      ((∀ row ∈ data, survives row) →
        items.length = data.length ∧
          ∀ k : Nat, items[k]? = (data[k]?).bind ImportConfigItems.parseRow) ∧
      (∀ front c back err, items = front ++ c :: back →
        (∀ (k : Nat) x, front[k]? = some x →
          BatchImportConfigItems.validateOne fl s k x = none) →
        BatchImportConfigItems.validateOne fl s front.length c = some err →
        BatchImportConfigItems fl now s items = (s, some err)) := by
  have hitems : items = data.filterMap ImportConfigItems.parseRow := by
    unfold ImportConfigItems at h
    simp only [List.drop_succ_cons, List.drop_zero] at h
    split at h
    · simp at h
    · split at h
      · simp at h
      · simp only [Except.ok.injEq] at h
        exact h.symm
  have hsome : ∀ row, (ImportConfigItems.parseRow row).isSome = true ↔ survives row := by
    intro row
    rw [Option.isSome_iff_exists]
    exact parseRow_some_iff_survives row
  refine ⟨?_, hsome, ?_, ?_⟩
  · rw [hitems]
    exact filterMap_forall₂_filter ImportConfigItems.parseRow data
  · intro hall
    rw [hitems]
    exact filterMap_getElem?_of_all_some ImportConfigItems.parseRow data
      (fun row hrow => (hsome row).2 (hall row hrow))
  · intro front c back err hsplit hfront hc
    have hval : BatchImportConfigItems.validate fl s 0 items = some err := by
      rw [hsplit]
      apply validate_stops_at_first_error fl s c back err front 0
      · intro k x hk
        rw [Nat.zero_add]
        exact hfront k x hk
      · rwa [Nat.zero_add]
    simp [BatchImportConfigItems, hval]

/-- C11 witness: a sheet with a complete row, a short row, a second complete row and a row
naming the missing product 11 gives the three candidates in row order, and the batch import
of these candidates stops at the third one. -/
theorem importConfigItems_preserves_order_witness :
    ImportConfigItems [sampleHeader, sampleRow, sampleShortRow, sampleRowTls,
        ["13", "1", "11", "waf", "enabled", "risk", "check", "method", "doc"]] =
        .ok [sampleCandidate, sampleCandidateTls, sampleCandidateBad] ∧
      BatchImportConfigItems noFaults 5 sampleStore
          [sampleCandidate, sampleCandidateTls, sampleCandidateBad] =
        (sampleStore, BatchImportConfigItems.validateOne noFaults sampleStore 2
          sampleCandidateBad) :=
  ⟨rfl,
    (importConfigItems_preserves_order noFaults 5 sampleStore sampleHeader
      [sampleRow, sampleShortRow, sampleRowTls,
        ["13", "1", "11", "waf", "enabled", "risk", "check", "method", "doc"]]
      [sampleCandidate, sampleCandidateTls, sampleCandidateBad] rfl).2.2.2
      [sampleCandidate, sampleCandidateTls] sampleCandidateBad []
      ⟨ErrCodeNotFound,
        "批量导入配置项失败：第" ++ goStringOfInt 3 ++ "条记录的云产品不存在", none⟩
      rfl
      (fun k x hk => by
        match k, hk with
        | 0, hk =>
          simp only [List.getElem?_cons_zero, Option.some.injEq] at hk
          subst hk
          decide
        | 1, hk =>
          simp only [List.getElem?_cons_succ, List.getElem?_cons_zero, Option.some.injEq] at hk
          subst hk
          decide
        | k + 2, hk => simp at hk)
      (by decide)⟩

/-! ## The transaction of the batch insert -/

theorem insertLoop_append_fail (fl : Faults) (now : Time) (c : ConfigurationItem)
    (back : List ConfigurationItem) (e : DbError) (front : List ConfigurationItem) :
    ∀ s s1, configurationItemRepository.insertLoop fl now s front = (s1, none) →
      (configurationItemRepository.Create fl now s1 c).2 = some e →
      (configurationItemRepository.insertLoop fl now s (front ++ c :: back)).2 = some e := by
  induction front with
  | nil =>
    intro s s1 hfront hc
    simp only [configurationItemRepository.insertLoop, Prod.mk.injEq, and_true] at hfront
    subst hfront
    simp only [List.nil_append, configurationItemRepository.insertLoop]
    split
    · rename_i s2 e2 heq
      rw [heq] at hc
      simpa using hc
    · rename_i s2 heq
      rw [heq] at hc
      simp at hc
  | cons a t ih =>
    intro s s1 hfront hc
    simp only [List.cons_append, configurationItemRepository.insertLoop] at hfront ⊢
    split at hfront
    · simp at hfront
    · rename_i s2 heq
      exact ih s2 s1 hfront hc

theorem insertLoop_ok_append (fl : Faults) (now : Time) (items : List ConfigurationItem) :
    ∀ s s1, configurationItemRepository.insertLoop fl now s items = (s1, none) →
      ∃ rows, s1.items = s.items ++ rows ∧ rows.length = items.length ∧
        List.Forall₂ (fun row c => row.sameContent c) rows items := by
  induction items with
  | nil =>
    intro s s1 h
    simp only [configurationItemRepository.insertLoop, Prod.mk.injEq, and_true] at h
    subst h
    exact ⟨[], by simp, rfl, List.Forall₂.nil⟩
  | cons a t ih =>
    intro s s1 h
    unfold configurationItemRepository.insertLoop at h
    split at h
    · simp at h
    · rename_i s2 hcreate
      have hshape := create_ok_shape fl now s s2 a hcreate
      obtain ⟨rows, hrows, hlen, hall⟩ := ih s2 s1 h
      refine ⟨createdRow now s.items a :: rows, ?_, by simp [hlen], List.Forall₂.cons ?_ hall⟩
      · rw [hrows, hshape]
        simp
      · simp [ConfigurationItem.sameContent, createdRow]

/-- C12: for candidates that pass validation, when the inserts of the first candidates succeed
and the insert of the next one fails, `BatchImportConfigItems` returns the database error that
wraps the failure and the store is the one before the call; when every insert succeeds there
is no error, providers and products are unchanged and the stored configuration items are the
former ones followed by one row per candidate. -/
theorem batchImport_all_or_nothing (fl : Faults) (now : Time) (s : Store)
    (items : List ConfigurationItem)
    (hval : BatchImportConfigItems.validate fl s 0 items = none) :
    (∀ front c back s1 e, items = front ++ c :: back →
        configurationItemRepository.insertLoop fl now s front = (s1, none) →
        (configurationItemRepository.Create fl now s1 c).2 = some e →
        BatchImportConfigItems fl now s items =
          (s, some ⟨ErrCodeDatabase, "批量导入配置项失败", some e⟩)) ∧
      (∀ s1, configurationItemRepository.insertLoop fl now s items = (s1, none) →
        BatchImportConfigItems fl now s items = (s1, none) ∧
          s1.providers = s.providers ∧ s1.products = s.products ∧
          ∃ rows, s1.items = s.items ++ rows ∧ rows.length = items.length ∧
            List.Forall₂ (fun row c => row.sameContent c) rows items) := by
  constructor
  · intro front c back s1 e hsplit hfront hc
    have hloop := insertLoop_append_fail fl now c back e front s s1 hfront hc
    rw [← hsplit] at hloop
    unfold BatchImportConfigItems
    simp only [hval]
    unfold configurationItemRepository.BatchInsert
    split
    · rename_i s2 e2 heq
      split at heq
      · simp at heq
      · rename_i s3 e3 hl
        rw [hl] at hloop
        simp only [Option.some.injEq] at hloop
        simp only [Prod.mk.injEq, Option.some.injEq] at heq
        obtain ⟨rfl, rfl⟩ := heq
        rw [hloop]
        rfl
    · rename_i s2 heq
      split at heq
      · rename_i s3 hl
        rw [hl] at hloop
        simp at hloop
      · simp at heq
  · intro s1 hloop
    obtain ⟨hp, hq, _, _⟩ := insertLoop_ok_rows fl now items s s1 hloop
    refine ⟨?_, hp, hq, insertLoop_ok_append fl now items s s1 hloop⟩
    simp [BatchImportConfigItems, hval, configurationItemRepository.BatchInsert, hloop]

/-- C12 witness: in a batch of two valid candidates the first is inserted under the fresh id 1
and the second asks for id 1, so its insert fails on the primary key; the import returns the
database error and the store is the one before the call, without the first candidate. -/
theorem batchImport_all_or_nothing_witness :
    BatchImportConfigItems noFaults 5 sampleStore sampleClashBatch =
      (sampleStore, some ⟨ErrCodeDatabase, "批量导入配置项失败", some duplicateKey⟩) :=
  (batchImport_all_or_nothing noFaults 5 sampleStore sampleClashBatch (by decide)).1
    [sampleItem 1 10 "a"] { sampleItem 1 10 "b" with ID := 1 } []
    ⟨[sampleAws, sampleAliyun], [sampleEc2], [createdRow 5 [] (sampleItem 1 10 "a")]⟩
    duplicateKey rfl rfl rfl

/-! ## The pre-checks and the page defaults of the filtered query -/

/-- C13: with lookups that go through, a filter whose provider id is present and names no
provider, or whose product id is present and names no product, makes
`GetConfigItemsByFilter` return no page result and an error with code `ErrCodeNotFound`,
whatever its keyword, page and page size are. -/
theorem getConfigItemsByFilter_missing_notFound (fl : Faults) (s : Store)
    (filter : ConfigItemFilter) (hfl : fl.lookupsOk)
    (hmiss : (∃ id, filter.CloudProviderID = some id ∧ ¬ s.hasProvider id) ∨
      (∃ id, filter.ProductID = some id ∧ ¬ s.hasProduct id)) :
    ∃ err, GetConfigItemsByFilter fl s filter = (none, some err) ∧
      err.Code = ErrCodeNotFound ∧
      (err.Message = "云服务商不存在" ∨ err.Message = "云产品不存在") := by
  cases hprov : GetConfigItemsByFilter.checkProvider fl s filter with
  | some err =>
    refine ⟨err, by simp [GetConfigItemsByFilter, hprov], ?_⟩
    unfold GetConfigItemsByFilter.checkProvider at hprov
    split at hprov
    · rename_i id hid
      split at hprov
      · rename_i e he
        simp [cloudProviderRepository.GetByID, hfl.1 id] at he
      · simp only [Option.some.injEq] at hprov
        subst hprov
        exact ⟨rfl, Or.inl rfl⟩
      · simp at hprov
    · simp at hprov
  | none =>
    have hnoprov : ¬ ∃ id, filter.CloudProviderID = some id ∧ ¬ s.hasProvider id := by
      rintro ⟨id, hid, hno⟩
      simp [GetConfigItemsByFilter.checkProvider, hid,
        providerGetByID_of_not_has fl s id (hfl.1 id) hno, NewServiceError] at hprov
    obtain ⟨id, hid, hno⟩ := hmiss.resolve_left hnoprov
    refine ⟨⟨ErrCodeNotFound, "云产品不存在", none⟩, ?_, rfl, Or.inr rfl⟩
    simp [GetConfigItemsByFilter, hprov, GetConfigItemsByFilter.checkProduct, hid,
      productGetByID_of_not_has fl s id (hfl.2 id) hno, NewServiceError]

/-- C13 witness: the sample store has no provider 7 and no product 11. -/
theorem getConfigItemsByFilter_missing_notFound_witness :
    (∃ err, GetConfigItemsByFilter noFaults sampleStoreThree ⟨some 7, none, some "x", 0, 500⟩ =
        (none, some err) ∧ err.Code = ErrCodeNotFound ∧
        (err.Message = "云服务商不存在" ∨ err.Message = "云产品不存在")) ∧
      ∃ err, GetConfigItemsByFilter noFaults sampleStoreThree ⟨some 1, some 11, none, 1, 10⟩ =
        (none, some err) ∧ err.Code = ErrCodeNotFound ∧
        (err.Message = "云服务商不存在" ∨ err.Message = "云产品不存在") :=
  ⟨getConfigItemsByFilter_missing_notFound noFaults sampleStoreThree
      ⟨some 7, none, some "x", 0, 500⟩ ⟨fun _ => rfl, fun _ => rfl⟩
      (Or.inl ⟨7, rfl, by decide⟩),
    getConfigItemsByFilter_missing_notFound noFaults sampleStoreThree
      ⟨some 1, some 11, none, 1, 10⟩ ⟨fun _ => rfl, fun _ => rfl⟩
      (Or.inr ⟨11, rfl, by decide⟩)⟩

theorem getConfigItemsByFilter_some (fl : Faults) (s : Store) (filter : ConfigItemFilter)
    (result : PageResult) (h : (GetConfigItemsByFilter fl s filter).1 = some result) :
    configurationItemRepository.GetByFilter fl s (GetConfigItemsByFilter.withDefaults filter) =
      .ok result := by
  unfold GetConfigItemsByFilter at h
  split at h
  · simp at h
  · split at h
    · simp at h
    · split at h
      · simp at h
      · rename_i r hr
        simp only [Option.some.injEq] at h
        rw [hr, h]

theorem getByFilter_ok_shape (fl : Faults) (s : Store) (filter : ConfigItemFilter)
    (result : PageResult)
    (h : configurationItemRepository.GetByFilter fl s filter = .ok result) :
    result =
      ⟨((s.items.filter (configurationItemRepository.whereClause filter)).length : Int),
        filter.Page, filter.PageSize,
        (((s.items.filter (configurationItemRepository.whereClause filter)).drop
          (Paginate filter.Page filter.PageSize).1.toNat).take
          (Paginate filter.Page filter.PageSize).2.toNat).map
          (configurationItemRepository.preload s)⟩ := by
  unfold configurationItemRepository.GetByFilter at h
  split at h
  · simp at h
  · simp only at h
    split at h
    · simp at h
    · simp only [Except.ok.injEq] at h
      exact h.symm

theorem getConfigItemsByFilter_defaults_of_some (fl : Faults) (s : Store)
    (filter : ConfigItemFilter) (result : PageResult)
    (h : (GetConfigItemsByFilter fl s filter).1 = some result) :
    result.Page = (if filter.Page ≤ 0 then 1 else filter.Page) ∧
      result.PageSize =
        (if filter.PageSize ≤ 0 then 10
          else if filter.PageSize > 100 then 100 else filter.PageSize) := by
  have hrepo := getConfigItemsByFilter_some fl s filter result h
  have hshape := getByFilter_ok_shape fl s _ result hrepo
  constructor
  · rw [hshape]; rfl
  · rw [hshape]; rfl

/-- C14: when `GetConfigItemsByFilter` returns a page result, the page it reports is 1 for a
requested page of at most 0 and the requested page otherwise, the page size it reports is 10
for a requested size of at most 0, 100 for a requested size above 100 and the requested size
otherwise; these are the values the query runs with, the limit of the query is that page
size, the page size lies between 1 and 100 and the page is at least 1. -/
theorem getConfigItemsByFilter_page_defaults (fl : Faults) (s : Store)
    (filter : ConfigItemFilter) (result : PageResult)
    (h : (GetConfigItemsByFilter fl s filter).1 = some result) :
    result.Page = (if filter.Page ≤ 0 then 1 else filter.Page) ∧
      result.PageSize =
        (if filter.PageSize ≤ 0 then 10
          else if filter.PageSize > 100 then 100 else filter.PageSize) ∧
      configurationItemRepository.GetByFilter fl s
        ⟨filter.CloudProviderID, filter.ProductID, filter.Keyword, result.Page,
          result.PageSize⟩ = .ok result ∧
      (Paginate result.Page result.PageSize).2 = result.PageSize ∧
      1 ≤ result.PageSize ∧ result.PageSize ≤ 100 ∧ 1 ≤ result.Page := by
  have hrepo := getConfigItemsByFilter_some fl s filter result h
  obtain ⟨hpage, hsize⟩ := getConfigItemsByFilter_defaults_of_some fl s filter result h
  have hb1 : 1 ≤ result.PageSize := by rw [hsize]; split_ifs <;> omega
  have hb2 : result.PageSize ≤ 100 := by rw [hsize]; split_ifs <;> omega
  have hb3 : 1 ≤ result.Page := by rw [hpage]; split_ifs <;> omega
  refine ⟨hpage, hsize, ?_, ?_, hb1, hb2, hb3⟩
  · rw [hpage, hsize]
    exact hrepo
  · unfold Paginate
    simp only
    rw [if_neg (by omega), if_neg (by omega)]

/-- C14 witness: a requested page size of 500 gives 100, a requested page size of 0 gives 10
and a requested page of 0 gives 1. -/
theorem getConfigItemsByFilter_page_defaults_witness :
    (GetConfigItemsByFilter noFaults sampleStoreThree (samplePageFilter 2 500)).1 =
        some samplePageTwo ∧
      samplePageTwo.Page = 2 ∧ samplePageTwo.PageSize = 100 ∧
      (GetConfigItemsByFilter noFaults sampleStoreThree (samplePageFilter 0 0)).1 =
        some samplePageOne ∧
      samplePageOne.Page = 1 ∧ samplePageOne.PageSize = 10 :=
  have t2 := getConfigItemsByFilter_page_defaults noFaults sampleStoreThree
    (samplePageFilter 2 500) samplePageTwo (by decide)
  have t1 := getConfigItemsByFilter_page_defaults noFaults sampleStoreThree
    (samplePageFilter 0 0) samplePageOne (by decide)
  ⟨by decide, t2.1, t2.2.1, by decide, t1.1, t1.2.1⟩

/-! ## Offset and limit -/

theorem wrapInt64_of_fits (x : Int) (h0 : 0 ≤ x) (h1 : x < 2 ^ 63) : wrapInt64 x = x := by
  unfold wrapInt64
  have e63 : (2 : Int) ^ 63 = 9223372036854775808 := by norm_num
  have e64 : (2 : Int) ^ 64 = 18446744073709551616 := by norm_num
  rw [e63] at h1
  rw [e63, e64]
  omega

theorem paginate_eq (page pageSize : Int) :
    Paginate page pageSize =
      (wrapInt64 ((normalPage page - 1) * normalPageSize pageSize), normalPageSize pageSize) := by
  unfold Paginate normalPage normalPageSize
  by_cases h1 : pageSize ≤ 0
  · simp [h1]
  · by_cases h2 : pageSize > 100
    · simp [h1, h2]
    · simp [h1, h2]

/-- C15 counterexample: for the requested page `2 ^ 63 - 1`, a value of Go's `int`, and the
requested page size 10 the offset that `Paginate` applies is -20, which is negative and is not
the product `(p - 1) * s`. -/
theorem paginate_offset_wraps :
    (9223372036854775807 : Int) < 2 ^ 63 ∧
      (Paginate 9223372036854775807 10).1 = -20 ∧
      (Paginate 9223372036854775807 10).1 ≠
        (normalPage 9223372036854775807 - 1) * normalPageSize 10 ∧
      (Paginate 9223372036854775807 10).1 < 0 := by
  decide

/-- C15: for every requested page and page size whose product `(p - 1) * s` of the normalised
page less one and the normalised page size fits Go's 64-bit `int`, the offset that `Paginate`
applies equals that product as a mathematical integer, the limit equals `s`, and the offset
is not negative; in every case the offset is the product wrapped to 64 bits. -/
theorem paginate_offset_of_fits (page pageSize : Int)
    (hfit : (normalPage page - 1) * normalPageSize pageSize < 2 ^ 63) :
    (Paginate page pageSize).1 = (normalPage page - 1) * normalPageSize pageSize ∧
      (Paginate page pageSize).2 = normalPageSize pageSize ∧
      0 ≤ (Paginate page pageSize).1 ∧
      ∀ page1 pageSize1 : Int, (Paginate page1 pageSize1).1 =
        wrapInt64 ((normalPage page1 - 1) * normalPageSize pageSize1) := by
  have hp : 0 ≤ normalPage page - 1 := by
    unfold normalPage; split_ifs <;> omega
  have hs : 0 ≤ normalPageSize pageSize := by
    unfold normalPageSize; split_ifs <;> omega
  have h0 : 0 ≤ (normalPage page - 1) * normalPageSize pageSize := mul_nonneg hp hs
  have hoff : (Paginate page pageSize).1 = (normalPage page - 1) * normalPageSize pageSize := by
    rw [paginate_eq]
    exact wrapInt64_of_fits _ h0 hfit
  have hlim : (Paginate page pageSize).2 = normalPageSize pageSize := by
    rw [paginate_eq]
  refine ⟨hoff, hlim, by rw [hoff]; exact h0, ?_⟩
  intro page1 pageSize1
  rw [paginate_eq]

/-- C15 witness: page 3 with page size 25 gives offset 50 and limit 25. -/
theorem paginate_offset_of_fits_witness :
    (Paginate 3 25).1 = (normalPage 3 - 1) * normalPageSize 25 ∧
      (Paginate 3 25).2 = normalPageSize 25 ∧ 0 ≤ (Paginate 3 25).1 ∧
      (Paginate 3 25).1 = 50 :=
  have t := paginate_offset_of_fits 3 25 (by decide)
  ⟨t.1, t.2.1, t.2.2.1, by decide⟩

/-! ## Totals, page slices and the matching rule -/

theorem whereClause_preload (s : Store) (filter : ConfigItemFilter) (r : ConfigurationItem) :
    configurationItemRepository.whereClause filter (configurationItemRepository.preload s r) =
      configurationItemRepository.whereClause filter r := rfl

theorem whereClause_withDefaults (filter : ConfigItemFilter) (r : ConfigurationItem) :
    configurationItemRepository.whereClause (GetConfigItemsByFilter.withDefaults filter) r =
      configurationItemRepository.whereClause filter r := rfl

theorem getByFilter_page (fl : Faults) (s : Store) (filter : ConfigItemFilter)
    (result : PageResult)
    (h : configurationItemRepository.GetByFilter fl s filter = .ok result) :
    result.Total =
        ((s.items.filter (configurationItemRepository.whereClause filter)).length : Int) ∧
      (result.Data.length : Int) ≤ normalPageSize filter.PageSize ∧
      (∀ d ∈ result.Data, ∃ r ∈ s.items,
        configurationItemRepository.whereClause filter r = true ∧
          d = configurationItemRepository.preload s r) ∧
      (result.Total ≤ (Paginate filter.Page filter.PageSize).1 → result.Data = []) := by
  have hshape := getByFilter_ok_shape fl s filter result h
  have hlim : (Paginate filter.Page filter.PageSize).2 = normalPageSize filter.PageSize := by
    rw [paginate_eq]
  have hpos : 0 ≤ normalPageSize filter.PageSize := by
    unfold normalPageSize; split_ifs <;> omega
  rw [hshape]
  refine ⟨rfl, ?_, ?_, ?_⟩
  · simp only [List.length_map, List.length_take, hlim]
    have := Int.toNat_of_nonneg hpos
    omega
  · intro d hd
    simp only [List.mem_map] at hd
    obtain ⟨r, hr, rfl⟩ := hd
    have hr2 := List.mem_of_mem_drop (List.mem_of_mem_take hr)
    rw [List.mem_filter] at hr2
    exact ⟨r, hr2.1, hr2.2, rfl⟩
  · intro hoff
    simp only at hoff
    have hdrop : (s.items.filter (configurationItemRepository.whereClause filter)).drop
        (Paginate filter.Page filter.PageSize).1.toNat = [] := by
      apply List.drop_eq_nil_of_le
      omega
    simp only [hdrop, List.take_nil, List.map_nil]

/-- C16, as stated, fails: for the three sample items, the requested page `2 ^ 63 - 1` and
the page size 10 pass the service, the offset `(page - 1) * page_size` is far beyond the
total 3, and yet `Data` holds the three items: the product wraps to -20 in Go's `int`, and
gorm sends no `OFFSET` for a negative offset. -/
theorem getConfigItemsByFilter_huge_page_not_empty :
    (GetConfigItemsByFilter noFaults sampleStoreThree
        (samplePageFilter 9223372036854775807 10)).1 =
      some ⟨3, 9223372036854775807, 10,
        sampleStoreThree.items.map (configurationItemRepository.preload sampleStoreThree)⟩ ∧
      (3 : Int) ≤ (9223372036854775807 - 1) * 10 ∧
      (sampleStoreThree.items.map
        (configurationItemRepository.preload sampleStoreThree)).length = 3 := by
  decide

/-- C16, amended: when `GetConfigItemsByFilter` returns a page result, its `Total` is the
number of stored configuration items that satisfy the filter, the same for every page and
page size; its `Data` holds at most the reported page size many items, each the preloaded
copy of a stored item that satisfies the filter; and `Data` is empty when the offset
`(page - 1) * page_size` of the reported page and page size is at or beyond `Total`, provided
that this product fits Go's 64-bit `int`. In every case `Data` is empty when `Total` is at
most the offset the query runs with, which is the product wrapped to 64 bits. -/
theorem getConfigItemsByFilter_total_and_slice (fl : Faults) (s : Store)
    (filter : ConfigItemFilter) (result : PageResult)
    (h : (GetConfigItemsByFilter fl s filter).1 = some result) :
    result.Total =
        ((s.items.filter (configurationItemRepository.whereClause filter)).length : Int) ∧
      (∀ page pageSize result1,
        (GetConfigItemsByFilter fl s
          ⟨filter.CloudProviderID, filter.ProductID, filter.Keyword, page, pageSize⟩).1 =
            some result1 →
        result1.Total = result.Total) ∧
      (result.Data.length : Int) ≤ result.PageSize ∧
      (∀ d ∈ result.Data, configurationItemRepository.whereClause filter d = true ∧
        ∃ r ∈ s.items, d = configurationItemRepository.preload s r) ∧
      ((result.Page - 1) * result.PageSize < 2 ^ 63 →
        result.Total ≤ (result.Page - 1) * result.PageSize → result.Data = []) ∧
      (result.Total ≤ (Paginate result.Page result.PageSize).1 → result.Data = []) := by
  have hrepo := getConfigItemsByFilter_some fl s filter result h
  have hdef := getConfigItemsByFilter_defaults_of_some fl s filter result h
  obtain ⟨htotal, hlen, hdata, hempty⟩ := getByFilter_page fl s _ result hrepo
  have hsize : normalPageSize (GetConfigItemsByFilter.withDefaults filter).PageSize =
      result.PageSize := by
    rw [hdef.2]
    unfold normalPageSize GetConfigItemsByFilter.withDefaults
    simp only
    split_ifs <;> first | rfl | omega
  have hwrapped : result.Total ≤ (Paginate result.Page result.PageSize).1 →
      result.Data = [] := by
    intro hoff
    apply hempty
    have hp : (GetConfigItemsByFilter.withDefaults filter).Page = result.Page := by
      rw [hdef.1]; rfl
    have hs : (GetConfigItemsByFilter.withDefaults filter).PageSize = result.PageSize := by
      rw [hdef.2]; rfl
    rw [hp, hs]
    exact hoff
  refine ⟨htotal, ?_, ?_, ?_, ?_, hwrapped⟩
  · intro page pageSize result1 h1
    have hrepo1 := getConfigItemsByFilter_some fl s _ result1 h1
    rw [(getByFilter_page fl s _ result1 hrepo1).1, htotal]
    rfl
  · rw [← hsize]
    exact hlen
  · intro d hd
    obtain ⟨r, hr, hmatch, rfl⟩ := hdata d hd
    exact ⟨hmatch, r, hr, rfl⟩
  · intro hfit hoff
    apply hwrapped
    have hpage : normalPage result.Page = result.Page := by
      rw [hdef.1]
      unfold normalPage
      split_ifs <;> first | rfl | omega
    have hps : normalPageSize result.PageSize = result.PageSize := by
      rw [hdef.2]
      unfold normalPageSize
      split_ifs <;> first | rfl | omega
    have hp0 : 0 ≤ result.Page - 1 := by
      rw [hdef.1]
      split_ifs <;> omega
    have hs0 : 0 ≤ result.PageSize := by
      rw [hdef.2]
      split_ifs <;> omega
    rw [paginate_eq, hpage, hps]
    simp only
    rw [wrapInt64_of_fits _ (mul_nonneg hp0 hs0) hfit]
    exact hoff

/-- Page 2 of the three sample items with a requested page size of 500 has total 3 and no data:
the offset 100 fits and is beyond the total. -/
theorem getConfigItemsByFilter_total_and_slice_witness :
    (GetConfigItemsByFilter noFaults sampleStoreThree (samplePageFilter 2 500)).1 =
        some samplePageTwo ∧
      samplePageTwo.Total = 3 ∧ (samplePageTwo.Data.length : Int) ≤ samplePageTwo.PageSize ∧
      samplePageTwo.Data = [] :=
  have t := getConfigItemsByFilter_total_and_slice noFaults sampleStoreThree
    (samplePageFilter 2 500) samplePageTwo (by decide)
  ⟨by decide, t.1, t.2.2.1, t.2.2.2.2.1 (by decide) (by decide)⟩

theorem sqlLike_cons_percent (p t : List Char) :
    sqlLike ('%' :: p) t = t.tails.any (sqlLike p) := by
  rw [sqlLike.eq_def]
  simp

theorem sqlLike_cons_literal (c : Char) (p t : List Char)
    (h1 : c ≠ '%') (h2 : c ≠ '_') (h3 : c ≠ Char.ofNat 92) :
    sqlLike (c :: p) t = sqlLike.one (collationEq c) (sqlLike p) t := by
  rw [sqlLike.eq_def]
  simp [h1, h2, h3]

theorem sqlLike_percent (t : List Char) : sqlLike ['%'] t = true := by
  rw [sqlLike_cons_percent]
  simp only [List.any_eq_true]
  exact ⟨[], by simp, by simp [sqlLike]⟩

theorem sqlLike_literal (kw : List Char)
    (hkw : ∀ c ∈ kw, c ≠ '%' ∧ c ≠ '_' ∧ c ≠ Char.ofNat 92) :
    ∀ u, sqlLike (kw ++ ['%']) u = startsWithFold kw u := by
  induction kw with
  | nil =>
    intro u
    simp only [List.nil_append, sqlLike_percent]
    cases u <;> rfl
  | cons c p ih =>
    intro u
    obtain ⟨h1, h2, h3⟩ := hkw c (List.mem_cons_self c p)
    have ih' := ih (fun x hx => hkw x (List.mem_cons_of_mem c hx))
    rw [List.cons_append, sqlLike_cons_literal c _ u h1 h2 h3]
    cases u with
    | nil => rfl
    | cons x u => simp only [sqlLike.one, startsWithFold, ih']

theorem sqlLike_contains (kw text : String)
    (hkw : ∀ c ∈ kw.data, c ≠ '%' ∧ c ≠ '_' ∧ c ≠ Char.ofNat 92) :
    sqlLike ("%" ++ kw ++ "%").data text.data = containsFold kw text := by
  have hpat : ("%" ++ kw ++ "%").data = '%' :: (kw.data ++ ['%']) := by
    simp only [String.data_append]
    rfl
  rw [hpat, sqlLike_cons_percent]
  unfold containsFold
  congr 1
  funext u
  exact sqlLike_literal kw.data hkw u

theorem containsFold_empty (text : String) : containsFold "" text = true := by
  unfold containsFold
  simp only [List.any_eq_true]
  exact ⟨text.data, by simp, by cases text.data <;> rfl⟩

/-- C17 counterexample: the keyword `%` selects an item whose name, recommended value and risk
description contain no percent sign, so the stored item matches in `GetByFilter` although the
keyword does not occur in it as a literal substring. -/
theorem whereClause_percent_is_wildcard :
    configurationItemRepository.whereClause (sampleKeywordFilter "%") (sampleItem 1 10 "tls") =
        true ∧
      matchesFilter (sampleKeywordFilter "%") (sampleItem 1 10 "tls") = false ∧
      configurationItemRepository.whereClause (sampleKeywordFilter "t_s")
        (sampleItem 1 10 "tls") = true ∧
      matchesFilter (sampleKeywordFilter "t_s") (sampleItem 1 10 "tls") = false := by
  decide

/-- C17: for a keyword that contains none of the characters `%`, `_` and backslash, a stored
configuration item matches a filter in `GetByFilter` exactly when the provider filter is
absent or equals its provider id, the product filter is absent or equals its product id, and
the keyword is absent or occurs, compared case-insensitively, as a literal substring of its
name, of its recommended value or of its risk description. -/
theorem whereClause_eq_matchesFilter (filter : ConfigItemFilter) (r : ConfigurationItem)
    (hkw : ∀ kw, filter.Keyword = some kw →
      ∀ c ∈ kw.data, c ≠ '%' ∧ c ≠ '_' ∧ c ≠ Char.ofNat 92) :
    configurationItemRepository.whereClause filter r = matchesFilter filter r := by
  unfold configurationItemRepository.whereClause matchesFilter
  congr 1
  cases hk : filter.Keyword with
  | none => rfl
  | some kw =>
    simp only
    by_cases hempty : kw = ""
    · subst hempty
      simp [containsFold_empty]
    · rw [if_pos hempty, sqlLike_contains kw _ (hkw kw hk), sqlLike_contains kw _ (hkw kw hk),
        sqlLike_contains kw _ (hkw kw hk)]

/-- C17 witness: the keyword `mfa` selects the item named `MFA for root` and not the item
named `tls`. -/
theorem whereClause_eq_matchesFilter_witness :
    configurationItemRepository.whereClause (sampleKeywordFilter "mfa")
        (sampleItem 1 10 "MFA for root") =
        matchesFilter (sampleKeywordFilter "mfa") (sampleItem 1 10 "MFA for root") ∧
      matchesFilter (sampleKeywordFilter "mfa") (sampleItem 1 10 "MFA for root") = true ∧
      matchesFilter (sampleKeywordFilter "mfa") (sampleItem 1 10 "tls") = false :=
  ⟨whereClause_eq_matchesFilter (sampleKeywordFilter "mfa") (sampleItem 1 10 "MFA for root")
      (fun kw hkw => by
        have hk : kw = "mfa" := by
          simp only [sampleKeywordFilter, Option.some.injEq] at hkw
          exact hkw.symm
        subst hk
        decide),
    by decide, by decide⟩

/-! ## Reading back the cells of an exported sheet -/

theorem char_ofNat_toNat (n : Nat) (h : n < 55296) : (Char.ofNat n).toNat = n := by
  have hv : n.isValidChar := Or.inl h
  simp [Char.ofNat, hv, Char.toNat, Char.ofNatAux, UInt32.toNat]

theorem columnLetter_inj (a b : Nat) (ha : a ≤ 1000) (hb : b ≤ 1000)
    (h : Char.ofNat (65 + a) = Char.ofNat (65 + b)) : a = b := by
  have h1 := char_ofNat_toNat (65 + a) (by omega)
  have h2 := char_ofNat_toNat (65 + b) (by omega)
  rw [h, h2] at h1
  omega

theorem cellAt_append (column : Char) (row : Nat) (a b : List CellWrite) :
    cellAt column row (a ++ b) =
      match cellAt column row b with
      | some v => some v
      | none => cellAt column row a := by
  induction a with
  | nil =>
    simp only [List.nil_append, cellAt]
    cases cellAt column row b <;> rfl
  | cons w t ih =>
    have e : cellAt column row (w :: (t ++ b)) =
        match cellAt column row (t ++ b) with
        | some v => some v
        | none => if w.column = column ∧ w.row = row then some w.value else none := rfl
    rw [List.cons_append, e, ih]
    cases cellAt column row b <;> rfl

theorem cellAt_rowCells (r r1 j : Nat) (hj : j ≤ 1000) (vs : List CellValue) :
    ∀ j0, j0 + vs.length ≤ 1000 →
      cellAt (Char.ofNat (65 + j)) r (Export.rowCells r1 j0 vs) =
        if r1 = r ∧ j0 ≤ j then vs[j - j0]? else none := by
  induction vs with
  | nil =>
    intro j0 _
    simp [Export.rowCells, cellAt]
  | cons v t ih =>
    intro j0 hlen
    simp only [List.length_cons] at hlen
    simp only [Export.rowCells, cellAt, ih (j0 + 1) (by omega)]
    by_cases hr : r1 = r
    · by_cases hlt : j0 + 1 ≤ j
      · have hne : Char.ofNat (65 + j0) ≠ Char.ofNat (65 + j) := by
          intro h
          have := columnLetter_inj j0 j (by omega) hj h
          omega
        have hidx : j - j0 = (j - (j0 + 1)) + 1 := by omega
        simp only [hr, hlt, and_self, if_true, true_and, show j0 ≤ j by omega, hidx,
          List.getElem?_cons_succ, hne, false_and, if_false]
        cases t[j - (j0 + 1)]? <;> rfl
      · by_cases heq : j0 = j
        · subst heq
          simp [hr]
        · have hne : Char.ofNat (65 + j0) ≠ Char.ofNat (65 + j) := by
            intro h
            exact heq (columnLetter_inj j0 j (by omega) hj h)
          have hlt2 : ¬ j0 ≤ j := by omega
          simp [hr, hlt, hlt2, hne]
    · simp [hr]

theorem cellAt_dataCells (r j : Nat) (hj : j ≤ 1000) (items : List ConfigurationItem) :
    ∀ i0, cellAt (Char.ofNat (65 + j)) r (Export.dataCells i0 items) =
      if i0 + 2 ≤ r then (items[r - 2 - i0]?).bind (fun it => (Export.rowData it)[j]?)
      else none := by
  induction items with
  | nil =>
    intro i0
    simp [Export.dataCells, cellAt]
  | cons it rest ih =>
    intro i0
    have hlen : 0 + (Export.rowData it).length ≤ 1000 := by
      simp [Export.rowData]
    simp only [Export.dataCells, cellAt_append, ih (i0 + 1),
      cellAt_rowCells r (i0 + 2) j hj (Export.rowData it) 0 hlen]
    by_cases h3 : i0 + 1 + 2 ≤ r
    · have hidx : r - 2 - i0 = (r - 2 - (i0 + 1)) + 1 := by omega
      have h2 : i0 + 2 ≤ r := by omega
      have hne : ¬ (i0 + 2 = r) := by omega
      simp only [h3, if_true, h2, hidx, List.getElem?_cons_succ, hne, false_and, if_false]
      cases (rest[r - 2 - (i0 + 1)]?).bind (fun it => (Export.rowData it)[j]?) <;> rfl
    · by_cases h2 : i0 + 2 = r
      · subst h2
        simp
      · have hlt : ¬ i0 + 2 ≤ r := by omega
        simp [h3, h2, hlt]

theorem cellAt_cells (r j : Nat) (hj : j ≤ 1000) (items : List ConfigurationItem) :
    cellAt (Char.ofNat (65 + j)) r (Export.cells items) =
      if r = 1 then (Export.headers.map CellValue.str)[j]?
      else if 2 ≤ r then (items[r - 2]?).bind (fun it => (Export.rowData it)[j]?)
      else none := by
  have hlen : 0 + (Export.headers.map CellValue.str).length ≤ 1000 := by
    simp [Export.headers]
  unfold Export.cells
  rw [cellAt_append, cellAt_dataCells r j hj items 0,
    cellAt_rowCells r 1 j hj _ 0 hlen]
  by_cases h1 : r = 1
  · subst h1
    simp
  · by_cases h2 : 2 ≤ r
    · have h1' : ¬ (1 = r) := fun h => h1 h.symm
      simp only [Nat.zero_add, h2, if_true, Nat.sub_zero, h1, if_false, h1', false_and]
      cases (items[r - 2]?).bind (fun it => (Export.rowData it)[j]?) <;> rfl
    · have h1' : ¬ (1 = r) := fun h => h1 h.symm
      simp [h1, h2, h1']

theorem maxRow_append (a b : List Nat) :
    (a ++ b).foldr max 0 = max (a.foldr max 0) (b.foldr max 0) := by
  induction a with
  | nil => simp
  | cons x t ih => simp only [List.cons_append, List.foldr_cons, ih, max_assoc]

theorem rowCells_rows (r : Nat) (vs : List CellValue) :
    ∀ j0, ((Export.rowCells r j0 vs).map (fun w => w.row)).foldr max 0 =
      if vs = [] then 0 else r := by
  induction vs with
  | nil => intro j0; rfl
  | cons v t ih =>
    intro j0
    simp only [Export.rowCells, List.map_cons, List.foldr_cons, ih (j0 + 1)]
    by_cases ht : t = []
    · simp [ht]
    · simp [ht]

theorem dataCells_rows (items : List ConfigurationItem) :
    ∀ i0, ((Export.dataCells i0 items).map (fun w => w.row)).foldr max 0 =
      if items = [] then 0 else i0 + items.length + 1 := by
  induction items with
  | nil => intro i0; rfl
  | cons it rest ih =>
    intro i0
    simp only [Export.dataCells, List.map_append, maxRow_append, rowCells_rows, ih (i0 + 1)]
    have hne : Export.rowData it ≠ [] := by simp [Export.rowData]
    by_cases hr : rest = []
    · simp [hne, hr]
    · simp only [hne, if_false, hr, List.length_cons, reduceCtorEq]
      omega

theorem cells_rows (items : List ConfigurationItem) :
    ((Export.cells items).map (fun w => w.row)).foldr max 0 = items.length + 1 := by
  unfold Export.cells
  rw [List.map_append, maxRow_append, rowCells_rows, dataCells_rows]
  by_cases hi : items = []
  · simp [hi, Export.headers]
  · simp only [Export.headers, List.map_cons, List.map_nil, reduceCtorEq, if_false, hi]
    omega

theorem dropTrailingEmpty_append_singleton (l : List String) (x : String) (hx : x ≠ "") :
    dropTrailingEmpty (l ++ [x]) = l ++ [x] := by
  induction l with
  | nil => simp [dropTrailingEmpty, hx]
  | cons c t ih =>
    have e : dropTrailingEmpty (c :: (t ++ [x])) =
        match dropTrailingEmpty (t ++ [x]) with
        | [] => if c = "" then [] else [c]
        | kept => c :: kept := rfl
    rw [List.cons_append, e, ih]
    cases hcase : t ++ [x] with
    | nil => simp at hcase
    | cons a u => rfl

theorem dropTrailingEmpty_append_replicate (l : List String) (k : Nat) :
    dropTrailingEmpty (l ++ List.replicate k "") = dropTrailingEmpty l := by
  have hrep : ∀ k, dropTrailingEmpty (List.replicate k "") = [] := by
    intro k
    induction k with
    | zero => rfl
    | succ k ih => simp [List.replicate_succ, dropTrailingEmpty, ih]
  induction l with
  | nil => simp [hrep, dropTrailingEmpty]
  | cons c t ih =>
    have e : dropTrailingEmpty (c :: (t ++ List.replicate k "")) =
        match dropTrailingEmpty (t ++ List.replicate k "") with
        | [] => if c = "" then [] else [c]
        | kept => c :: kept := rfl
    rw [List.cons_append, e, ih]
    rfl

/-! ## Decimal rendering -/

theorem digitChar_spec (k : Nat) (hk : k < 10) :
    48 ≤ (Nat.digitChar k).toNat ∧ (Nat.digitChar k).toNat ≤ 57 ∧
      (Nat.digitChar k).toNat - 48 = k := by
  interval_cases k <;> decide

theorem decimal_foldl_linear (l : List Char) :
    ∀ a, l.foldl (fun n c => n * 10 + (c.toNat - 48)) a =
      a * 10 ^ l.length + l.foldl (fun n c => n * 10 + (c.toNat - 48)) 0 := by
  induction l with
  | nil => intro a; simp
  | cons c t ih =>
    intro a
    simp only [List.foldl_cons, List.length_cons]
    rw [ih (a * 10 + (c.toNat - 48)), ih (0 * 10 + (c.toNat - 48))]
    ring

theorem toDigitsCore_spec (fuel : Nat) :
    ∀ n ds, n < fuel → (∀ c ∈ ds, 48 ≤ c.toNat ∧ c.toNat ≤ 57) →
      Nat.toDigitsCore 10 fuel n ds ≠ [] ∧
        (∀ c ∈ Nat.toDigitsCore 10 fuel n ds, 48 ≤ c.toNat ∧ c.toNat ≤ 57) ∧
        (Nat.toDigitsCore 10 fuel n ds).foldl (fun n c => n * 10 + (c.toNat - 48)) 0 =
          n * 10 ^ ds.length + ds.foldl (fun n c => n * 10 + (c.toNat - 48)) 0 := by
  induction fuel with
  | zero => intro n ds h; omega
  | succ fuel ih =>
    intro n ds hn hds
    have hd := digitChar_spec (n % 10) (Nat.mod_lt n (by omega))
    have hds' : ∀ c ∈ Nat.digitChar (n % 10) :: ds, 48 ≤ c.toNat ∧ c.toNat ≤ 57 := by
      intro c hc
      rcases List.mem_cons.1 hc with rfl | hmem
      · exact ⟨hd.1, hd.2.1⟩
      · exact hds c hmem
    have hval : (Nat.digitChar (n % 10) :: ds).foldl (fun n c => n * 10 + (c.toNat - 48)) 0 =
        (n % 10) * 10 ^ ds.length + ds.foldl (fun n c => n * 10 + (c.toNat - 48)) 0 := by
      simp only [List.foldl_cons, Nat.zero_mul, Nat.zero_add, hd.2.2]
      exact decimal_foldl_linear ds (n % 10)
    unfold Nat.toDigitsCore
    by_cases h0 : n / 10 = 0
    · simp only [h0, if_true]
      refine ⟨by simp, hds', ?_⟩
      rw [hval]
      have : n % 10 = n := Nat.mod_eq_of_lt (by omega)
      rw [this]
    · simp only [h0, if_false]
      obtain ⟨h1, h2, h3⟩ := ih (n / 10) (Nat.digitChar (n % 10) :: ds) (by omega) hds'
      refine ⟨h1, h2, ?_⟩
      rw [h3, hval, List.length_cons, pow_succ]
      have e : n * 10 ^ ds.length =
          n / 10 * (10 ^ ds.length * 10) + n % 10 * 10 ^ ds.length := by
        conv_lhs => rw [← Nat.div_add_mod n 10]
        ring
      rw [e]
      ring

/-! ## The text a cell gives back -/

theorem bstrUnmarshal_id (l : List Char)
    (h : ∀ t ∈ l.tails, excelize.startsEscape t = false) : excelize.bstrUnmarshal 0 l = l := by
  induction l with
  | nil => rfl
  | cons c rest ih =>
    have h0 : excelize.startsEscape (c :: rest) = false :=
      h (c :: rest) (by simp [List.tails])
    have hrest : ∀ t ∈ rest.tails, excelize.startsEscape t = false := by
      intro t ht
      exact h t (by simp [List.tails, ht])
    rw [excelize.bstrUnmarshal, if_neg (by rw [h0]; simp), ih hrest]

theorem text_str_of_keeps (s : String) (h : excelize.keepsText s = true) :
    (CellValue.str s).text = s := by
  unfold excelize.keepsText at h
  simp only [Bool.and_eq_true, decide_eq_true_eq, List.all_eq_true, Bool.not_eq_true'] at h
  obtain ⟨⟨hlen, hxml⟩, hesc⟩ := h
  have htake : s.data.take excelize.TotalCellChars = s.data := List.take_of_length_le hlen
  have hmap : s.data.map xml.roundTripChar = s.data := by
    conv_rhs => rw [← List.map_id s.data]
    apply List.map_congr_left
    intro c hc
    simp [xml.roundTripChar, hxml c hc]
  show String.mk _ = s
  rw [htake, hmap, bstrUnmarshal_id s.data hesc]

theorem text_num_of_small (n : Nat) (h : n < 10 ^ 15) : (CellValue.num n).text = toString n := by
  show excelize.general n = _
  unfold excelize.general
  rw [if_pos h]

theorem startsEscape_head (c : Char) (l : List Char)
    (h : excelize.startsEscape (c :: l) = true) : c = '_' := by
  unfold excelize.startsEscape at h
  split at h
  · rename_i c0 c1 a b c2 d c6 rest heq
    simp only [Bool.and_eq_true, beq_iff_eq] at h
    have hc : c = c0 := (List.cons.inj heq).1
    rw [hc]
    exact h.1.1.1.1.1.1
  · simp at h

theorem appendInt_digits (x w : Nat) :
    Time.appendInt x w ≠ [] ∧ ∀ c ∈ Time.appendInt x w, 48 ≤ c.toNat ∧ c.toNat ≤ 57 := by
  obtain ⟨hne, hdig, _⟩ := toDigitsCore_spec (x + 1) x [] (by omega) (by simp)
  have hd : Nat.toDigits 10 x = Nat.toDigitsCore 10 (x + 1) x [] := rfl
  unfold Time.appendInt
  constructor
  · rw [hd]
    intro h
    exact hne (List.append_eq_nil.1 h).2
  · intro c hc
    rcases List.mem_append.1 hc with h | h
    · rw [List.eq_of_mem_replicate h]
      decide
    · exact hdig c (hd ▸ h)

theorem text_str_ne_empty (s : String) (c : Char) (rest : List Char)
    (hs : s.data = c :: rest) (hc : 48 ≤ c.toNat ∧ c.toNat ≤ 57) :
    (CellValue.str s).text ≠ "" := by
  have hrt : xml.roundTripChar c = c := by
    have : xml.isInCharacterRange c = true := by
      unfold xml.isInCharacterRange
      have h1 : (0x20 ≤ c.toNat) := by omega
      have h2 : c.toNat ≤ 0xD7FF := by omega
      simp [h1, h2]
    simp [xml.roundTripChar, this]
  have hne : c ≠ '_' := by
    rintro rfl
    exact absurd hc.2 (by decide)
  show String.mk _ ≠ ""
  rw [hs]
  have htake : (c :: rest).take excelize.TotalCellChars =
      c :: rest.take (excelize.TotalCellChars - 1) := rfl
  rw [htake, List.map_cons, hrt, excelize.bstrUnmarshal]
  have hno : excelize.startsEscape
      (c :: List.map xml.roundTripChar (rest.take (excelize.TotalCellChars - 1))) ≠ true :=
    fun h => hne (startsEscape_head _ _ h)
  rw [if_neg hno]
  intro h
  have := congrArg String.data h
  simp at this

theorem text_time_ne_empty (t : Time) : (CellValue.str (Time.formatDateTime t)).text ≠ "" := by
  obtain ⟨hne, hdig⟩ := appendInt_digits (Time.yearDay t).1 4
  cases hy : Time.appendInt (Time.yearDay t).1 4 with
  | nil => exact absurd hy hne
  | cons c rest =>
    have hc := hdig c (by rw [hy]; exact List.mem_cons_self _ _)
    apply text_str_ne_empty _ c
      (rest ++ ['-'] ++ Time.appendInt
        (Time.monthDay (Time.isLeap (Time.yearDay t).1) (Time.yearDay t).2).1 2 ++ ['-'] ++
        Time.appendInt (Time.monthDay (Time.isLeap (Time.yearDay t).1) (Time.yearDay t).2).2 2 ++
        [' '] ++ Time.appendInt (t % 86400 / 3600) 2 ++ [':'] ++
        Time.appendInt (t % 86400 % 3600 / 60) 2 ++ [':'] ++ Time.appendInt (t % 86400 % 60) 2)
      _ hc
    unfold Time.formatDateTime
    simp only [hy, List.cons_append, List.append_assoc]

theorem formatDateTime_ne_empty (t : Time) : Time.formatDateTime t ≠ "" := by
  unfold Time.formatDateTime
  intro h
  have := congrArg String.data h
  simp at this

theorem rowLine_header (items : List ConfigurationItem) :
    dropTrailingEmpty ((List.range 26).map (fun j =>
      match cellAt (Char.ofNat (65 + j)) (0 + 1) (Export.cells items) with
      | some v => v.text
      | none => "")) = Export.headers := by
  have h : (List.range 26).map (fun j =>
      match cellAt (Char.ofNat (65 + j)) (0 + 1) (Export.cells items) with
      | some v => v.text
      | none => "") =
      (List.range 26).map (fun j =>
        match (Export.headers.map CellValue.str)[j]? with
        | some v => v.text
        | none => "") := by
    apply List.map_congr_left
    intro j hj
    rw [List.mem_range] at hj
    rw [cellAt_cells (0 + 1) j (by omega) items]
    simp
  rw [h]
  decide

theorem rowLine_data (items : List ConfigurationItem) (i : Nat) (it : ConfigurationItem)
    (hi : items[i]? = some it) :
    dropTrailingEmpty ((List.range 26).map (fun j =>
      match cellAt (Char.ofNat (65 + j)) (i + 1 + 1) (Export.cells items) with
      | some v => v.text
      | none => "")) = Export.rowTexts it := by
  have h : (List.range 26).map (fun j =>
      match cellAt (Char.ofNat (65 + j)) (i + 1 + 1) (Export.cells items) with
      | some v => v.text
      | none => "") =
      (List.range 26).map (fun j =>
        match (Export.rowData it)[j]? with
        | some v => v.text
        | none => "") := by
    apply List.map_congr_left
    intro j hj
    rw [List.mem_range] at hj
    rw [cellAt_cells (i + 1 + 1) j (by omega) items]
    have h1 : ¬ (i + 1 + 1 = 1) := by omega
    have h2 : 2 ≤ i + 1 + 1 := by omega
    simp only [h1, if_false, h2, if_true, show i + 1 + 1 - 2 = i by omega, hi, Option.some_bind]
  rw [h]
  have hview : (List.range 26).map (fun j =>
        match (Export.rowData it)[j]? with
        | some v => v.text
        | none => "") =
      ((Export.rowTexts it).take 10 ++
          [(CellValue.str (Time.formatDateTime it.UpdatedAt)).text]) ++
        List.replicate 15 "" := rfl
  rw [hview, dropTrailingEmpty_append_replicate,
    dropTrailingEmpty_append_singleton _ _ (text_time_ne_empty _)]
  rfl

theorem dropTrailingRows_of_ne_nil (l : List (List String)) (h : ∀ r ∈ l, r ≠ []) :
    dropTrailingRows l = l := by
  induction l with
  | nil => rfl
  | cons a t ih =>
    have iht := ih (fun r hr => h r (List.mem_cons_of_mem _ hr))
    have ha : a ≠ [] := h a (List.mem_cons_self _ _)
    have e : dropTrailingRows (a :: t) =
        match dropTrailingRows t with
        | [] => if a = [] then [] else [a]
        | kept => a :: kept := rfl
    rw [e, iht]
    cases t with
    | nil => simp [ha]
    | cons b u => rfl

/-- The rows read back from the cells `Export` sets are the header row followed, in order, by
one row of 11 texts per item. -/
theorem getRows_export_cells (items : List ConfigurationItem) :
    GetRows (Export.cells items) = Export.headers :: items.map Export.rowTexts := by
  unfold GetRows
  have hkeep : dropTrailingRows (Export.headers :: items.map Export.rowTexts) =
      Export.headers :: items.map Export.rowTexts := by
    apply dropTrailingRows_of_ne_nil
    intro r hr
    rcases List.mem_cons.1 hr with rfl | hr
    · decide
    · obtain ⟨it, _, rfl⟩ := List.mem_map.1 hr
      simp [Export.rowTexts, Export.rowData]
  have hinner : (List.range ((List.map (fun w => w.row) (Export.cells items)).foldr max 0)).map
      (fun r => dropTrailingEmpty ((List.range 26).map (fun j =>
        match cellAt (Char.ofNat (65 + j)) (r + 1) (Export.cells items) with
        | some v => v.text
        | none => ""))) = Export.headers :: items.map Export.rowTexts := by
    rw [cells_rows, List.range_succ_eq_map items.length, List.map_cons, List.map_map]
    congr 1
    · exact rowLine_header items
    · apply List.ext_getElem?
      intro i
      simp only [List.getElem?_map, List.getElem?_range]
      by_cases hlt : i < items.length
      · have hi : items[i]? = some items[i] := List.getElem?_eq_getElem hlt
        rw [List.getElem?_range hlt, hi]
        simp only [Option.map_some', Function.comp_apply, Option.some.injEq]
        exact rowLine_data items i _ hi
      · have hnone : items[i]? = none := List.getElem?_eq_none (by omega)
        have hr : (List.range items.length)[i]? = none := by
          apply List.getElem?_eq_none
          simp only [List.length_range]
          omega
        rw [hr, hnone]
        rfl
  rw [hinner, hkeep]

/-! ## The export handler -/

theorem export_ok_cells (fsl : FileFaults) (exportPath : String) (now : Time)
    (items : List ConfigurationItem) (r : String × Option ExportError) (file : ExportedFile)
    (h : Export fsl exportPath now items = (r, some file)) :
    items ≠ [] ∧ r.2 = none ∧ r.1 = file.path ∧ file.cells = Export.cells items := by
  unfold Export at h
  split at h
  · simp at h
  · rename_i hlen
    have hne : items ≠ [] := fun hnil => hlen (by simp [hnil])
    split at h
    · simp at h
    · simp only at h
      split at h
      · simp at h
      · simp only [Prod.mk.injEq, Option.some.injEq] at h
        obtain ⟨hr, hf⟩ := h
        subst hr hf
        exact ⟨hne, rfl, rfl, rfl⟩

theorem exportExcel_file (fl : Faults) (fsl : FileFaults) (exportPath : String) (now : Time)
    (s : Store) (q : ExportQuery) (resp : Response) (file : ExportedFile)
    (h : ExportExcel fl fsl exportPath now s q = (resp, some file)) :
    ∃ result, (GetConfigItemsByFilter fl s (ExportExcel.filter q)).1 = some result ∧
      result.Data ≠ [] ∧ file.cells = Export.cells result.Data := by
  unfold ExportExcel at h
  split at h
  · simp at h
  · simp at h
  · rename_i result hres
    refine ⟨result, by rw [hres], ?_⟩
    split at h
    · rename_i p e f hexp
      simp only [Prod.mk.injEq] at h
      rw [h.2] at hexp
      have := export_ok_cells fsl exportPath now result.Data _ file hexp
      simp at this
    · rename_i p f hexp
      simp only [Prod.mk.injEq] at h
      rw [h.2] at hexp
      have := export_ok_cells fsl exportPath now result.Data _ file hexp
      exact ⟨this.1, this.2.2.2⟩

/-- C18: whenever `ExportExcel` saves a workbook, the filter it built asks for page 1 with page
size 1000, the page result it exported reports page size 100, and the sheet holds the header
row and as many data rows as the smaller of 100 and the number of stored items that satisfy
the filter, hence at most 100 data rows. -/
theorem exportExcel_at_most_100_rows (fl : Faults) (fsl : FileFaults) (exportPath : String)
    (now : Time) (s : Store) (q : ExportQuery) (resp : Response) (file : ExportedFile)
    (h : ExportExcel fl fsl exportPath now s q = (resp, some file)) :
    (ExportExcel.filter q).Page = 1 ∧ (ExportExcel.filter q).PageSize = 1000 ∧
      (∃ result, (GetConfigItemsByFilter fl s (ExportExcel.filter q)).1 = some result ∧
        result.PageSize = 100 ∧ file.cells = Export.cells result.Data) ∧
      (GetRows file.cells).length =
        1 + min 100 ((s.items.filter
          (configurationItemRepository.whereClause (ExportExcel.filter q))).length) ∧
      (GetRows file.cells).length ≤ 1 + 100 := by
  obtain ⟨result, hres, _, hcells⟩ := exportExcel_file fl fsl exportPath now s q resp file h
  have hdef := getConfigItemsByFilter_defaults_of_some fl s _ result hres
  have hsize : result.PageSize = 100 := by
    rw [hdef.2]
    rfl
  have hrepo := getConfigItemsByFilter_some fl s _ result hres
  have hshape := getByFilter_ok_shape fl s _ result hrepo
  have hdata : result.Data.length = min 100 ((s.items.filter
      (configurationItemRepository.whereClause (ExportExcel.filter q))).length) := by
    rw [hshape]
    have hoff : (Paginate (GetConfigItemsByFilter.withDefaults (ExportExcel.filter q)).Page
        (GetConfigItemsByFilter.withDefaults (ExportExcel.filter q)).PageSize) = (0, 100) := by
      rfl
    simp only [hoff, List.length_map, List.length_take, Int.toNat_zero, List.drop_zero]
    rfl
  have hrows : (GetRows file.cells).length = 1 + result.Data.length := by
    rw [hcells, getRows_export_cells]
    simp only [List.length_cons, List.length_map]
    omega
  refine ⟨rfl, rfl, ⟨result, hres, hsize, hcells⟩, by rw [hrows, hdata], ?_⟩
  rw [hrows, hdata]
  omega

set_option maxRecDepth 1000000 in
/-- C18 witness: with 150 stored items that satisfy the filter the exported sheet has the
header row and 100 data rows. -/
theorem exportExcel_at_most_100_rows_witness :
    (GetRows sampleExportMany.cells).length = 1 + min 100 150 ∧
      (GetRows sampleExportMany.cells).length ≤ 1 + 100 :=
  have t := exportExcel_at_most_100_rows noFaults noFileFaults "exports" 63839689445
    sampleStoreMany ⟨"", "", ""⟩
    (Success [("message", "导出成功"), ("filePath", "exports/配置项列表_20240101070405.xlsx"),
      ("fileName", "配置项列表_20240101070405.xlsx")])
    sampleExportMany rfl
  ⟨t.2.2.2.1, t.2.2.2.2⟩

/-! ## Decimal rendering of the ids -/

/-- The decimal text of a natural number reads back as that number. -/
theorem decimalText?_toString (n : Nat) : decimalText? (toString n) = some n := by
  obtain ⟨h1, h2, h3⟩ := toDigitsCore_spec (n + 1) n [] (by omega) (by simp)
  have hdata : (toString n).data = Nat.toDigitsCore 10 (n + 1) n [] := rfl
  unfold decimalText? decimalValue
  rw [hdata, if_pos ⟨h1, h2⟩, h3]
  simp

theorem parseUint32_toString (n : Nat) (hn : n ≤ 4294967295) :
    strconv.ParseUint (toString n) 32 = .ok n :=
  (parseUint32_ok_iff (toString n) n).2 ⟨decimalText?_toString n, hn⟩

/-! ## The shape of a formatted time -/

theorem yearDay_bounds (t : Nat) :
    (Time.yearDay t).2 < 366 ∧ (t < 315537897600 → (Time.yearDay t).1 < 10000) := by
  unfold Time.yearDay
  simp only
  generalize hD : t / 86400 = D
  generalize ha : D / 146097 = a
  generalize hd1 : D - 146097 * a = d1
  generalize hn : d1 / 36524 = n
  generalize hc : n - n / 4 = c
  generalize hd2 : d1 - 36524 * c = d2
  generalize hb : d2 / 1461 = b
  generalize hd3 : d2 - 1461 * b = d3
  generalize hm : d3 / 365 = m
  generalize hy : m - m / 4 = y
  have h1 : d1 < 146097 := by omega
  have h1' : D = 146097 * a + d1 := by omega
  have h2 : n ≤ 4 := by omega
  have h3 : c ≤ 3 ∧ 36524 * c ≤ d1 := by omega
  have h4 : d2 ≤ 36524 := by omega
  have h5 : b ≤ 24 ∧ 1461 * b ≤ d2 := by omega
  have h6 : d3 < 1461 := by omega
  have h7 : m ≤ 4 := by omega
  have h8 : y ≤ 3 ∧ 365 * y ≤ d3 := by omega
  constructor
  · omega
  · intro ht
    have hlt : D < 3652059 := by omega
    omega

theorem monthDay_bounds (leap : Bool) (yday : Nat) (h : yday < 366) :
    (Time.monthDay leap yday).1 < 100 ∧ (Time.monthDay leap yday).2 < 100 := by
  unfold Time.monthDay
  split
  · exact ⟨by decide, by decide⟩
  · simp only
    generalize hday : (if (leap && decide (yday > 31 + 29 - 1)) = true then yday - 1 else yday) = day
    have hd : day < 366 := by
      rw [← hday]
      split <;> omega
    have hm : day / 31 ≤ 11 := by omega
    generalize hmonth : day / 31 = month at hm
    have hlo : 31 * month ≤ day := by omega
    have hhi : day < 31 * month + 31 := by omega
    interval_cases month <;> simp only [Time.daysBefore, List.getD_cons_succ, List.getD_cons_zero]
      <;> split <;> constructor <;> omega

theorem appendInt_shape (x w : Nat) (hw : 0 < w) (hx : x < 10 ^ w) :
    (Time.appendInt x w).length = w ∧
      ∀ c ∈ Time.appendInt x w, 48 ≤ c.toNat ∧ c.toNat ≤ 57 := by
  have hlen : (Nat.toDigits 10 x).length ≤ w := Nat.repr_length x w hw hx
  obtain ⟨_, hdig, _⟩ := toDigitsCore_spec (x + 1) x [] (by omega) (by simp)
  unfold Time.appendInt
  constructor
  · simp only [List.length_append, List.length_replicate]
    omega
  · intro c hc
    rcases List.mem_append.1 hc with h | h
    · rw [List.eq_of_mem_replicate h]
      decide
    · exact hdig c h

theorem list_of_length_two (l : List Char) (h : l.length = 2) : ∃ a b, l = [a, b] := by
  match l, h with
  | [a, b], _ => exact ⟨a, b, rfl⟩

theorem list_of_length_four (l : List Char) (h : l.length = 4) :
    ∃ a b c d, l = [a, b, c, d] := by
  match l, h with
  | [a, b, c, d], _ => exact ⟨a, b, c, d, rfl⟩

/-- An instant before year 10000 is formatted as `YYYY-MM-DD HH:MM:SS`. -/
theorem formatDateTime_shape (t : Nat) (ht : t < 315537897600) :
    isDateTimeText (Time.formatDateTime t) = true := by
  obtain ⟨hyday, hyear⟩ := yearDay_bounds t
  obtain ⟨hmon, hday⟩ := monthDay_bounds (Time.isLeap (Time.yearDay t).1) _ hyday
  obtain ⟨hy1, hy2⟩ := appendInt_shape (Time.yearDay t).1 4 (by omega)
    (lt_of_lt_of_le (hyear ht) (by norm_num))
  obtain ⟨hm1, hm2⟩ := appendInt_shape
    (Time.monthDay (Time.isLeap (Time.yearDay t).1) (Time.yearDay t).2).1 2 (by omega)
    (lt_of_lt_of_le hmon (by norm_num))
  obtain ⟨hd1, hd2⟩ := appendInt_shape
    (Time.monthDay (Time.isLeap (Time.yearDay t).1) (Time.yearDay t).2).2 2 (by omega)
    (lt_of_lt_of_le hday (by norm_num))
  obtain ⟨hh1, hh2⟩ := appendInt_shape (t % 86400 / 3600) 2 (by omega)
    (by have : t % 86400 / 3600 < 24 := by omega
        exact lt_of_lt_of_le this (by norm_num))
  obtain ⟨hn1, hn2⟩ := appendInt_shape (t % 86400 % 3600 / 60) 2 (by omega)
    (by have : t % 86400 % 3600 / 60 < 60 := by omega
        exact lt_of_lt_of_le this (by norm_num))
  obtain ⟨hs1, hs2⟩ := appendInt_shape (t % 86400 % 60) 2 (by omega)
    (by have : t % 86400 % 60 < 60 := by omega
        exact lt_of_lt_of_le this (by norm_num))
  obtain ⟨y1, y2, y3, y4, ey⟩ := list_of_length_four _ hy1
  obtain ⟨m1, m2, em⟩ := list_of_length_two _ hm1
  obtain ⟨d1, d2, ed⟩ := list_of_length_two _ hd1
  obtain ⟨h1, h2, eh⟩ := list_of_length_two _ hh1
  obtain ⟨n1, n2, en⟩ := list_of_length_two _ hn1
  obtain ⟨s1, s2, es⟩ := list_of_length_two _ hs1
  rw [ey] at hy2
  rw [em] at hm2
  rw [ed] at hd2
  rw [eh] at hh2
  rw [en] at hn2
  rw [es] at hs2
  unfold Time.formatDateTime isDateTimeText
  simp only [ey, em, ed, eh, en, es, List.cons_append, List.nil_append]
  simp only [List.mem_cons, List.mem_singleton, List.not_mem_nil, or_false, forall_eq_or_imp,
    forall_eq] at hy2 hm2 hd2 hh2 hn2 hs2
  simp [hy2, hm2, hd2, hh2, hn2, hs2]

/-! ## The layout of the exported sheet -/

theorem mem_rowCells (r : Nat) (w : CellWrite) (vs : List CellValue) :
    ∀ j0, w ∈ Export.rowCells r j0 vs →
      w.row = r ∧ ∃ k, k < vs.length ∧ w.column = Char.ofNat (65 + (j0 + k)) := by
  induction vs with
  | nil => intro j0 h; simp [Export.rowCells] at h
  | cons v t ih =>
    intro j0 h
    simp only [Export.rowCells, List.mem_cons] at h
    rcases h with rfl | h
    · exact ⟨rfl, 0, by simp, rfl⟩
    · obtain ⟨hr, k, hk, hc⟩ := ih (j0 + 1) h
      refine ⟨hr, k + 1, by simp only [List.length_cons]; omega, ?_⟩
      rw [hc]
      congr 2
      omega

theorem mem_dataCells (w : CellWrite) (items : List ConfigurationItem) :
    ∀ i0, w ∈ Export.dataCells i0 items →
      (i0 + 2 ≤ w.row ∧ w.row ≤ i0 + items.length + 1) ∧
        ∃ k, k < 11 ∧ w.column = Char.ofNat (65 + k) := by
  induction items with
  | nil => intro i0 h; simp [Export.dataCells] at h
  | cons it rest ih =>
    intro i0 h
    simp only [Export.dataCells, List.mem_append] at h
    rcases h with h | h
    · obtain ⟨hr, k, hk, hc⟩ := mem_rowCells _ w _ 0 h
      have hk' : k < 11 := by simpa [Export.rowData] using hk
      refine ⟨⟨by omega, by simp only [List.length_cons]; omega⟩, k, hk', ?_⟩
      rw [hc, Nat.zero_add]
    · obtain ⟨⟨h1, h2⟩, hk⟩ := ih (i0 + 1) h
      exact ⟨⟨by omega, by simp only [List.length_cons]; omega⟩, hk⟩

theorem mem_cells (w : CellWrite) (items : List ConfigurationItem)
    (h : w ∈ Export.cells items) :
    (1 ≤ w.row ∧ w.row ≤ items.length + 1) ∧
      ∃ k, k < 11 ∧ w.column = Char.ofNat (65 + k) := by
  simp only [Export.cells, List.mem_append] at h
  rcases h with h | h
  · obtain ⟨hr, k, hk, hc⟩ := mem_rowCells _ w _ 0 h
    have hk' : k < 11 := by simpa [Export.headers] using hk
    refine ⟨⟨by omega, by omega⟩, k, hk', ?_⟩
    rw [hc, Nat.zero_add]
  · obtain ⟨⟨h1, h2⟩, hk⟩ := mem_dataCells w items 0 h
    exact ⟨⟨by omega, by omega⟩, hk⟩

theorem export_ok (fsl : FileFaults) (exportPath : String) (now : Time)
    (items : List ConfigurationItem) (hne : items ≠ [])
    (hmk : fsl.mkdirAll exportPath = none)
    (hsave : fsl.saveAs
      (filepathJoin exportPath ("配置项列表_" ++ Time.formatCompact now ++ ".xlsx")) = none) :
    Export fsl exportPath now items =
      ((filepathJoin exportPath ("配置项列表_" ++ Time.formatCompact now ++ ".xlsx"), none),
        some ⟨filepathJoin exportPath ("配置项列表_" ++ Time.formatCompact now ++ ".xlsx"),
          "配置项列表", Export.cells items⟩) := by
  have hlen : ¬ items.length = 0 := fun h => hne (List.length_eq_zero.1 h)
  unfold Export
  rw [if_neg hlen]
  simp only [hmk, hsave]

theorem bstrUnmarshal_id_of_no_underscore (l : List Char) (h : ∀ c ∈ l, c ≠ '_') :
    excelize.bstrUnmarshal 0 l = l := by
  apply bstrUnmarshal_id
  intro t ht
  cases t with
  | nil => rfl
  | cons c rest =>
    have hsuf : (c :: rest) <:+ l := (List.mem_tails _ _).1 ht
    have hc : c ∈ l := hsuf.subset (List.mem_cons_self _ _)
    cases hse : excelize.startsEscape (c :: rest) with
    | false => rfl
    | true => exact absurd (startsEscape_head c rest hse) (h c hc)

theorem keepsText_of_plain (s : String) (hlen : s.data.length ≤ 32767)
    (h : ∀ c ∈ s.data, xml.isInCharacterRange c = true ∧ c ≠ '_') :
    excelize.keepsText s = true := by
  unfold excelize.keepsText
  simp only [Bool.and_eq_true, decide_eq_true_eq, List.all_eq_true, Bool.not_eq_true']
  refine ⟨⟨hlen, fun c hc => (h c hc).1⟩, ?_⟩
  intro t ht
  cases t with
  | nil => rfl
  | cons c rest =>
    have hsuf : (c :: rest) <:+ s.data := (List.mem_tails _ _).1 ht
    have hc : c ∈ s.data := hsuf.subset (List.mem_cons_self _ _)
    cases hse : excelize.startsEscape (c :: rest) with
    | false => rfl
    | true => exact absurd (startsEscape_head c rest hse) (h c hc).2

theorem plain_of_digit (c : Char) (h : 48 ≤ c.toNat ∧ c.toNat ≤ 57) :
    xml.isInCharacterRange c = true ∧ c ≠ '_' := by
  constructor
  · unfold xml.isInCharacterRange
    have h1 : 0x20 ≤ c.toNat := by omega
    have h2 : c.toNat ≤ 0xD7FF := by omega
    simp [h1, h2]
  · rintro rfl
    exact absurd h.2 (by decide)

theorem keepsText_formatDateTime (t : Nat) (ht : t < 315537897600) :
    excelize.keepsText (Time.formatDateTime t) = true := by
  have hshape := formatDateTime_shape t ht
  unfold isDateTimeText at hshape
  split at hshape
  · rename_i y1 y2 y3 y4 a m1 m2 b d1 d2 c h1 h2 e n1 n2 f s1 s2 heq
    simp only [Bool.and_eq_true, List.all_eq_true, List.mem_cons, List.mem_singleton,
      List.not_mem_nil, or_false, forall_eq_or_imp, forall_eq, decide_eq_true_eq,
      beq_iff_eq] at hshape
    obtain ⟨⟨⟨⟨⟨hd, ha⟩, hb⟩, hc⟩, he⟩, hf⟩ := hshape
    obtain ⟨p1, p2, p3, p4, p5, p6, p7, p8, p9, p10, p11, p12, p13, p14⟩ := hd
    apply keepsText_of_plain
    · rw [heq]
      simp
    · rw [heq]
      subst ha hb hc he hf
      intro x hx
      simp only [List.mem_cons, List.mem_singleton, List.not_mem_nil, or_false] at hx
      rcases hx with rfl | rfl | rfl | rfl | rfl | rfl | rfl | rfl | rfl | rfl | rfl | rfl |
        rfl | rfl | rfl | rfl | rfl | rfl | rfl
      all_goals first
        | exact plain_of_digit _ (by assumption)
        | exact ⟨by decide, by decide⟩
  · simp at hshape

theorem rowTexts_of_readsBack (it : ConfigurationItem) (h : it.readsBack) :
    Export.rowTexts it =
      [toString it.ID, it.Provider.Name, it.Product.Name, it.Name, it.RecommendedValue,
        it.RiskDescription, it.CheckMethod, it.ConfigurationMethod, it.Reference,
        Time.formatDateTime it.CreatedAt, Time.formatDateTime it.UpdatedAt] := by
  obtain ⟨hid, hpn, hqn, ⟨h1, h2, h3, h4, h5, h6⟩, hc, hu⟩ := h
  unfold Export.rowTexts Export.rowData
  simp only [List.map_cons, List.map_nil, text_num_of_small _ hid, text_str_of_keeps _ hpn,
    text_str_of_keeps _ hqn, text_str_of_keeps _ h1, text_str_of_keeps _ h2,
    text_str_of_keeps _ h3, text_str_of_keeps _ h4, text_str_of_keeps _ h5,
    text_str_of_keeps _ h6, text_str_of_keeps _ (keepsText_formatDateTime _ hc),
    text_str_of_keeps _ (keepsText_formatDateTime _ hu)]

theorem text_str_replicate (n : Nat) :
    (CellValue.str (String.mk (List.replicate n 'a'))).text =
      String.mk (List.replicate (min excelize.TotalCellChars n) 'a') := by
  show String.mk _ = _
  have hrt : xml.roundTripChar 'a' = 'a' := by decide
  rw [List.take_replicate, List.map_replicate, hrt]
  rw [bstrUnmarshal_id_of_no_underscore]
  intro c hc
  rw [List.eq_of_mem_replicate hc]
  decide

theorem parseRow_remapIds (it : ConfigurationItem)
    (hp : it.CloudProviderID ≤ 4294967295) (hq : it.ProductID ≤ 4294967295) :
    ImportConfigItems.parseRow (remapIds it (Export.rowTexts it)) = some (candidateRead it) := by
  have h1 := parseUint32_toString it.CloudProviderID hp
  have h2 := parseUint32_toString it.ProductID hq
  have hrow : remapIds it (Export.rowTexts it) =
      [(CellValue.num it.ID).text, toString it.CloudProviderID, toString it.ProductID,
        (CellValue.str it.Name).text, (CellValue.str it.RecommendedValue).text,
        (CellValue.str it.RiskDescription).text, (CellValue.str it.CheckMethod).text,
        (CellValue.str it.ConfigurationMethod).text, (CellValue.str it.Reference).text,
        (CellValue.str (Time.formatDateTime it.CreatedAt)).text,
        (CellValue.str (Time.formatDateTime it.UpdatedAt)).text] := rfl
  rw [hrow]
  unfold ImportConfigItems.parseRow
  rw [if_neg (by simp only [List.length_cons, List.length_nil]; omega)]
  simp only [List.getD_cons_succ, List.getD_cons_zero, h1, h2]
  rfl

theorem candidateRead_of_kept (it : ConfigurationItem) (h : it.textsKept) :
    candidateRead it = candidateOf it := by
  obtain ⟨h1, h2, h3, h4, h5, h6⟩ := h
  unfold candidateRead candidateOf
  rw [text_str_of_keeps _ h1, text_str_of_keeps _ h2, text_str_of_keeps _ h3,
    text_str_of_keeps _ h4, text_str_of_keeps _ h5, text_str_of_keeps _ h6]

theorem zipWith_remapIds (items : List ConfigurationItem) :
    List.zipWith remapIds items (items.map Export.rowTexts) =
      items.map (fun it => remapIds it (Export.rowTexts it)) := by
  induction items with
  | nil => rfl
  | cons a t ih => simp only [List.map_cons, List.zipWith_cons_cons, ih]

theorem roundTripRows_cells (items : List ConfigurationItem) :
    roundTripRows (Export.cells items) items =
      Export.headers :: items.map (fun it => remapIds it (Export.rowTexts it)) := by
  unfold roundTripRows
  rw [getRows_export_cells]
  simp only [zipWith_remapIds]

/-- The rows of an exported sheet, with columns 2 and 3 replaced by the decimal ids, are parsed
into one candidate per item, with the six texts as the workbook gives them back. -/
theorem roundTrip_candidates (items : List ConfigurationItem) (hne : items ≠ [])
    (hids : ∀ it ∈ items, it.CloudProviderID ≤ 4294967295 ∧ it.ProductID ≤ 4294967295) :
    ImportConfigItems (roundTripRows (Export.cells items) items) =
      .ok (items.map candidateRead) := by
  have hparse : (items.map (fun it => remapIds it (Export.rowTexts it))).filterMap
      ImportConfigItems.parseRow = items.map candidateRead := by
    rw [List.filterMap_map]
    have : ∀ l : List ConfigurationItem,
        (∀ it ∈ l, it.CloudProviderID ≤ 4294967295 ∧ it.ProductID ≤ 4294967295) →
        l.filterMap (ImportConfigItems.parseRow ∘ fun it => remapIds it (Export.rowTexts it)) =
          l.map candidateRead := by
      intro l
      induction l with
      | nil => intro _; rfl
      | cons a t ih =>
        intro hl
        have ha := hl a (List.mem_cons_self a t)
        simp only [List.filterMap_cons, Function.comp_apply, parseRow_remapIds a ha.1 ha.2,
          List.map_cons]
        rw [ih (fun it hit => hl it (List.mem_cons_of_mem a hit))]
    exact this items hids
  rw [roundTripRows_cells]
  unfold ImportConfigItems
  have hlen : ¬ (Export.headers ::
      items.map (fun it => remapIds it (Export.rowTexts it))).length < 2 := by
    have := List.length_pos.2 hne
    simp only [List.length_cons, List.length_map]
    omega
  rw [if_neg hlen]
  simp only [List.drop_succ_cons, List.drop_zero, hparse]
  have hlen0 : ¬ (items.map candidateRead).length = 0 := by
    have := List.length_pos.2 hne
    simp only [List.length_map]
    omega
  rw [if_neg hlen0]

/-- C25: `HandleServiceError` answers a `ServiceError` with code NotFound by HTTP 404 and
code 4004, with code InvalidData by HTTP 400 and code 4000, with code Duplicate by HTTP 409
and code 4009, three responses that differ pairwise in status and in code, and a
`ServiceError` with any other code, Database among them, by HTTP 500 and code 5000; in every
case the message of the response is the `Message` field and the response is the same
whatever store error the `ServiceError` wraps; an error that is not a `ServiceError` is
answered by HTTP 500, code 5000 and the fixed message. -/
theorem handleServiceError_mapping (code : Nat) (message other : String)
    (err : Option DbError)
    (hcode : code ≠ ErrCodeNotFound ∧ code ≠ ErrCodeInvalidData ∧ code ≠ ErrCodeDuplicate) :
    HandleServiceError (.service ⟨ErrCodeNotFound, message, err⟩) = Error 404 4004 message ∧
      HandleServiceError (.service ⟨ErrCodeInvalidData, message, err⟩) =
        Error 400 4000 message ∧
      HandleServiceError (.service ⟨ErrCodeDuplicate, message, err⟩) = Error 409 4009 message ∧
      HandleServiceError (.service ⟨code, message, err⟩) = Error 500 5000 message ∧
      HandleServiceError (.service ⟨ErrCodeDatabase, message, err⟩) = Error 500 5000 message ∧
      (∀ c, (HandleServiceError (.service ⟨c, message, err⟩)).Message = message ∧
        HandleServiceError (.service ⟨c, message, err⟩) =
          HandleServiceError (.service ⟨c, message, none⟩)) ∧
      HandleServiceError (.other other) = Error 500 5000 "服务器内部错误" ∧
      ((Error 404 4004 message).httpStatus ≠ (Error 400 4000 message).httpStatus ∧
        (Error 404 4004 message).httpStatus ≠ (Error 409 4009 message).httpStatus ∧
        (Error 400 4000 message).httpStatus ≠ (Error 409 4009 message).httpStatus ∧
        (Error 404 4004 message).Code ≠ (Error 400 4000 message).Code ∧
        (Error 404 4004 message).Code ≠ (Error 409 4009 message).Code ∧
        (Error 400 4000 message).Code ≠ (Error 409 4009 message).Code) := by
  obtain ⟨h1, h2, h3⟩ := hcode
  refine ⟨rfl, rfl, rfl, ?_, rfl, ?_, rfl, ?_⟩
  · unfold HandleServiceError
    simp only [h1, h2, h3, if_false]
  · intro c
    unfold HandleServiceError
    simp only
    split_ifs <;> simp [Error]
  · unfold Error
    simp

/-- A `ServiceError` with code Internal that wraps a store error is answered by HTTP 500 and
code 5000 with its own message. -/
theorem handleServiceError_mapping_witness :
    HandleServiceError (.service ⟨ErrCodeInternal, "内部错误", some duplicateKey⟩) =
        Error 500 5000 "内部错误" ∧
      HandleServiceError (.service ⟨ErrCodeNotFound, "内部错误", some duplicateKey⟩) =
        Error 404 4004 "内部错误" :=
  have t := handleServiceError_mapping ErrCodeInternal "内部错误" "EOF" (some duplicateKey)
    (by decide)
  ⟨t.2.2.2.1, t.1⟩

/-! ## Exporting nothing -/

theorem getConfigItemsByFilter_some_pair (fl : Faults) (s : Store) (filter : ConfigItemFilter)
    (result : PageResult) (h : (GetConfigItemsByFilter fl s filter).1 = some result) :
    GetConfigItemsByFilter fl s filter = (some result, none) := by
  unfold GetConfigItemsByFilter at h ⊢
  split at h
  · simp at h
  · split at h
    · simp at h
    · split at h
      · simp at h
      · simp only [Option.some.injEq] at h
        rw [h]

/-- C29: for the empty list of items `Export` returns the empty path with `ErrInvalidData`
and saves no workbook, whatever the directory and the instant; so when the filter of an
export request passes the service and matches no stored item, the page handed to `Export` is
empty and `ExportExcel` answers with HTTP 500 and code 5000, the message being the export
prefix followed by the text of `ErrInvalidData`, and no workbook is saved, not even one that
holds only the header row. -/
theorem export_empty_is_error (fl : Faults) (fsl : FileFaults) (exportPath : String)
    (now : Time) (s : Store) (q : ExportQuery) (result : PageResult)
    (hres : (GetConfigItemsByFilter fl s (ExportExcel.filter q)).1 = some result)
    (hzero : s.items.filter
      (configurationItemRepository.whereClause (ExportExcel.filter q)) = []) :
    Export fsl exportPath now [] = (("", some (.declared .ErrInvalidData)), none) ∧
      result.Data = [] ∧
      ExportExcel fl fsl exportPath now s q =
        (Error 500 5000 "导出Excel失败：无效的数据", none) := by
  have hexp : Export fsl exportPath now [] = (("", some (.declared .ErrInvalidData)), none) :=
    rfl
  have hrepo := getConfigItemsByFilter_some fl s _ result hres
  have hshape := getByFilter_ok_shape fl s _ result hrepo
  have hfil : s.items.filter (configurationItemRepository.whereClause
      (GetConfigItemsByFilter.withDefaults (ExportExcel.filter q))) = [] := by
    rw [← hzero]
    apply List.filter_congr
    intro r _
    exact whereClause_withDefaults _ r
  have hdata : result.Data = [] := by
    rw [hshape, hfil]
    rfl
  refine ⟨hexp, hdata, ?_⟩
  unfold ExportExcel
  rw [getConfigItemsByFilter_some_pair fl s _ result hres]
  simp only [hdata, hexp]
  rfl

/-- No item of the sample store of three items contains the keyword `nomatch`: the export
request with that keyword is answered with the server error and saves nothing. -/
theorem export_empty_is_error_witness :
    ExportExcel noFaults noFileFaults "exports" 63839689445 sampleStoreThree
        ⟨"", "", "nomatch"⟩ =
      (Error 500 5000 "导出Excel失败：无效的数据", none) :=
  (export_empty_is_error noFaults noFileFaults "exports" 63839689445 sampleStoreThree
    ⟨"", "", "nomatch"⟩ ⟨0, 1, 100, []⟩ (by decide) (by decide)).2.2

/-! ## The width of an imported id -/

theorem decimalText?_some_digits (s : String) (n : Nat) (h : decimalText? s = some n) :
    s.data ≠ [] ∧ (∀ c ∈ s.data, 48 ≤ c.toNat ∧ c.toNat ≤ 57) ∧ n = decimalValue s.data := by
  unfold decimalText? at h
  split at h
  · rename_i hd
    simp only [Option.some.injEq] at h
    exact ⟨hd.1, hd.2, h.symm⟩
  · simp at h

/-- C30: `ImportConfigItems` keeps a data row only if each of its two id cells is a
non-empty run of the digits 0 to 9, hence without sign and without spaces, whose decimal
value is at most 4294967295, and the provider id and the product id of the candidate kept
for the row are these two values; a row one of whose id cells is anything else, such as
`4294967296` or `+5`, yields no candidate and the import returns what it returns without the
row; every candidate returned comes from a data row kept this way. -/
theorem importConfigItems_ids_fit_32_bits (header row : List String)
    (front back : List (List String)) :
    (∀ item, ImportConfigItems.parseRow row = some item →
        9 ≤ row.length ∧
        decimalText? (row.getD 1 "") = some item.CloudProviderID ∧
        item.CloudProviderID ≤ 4294967295 ∧
        decimalText? (row.getD 2 "") = some item.ProductID ∧
        item.ProductID ≤ 4294967295 ∧
        (∀ c ∈ (row.getD 1 "").data ++ (row.getD 2 "").data,
          '0'.toNat ≤ c.toNat ∧ c.toNat ≤ '9'.toNat ∧ c ≠ '+' ∧ c ≠ '-' ∧ c ≠ ' ')) ∧
      (((∀ n, decimalText? (row.getD 1 "") = some n → 4294967295 < n) ∨
          (∀ m, decimalText? (row.getD 2 "") = some m → 4294967295 < m)) →
        ImportConfigItems.parseRow row = none ∧
          ImportConfigItems (header :: (front ++ row :: back)) =
            ImportConfigItems (header :: (front ++ back))) ∧
      (∀ rows items, ImportConfigItems rows = .ok items →
        ∀ item ∈ items, ∃ r ∈ rows.drop 1, ImportConfigItems.parseRow r = some item) := by
  refine ⟨?_, ?_, ?_⟩
  · intro item h
    unfold ImportConfigItems.parseRow at h
    split at h
    · simp at h
    · rename_i hlen
      split at h
      · simp at h
      · rename_i pid hp
        split at h
        · simp at h
        · rename_i qid hq
          simp only [Option.some.injEq] at h
          subst h
          obtain ⟨hp1, hp2⟩ := (parseUint32_ok_iff _ pid).1 hp
          obtain ⟨hq1, hq2⟩ := (parseUint32_ok_iff _ qid).1 hq
          refine ⟨by omega, hp1, hp2, hq1, hq2, ?_⟩
          intro c hc
          have hdig : 48 ≤ c.toNat ∧ c.toNat ≤ 57 := by
            rcases List.mem_append.1 hc with h1 | h2
            · exact (decimalText?_some_digits _ pid hp1).2.1 c h1
            · exact (decimalText?_some_digits _ qid hq1).2.1 c h2
          have h0 : ('0' : Char).toNat = 48 := rfl
          have h9 : ('9' : Char).toNat = 57 := rfl
          refine ⟨?_, ?_, ?_, ?_, ?_⟩
          · rw [h0]
            exact hdig.1
          · rw [h9]
            exact hdig.2
          · rintro rfl
            exact absurd hdig.1 (by decide)
          · rintro rfl
            exact absurd hdig.1 (by decide)
          · rintro rfl
            exact absurd hdig.1 (by decide)
  · intro hbad
    have hnone : ImportConfigItems.parseRow row = none := by
      apply parseRow_none_of_not_survives
      rintro ⟨_, ⟨n, hn⟩, ⟨m, hm⟩⟩
      obtain ⟨hn1, hn2⟩ := (parseUint32_ok_iff _ n).1 hn
      obtain ⟨hm1, hm2⟩ := (parseUint32_ok_iff _ m).1 hm
      rcases hbad with h | h
      · have := h n hn1
        omega
      · have := h m hm1
        omega
    exact ⟨hnone, importConfigItems_drop_skipped header row front back hnone⟩
  · intro rows items h item hitem
    unfold ImportConfigItems at h
    split at h
    · simp at h
    · simp only at h
      split at h
      · simp at h
      · simp only [Except.ok.injEq] at h
        subst h
        obtain ⟨r, hr, hrow⟩ := List.mem_filterMap.1 hitem
        exact ⟨r, hr, hrow⟩

/-- A row with the ids 1 and 10 is kept with these ids; the same row with the provider id
`4294967296`, with `+5`, or with a space before the digit is skipped. -/
theorem importConfigItems_ids_fit_32_bits_witness :
    (decimalText? (sampleRow.getD 1 "") = some sampleCandidate.CloudProviderID ∧
        decimalText? (sampleRow.getD 2 "") = some sampleCandidate.ProductID) ∧
      ImportConfigItems.parseRow (sampleRow.set 1 "4294967296") = none ∧
      ImportConfigItems.parseRow (sampleRow.set 1 "+5") = none ∧
      ImportConfigItems.parseRow (sampleRow.set 2 " 5") = none ∧
      ImportConfigItems [sampleHeader, sampleRow.set 1 "4294967296", sampleRow] =
        ImportConfigItems [sampleHeader, sampleRow] :=
  have t := importConfigItems_ids_fit_32_bits sampleHeader sampleRow [] []
  have hkept := t.1 sampleCandidate rfl
  have t1 := importConfigItems_ids_fit_32_bits sampleHeader (sampleRow.set 1 "4294967296")
    [] [sampleRow]
  have t2 := importConfigItems_ids_fit_32_bits sampleHeader (sampleRow.set 1 "+5") [] []
  have t3 := importConfigItems_ids_fit_32_bits sampleHeader (sampleRow.set 2 " 5") [] []
  have h1 := t1.2.1 (Or.inl (by
    intro n hn
    have : n = 4294967296 := by
      have h : decimalText? "4294967296" = some 4294967296 := by decide
      have hn1 : decimalText? "4294967296" = some n := hn
      rw [h] at hn1
      exact (Option.some.inj hn1).symm
    omega))
  have h2 := t2.2.1 (Or.inl (by
    intro n hn
    have h : decimalText? "+5" = none := by decide
    have hn1 : decimalText? "+5" = some n := hn
    rw [h] at hn1
    exact absurd hn1 (by simp)))
  have h3 := t3.2.1 (Or.inr (by
    intro n hn
    have h : decimalText? " 5" = none := by decide
    have hn1 : decimalText? " 5" = some n := hn
    rw [h] at hn1
    exact absurd hn1 (by simp)))
  ⟨⟨hkept.2.1, hkept.2.2.2.1⟩, h1.1, h2.1, h3.1, h1.2⟩

/-! ## One validator for the single insert and for the batch -/

theorem createConfigItem_eq_validation (fl : Faults) (now : Time) (s : Store)
    (item : ConfigurationItem) :
    CreateConfigItem fl now s item =
      match CreateConfigItem.validation fl s item with
      | some err => (s, some err)
      | none =>
        match configurationItemRepository.Create fl now s item with
        | (s1, some e) => (s1, some (NewServiceError ErrCodeDatabase "创建配置项失败" (some e)))
        | (s1, none) => (s1, none) := by
  unfold CreateConfigItem CreateConfigItem.validation
  split
  · rfl
  · rfl
  · split
    · rfl
    · rfl
    · split
      · rfl
      · rfl

theorem validateOne_code_eq_validation (fl : Faults) (s : Store) (i : Nat)
    (item : ConfigurationItem) :
    (BatchImportConfigItems.validateOne fl s i item).map (fun e => e.Code) =
      (CreateConfigItem.validation fl s item).map (fun e => e.Code) := by
  unfold BatchImportConfigItems.validateOne CreateConfigItem.validation
  split
  · rfl
  · rfl
  · split
    · rfl
    · rfl
    · split
      · rfl
      · rfl

theorem validateOne_none_iff_validation (fl : Faults) (s : Store) (i : Nat)
    (item : ConfigurationItem) :
    BatchImportConfigItems.validateOne fl s i item = none ↔
      CreateConfigItem.validation fl s item = none := by
  have h := validateOne_code_eq_validation fl s i item
  constructor
  · intro h1
    rw [h1] at h
    simpa using h.symm
  · intro h1
    rw [h1] at h
    simpa using h

theorem validate_none_iff_validation (fl : Faults) (s : Store) (items : List ConfigurationItem) :
    ∀ i, BatchImportConfigItems.validate fl s i items = none ↔
      ∀ c ∈ items, CreateConfigItem.validation fl s c = none := by
  induction items with
  | nil =>
    intro i
    simp [BatchImportConfigItems.validate]
  | cons a t ih =>
    intro i
    unfold BatchImportConfigItems.validate
    cases hone : BatchImportConfigItems.validateOne fl s i a with
    | some err =>
      have hne : CreateConfigItem.validation fl s a ≠ none := by
        intro h0
        rw [(validateOne_none_iff_validation fl s i a).2 h0] at hone
        simp at hone
      simp only [List.mem_cons, forall_eq_or_imp]
      constructor
      · intro h
        simp at h
      · intro h
        exact absurd h.1 hne
    | none =>
      have h0 := (validateOne_none_iff_validation fl s i a).1 hone
      simp only [List.mem_cons, forall_eq_or_imp, ih (i + 1), h0, true_and]

theorem create_fail_store (fl : Faults) (now : Time) (s : Store) (item : ConfigurationItem)
    (e : DbError) (s1 : Store)
    (h : configurationItemRepository.Create fl now s item = (s1, some e)) : s1 = s := by
  unfold configurationItemRepository.Create at h
  split at h
  · simp only [Prod.mk.injEq] at h
    exact h.1.symm
  · simp only at h
    split at h
    · simp only [Prod.mk.injEq] at h
      exact h.1.symm
    · simp at h

theorem batchInsert_singleton (fl : Faults) (now : Time) (s : Store)
    (item : ConfigurationItem) :
    configurationItemRepository.BatchInsert fl now s [item] =
      configurationItemRepository.Create fl now s item := by
  unfold configurationItemRepository.BatchInsert configurationItemRepository.insertLoop
  cases hc : configurationItemRepository.Create fl now s item with
  | mk s1 r =>
    cases r with
    | none => simp [configurationItemRepository.insertLoop]
    | some e =>
      have := create_fail_store fl now s item e s1 hc
      simp [this]

/-- C28: for every store, every oracle of database failures and every item,
`BatchImportConfigItems` on the one-element list of the item ends in the same store and with
an error of the same code, or with no error, as `CreateConfigItem` on the item; the checks
`CreateConfigItem` runs before its insert decide its answer whenever they fail; for a list of
any length the validation loop of the batch stops with an error exactly when these checks
fail for at least one element, the batch then fails, and when the batch insert itself goes
through the batch fails exactly in that case. -/
theorem batchImport_same_validator_as_create (fl : Faults) (now : Time) (s : Store)
    (item : ConfigurationItem) (items : List ConfigurationItem) :
    (BatchImportConfigItems fl now s [item]).2.map (fun e => e.Code) =
        (CreateConfigItem fl now s item).2.map (fun e => e.Code) ∧
      (BatchImportConfigItems fl now s [item]).1 = (CreateConfigItem fl now s item).1 ∧
      (∀ c err, CreateConfigItem.validation fl s c = some err →
        CreateConfigItem fl now s c = (s, some err)) ∧
      (BatchImportConfigItems.validate fl s 0 items ≠ none ↔
        ∃ c ∈ items, CreateConfigItem.validation fl s c ≠ none) ∧
      ((∃ c ∈ items, CreateConfigItem.validation fl s c ≠ none) →
        (BatchImportConfigItems fl now s items).2 ≠ none ∧
          (BatchImportConfigItems fl now s items).1 = s) ∧
      ((configurationItemRepository.BatchInsert fl now s items).2 = none →
        ((BatchImportConfigItems fl now s items).2 ≠ none ↔
          ∃ c ∈ items, CreateConfigItem.validation fl s c ≠ none)) := by
  have hiff : BatchImportConfigItems.validate fl s 0 items ≠ none ↔
      ∃ c ∈ items, CreateConfigItem.validation fl s c ≠ none := by
    rw [Ne, validate_none_iff_validation fl s items 0]
    push_neg
    rfl
  refine ⟨?_, ?_, ?_, hiff, ?_, ?_⟩
  · rw [createConfigItem_eq_validation]
    unfold BatchImportConfigItems BatchImportConfigItems.validate
    have hcode := validateOne_code_eq_validation fl s 0 item
    cases hone : BatchImportConfigItems.validateOne fl s 0 item with
    | some err =>
      rw [hone] at hcode
      cases hval : CreateConfigItem.validation fl s item with
      | none => rw [hval] at hcode; simp at hcode
      | some err1 =>
        rw [hval] at hcode
        simpa using hcode
    | none =>
      have hval := (validateOne_none_iff_validation fl s 0 item).1 hone
      simp only [hval, BatchImportConfigItems.validate, batchInsert_singleton]
      cases hc : configurationItemRepository.Create fl now s item with
      | mk s1 r =>
        cases r with
        | none => rfl
        | some e => rfl
  · rw [createConfigItem_eq_validation]
    unfold BatchImportConfigItems BatchImportConfigItems.validate
    cases hone : BatchImportConfigItems.validateOne fl s 0 item with
    | some err =>
      cases hval : CreateConfigItem.validation fl s item with
      | none =>
        rw [(validateOne_none_iff_validation fl s 0 item).2 hval] at hone
        simp at hone
      | some err1 => rfl
    | none =>
      have hval := (validateOne_none_iff_validation fl s 0 item).1 hone
      simp only [hval, BatchImportConfigItems.validate, batchInsert_singleton]
      cases hc : configurationItemRepository.Create fl now s item with
      | mk s1 r =>
        cases r with
        | none => rfl
        | some e => rfl
  · intro c err hval
    rw [createConfigItem_eq_validation, hval]
  · intro hex
    have hne := hiff.2 hex
    unfold BatchImportConfigItems
    cases hv : BatchImportConfigItems.validate fl s 0 items with
    | none => exact absurd hv hne
    | some err => simp
  · intro hins
    rw [← hiff]
    unfold BatchImportConfigItems
    cases hv : BatchImportConfigItems.validate fl s 0 items with
    | some err => simp
    | none =>
      cases hb : configurationItemRepository.BatchInsert fl now s items with
      | mk s1 r =>
        rw [hb] at hins
        simp only at hins
        subst hins
        simp

/-- In the sample store the item of provider 2 and product 10 is refused with InvalidData by
both paths, and a batch of a valid item followed by this one fails. -/
theorem batchImport_same_validator_as_create_witness :
    (BatchImportConfigItems noFaults 100 sampleStore [sampleItem 2 10 "mfa"]).2.map
        (fun e => e.Code) = some ErrCodeInvalidData ∧
      (CreateConfigItem noFaults 100 sampleStore (sampleItem 2 10 "mfa")).2.map
        (fun e => e.Code) = some ErrCodeInvalidData ∧
      (BatchImportConfigItems noFaults 100 sampleStore
        [sampleItem 1 10 "tls", sampleItem 2 10 "mfa"]).2 ≠ none :=
  have t := batchImport_same_validator_as_create noFaults 100 sampleStore
    (sampleItem 2 10 "mfa") [sampleItem 1 10 "tls", sampleItem 2 10 "mfa"]
  ⟨t.1.trans (by decide), by decide,
    (t.2.2.2.2.1 ⟨sampleItem 2 10 "mfa", by simp, by decide⟩).1⟩

/-! ## The failures of an update -/

theorem itemGetByID_of_find (fl : Faults) (s : Store) (id : Nat) (r : Option ConfigurationItem)
    (hfl : fl.itemGetByID id = none) (h : s.items.find? (fun x => x.ID == id) = r) :
    configurationItemRepository.GetByID fl s id = .ok r := by
  simp [configurationItemRepository.GetByID, hfl, h]

/-- C22, as stated, fails: configuration item 1 is stored with provider 1 and product 10, and
the record moves it to provider 7, which does not exist, and to product 20, which exists and
belongs to provider 2, not to provider 7. The product id differs from the stored one and the
new product is owned by another provider than the one of the record, yet `UpdateConfigItem`
fails with NotFound for the provider, not with InvalidData; the store is unchanged. -/
theorem updateConfigItem_missing_provider_hides_mismatch :
    sampleCatalogStore.items.find? (fun r => r.ID == sampleUpdateBoth.ID) =
        some (createdRow 5 [] (sampleItem 1 10 "mfa")) ∧
      sampleUpdateBoth.ProductID ≠ (createdRow 5 [] (sampleItem 1 10 "mfa")).ProductID ∧
      sampleEcs ∈ sampleCatalogStore.products ∧ sampleEcs.ID = sampleUpdateBoth.ProductID ∧
      sampleEcs.CloudProviderID ≠ sampleUpdateBoth.CloudProviderID ∧
      UpdateConfigItem noFaults 9 sampleCatalogStore sampleUpdateBoth =
        (sampleCatalogStore, some ⟨ErrCodeNotFound, "云服务商不存在", none⟩) ∧
      (UpdateConfigItem noFaults 9 sampleCatalogStore sampleUpdateBoth).2.map (fun e => e.Code) ≠
        some ErrCodeInvalidData := by
  decide

/-- C22, amended: with lookups that go through, `UpdateConfigItem` fails with NotFound when
no stored item has the id of the record. When the store returns an item for the id: if the
provider id of the record differs from the stored one and names no provider, it fails with
NotFound; if the product id of the record differs from the stored one, it fails with NotFound
when the new product does not exist, and, provided the provider check has not failed, that is
the provider id of the record is the stored one or names a provider, it fails with NotFound
for the product when the new product does not exist and with InvalidData when the new product
is owned by another provider than the one of the record. In each of these failures the store,
and with it the stored item, is unchanged. -/
theorem updateConfigItem_failures (fl : Faults) (now : Time) (s : Store)
    (item existing : ConfigurationItem)
    (hfi : fl.itemGetByID item.ID = none) (hfl : fl.lookupsOk) :
    (s.items.find? (fun r => r.ID == item.ID) = none →
        UpdateConfigItem fl now s item = (s, some ⟨ErrCodeNotFound, "配置项不存在", none⟩)) ∧
      (s.items.find? (fun r => r.ID == item.ID) = some existing →
        (item.CloudProviderID ≠ existing.CloudProviderID →
          ¬ s.hasProvider item.CloudProviderID →
          UpdateConfigItem fl now s item =
            (s, some ⟨ErrCodeNotFound, "云服务商不存在", none⟩)) ∧
        (item.ProductID ≠ existing.ProductID → ¬ s.hasProduct item.ProductID →
          (UpdateConfigItem fl now s item).1 = s ∧
            (UpdateConfigItem fl now s item).2.map (fun e => e.Code) = some ErrCodeNotFound) ∧
        (item.ProductID ≠ existing.ProductID →
          (item.CloudProviderID = existing.CloudProviderID ∨
            s.hasProvider item.CloudProviderID) →
          (¬ s.hasProduct item.ProductID →
            UpdateConfigItem fl now s item =
              (s, some ⟨ErrCodeNotFound, "云产品不存在", none⟩)) ∧
          (∀ q, s.productKeysUnique → q ∈ s.products → q.ID = item.ProductID →
            q.CloudProviderID ≠ item.CloudProviderID →
            UpdateConfigItem fl now s item =
              (s, some ⟨ErrCodeInvalidData, "云产品不属于指定的云服务商", none⟩)))) := by
  obtain ⟨hfp, hfq⟩ := hfl
  constructor
  · intro hnone
    have hget := itemGetByID_of_find fl s item.ID none hfi hnone
    simp [UpdateConfigItem, hget, NewServiceError]
  · intro hsome
    have hget := itemGetByID_of_find fl s item.ID (some existing) hfi hsome
    have hprovFail : item.CloudProviderID ≠ existing.CloudProviderID →
        ¬ s.hasProvider item.CloudProviderID →
        UpdateConfigItem fl now s item =
          (s, some ⟨ErrCodeNotFound, "云服务商不存在", none⟩) := by
      intro hne hno
      simp [UpdateConfigItem, hget, UpdateConfigItem.checkProvider, hne,
        providerGetByID_of_not_has fl s _ (hfp _) hno, NewServiceError]
    have hprovOk : (item.CloudProviderID = existing.CloudProviderID ∨
        s.hasProvider item.CloudProviderID) →
        UpdateConfigItem.checkProvider fl s item existing = none := by
      intro h
      unfold UpdateConfigItem.checkProvider
      by_cases hne : item.CloudProviderID = existing.CloudProviderID
      · simp [hne]
      · rcases h with h | h
        · exact absurd h hne
        · obtain ⟨p, hp⟩ := providerGetByID_of_has fl s _ (hfp _) h
          simp [hne, hp]
    have hprodMissing : item.ProductID ≠ existing.ProductID →
        (item.CloudProviderID = existing.CloudProviderID ∨
          s.hasProvider item.CloudProviderID) →
        ¬ s.hasProduct item.ProductID →
        UpdateConfigItem fl now s item =
          (s, some ⟨ErrCodeNotFound, "云产品不存在", none⟩) := by
      intro hne hok hno
      simp [UpdateConfigItem, hget, hprovOk hok, UpdateConfigItem.checkProduct, hne,
        productGetByID_of_not_has fl s _ (hfq _) hno, NewServiceError]
    refine ⟨hprovFail, ?_, ?_⟩
    · intro hne hno
      by_cases hok : item.CloudProviderID = existing.CloudProviderID ∨
          s.hasProvider item.CloudProviderID
      · rw [hprodMissing hne hok hno]
        exact ⟨rfl, rfl⟩
      · rw [not_or] at hok
        rw [hprovFail hok.1 hok.2]
        exact ⟨rfl, rfl⟩
    · intro hne hok
      refine ⟨hprodMissing hne hok, ?_⟩
      intro q hkeys hq hqid hown
      have hprod := productGetByID_of_mem fl s _ q (hfq _) hkeys hq hqid
      simp [UpdateConfigItem, hget, hprovOk hok, UpdateConfigItem.checkProduct, hne, hprod,
        hown, NewServiceError]

/-- Configuration item 1 of the sample store moved to product 20 with its provider 1 kept:
product 20 belongs to provider 2, so the update is refused with InvalidData. -/
theorem updateConfigItem_failures_witness :
    UpdateConfigItem noFaults 9 sampleCatalogStore { sampleItem 1 20 "mfa" with ID := 1 } =
      (sampleCatalogStore, some ⟨ErrCodeInvalidData, "云产品不属于指定的云服务商", none⟩) :=
  ((updateConfigItem_failures noFaults 9 sampleCatalogStore
    { sampleItem 1 20 "mfa" with ID := 1 } (createdRow 5 [] (sampleItem 1 10 "mfa")) rfl
    ⟨fun _ => rfl, fun _ => rfl⟩).2 (by decide)).2.2 (by decide) (Or.inl (by decide))
    |>.2 sampleEcs (by decide) (by decide) (by decide) (by decide)

/-! ## The creation timestamp under an update -/

/-- C23: configuration item 1 of the sample store was created at instant 5. The request
`PUT /config-items/1` whose body keeps the provider, the product and the texts of the item
and carries the creation timestamp 7 is accepted by the `Update` handler and by
`UpdateConfigItem`, and the stored item then has the creation timestamp 7; when the body
omits the creation timestamp the stored item has the zero timestamp. In both cases the
update timestamp is the instant of the update. -/
theorem update_overwrites_created_at :
    sampleStoreWithItem.items.map (fun r => (r.ID, r.CreatedAt)) = [(1, 5)] ∧
      (ConfigurationItemHandler.Update noFaults 9 sampleStoreWithItem "1"
        (.ok { sampleItem 1 10 "mfa" with CreatedAt := 7 })).2 =
        Success [("message", "配置项更新成功")] ∧
      (ConfigurationItemHandler.Update noFaults 9 sampleStoreWithItem "1"
        (.ok { sampleItem 1 10 "mfa" with CreatedAt := 7 })).1.items.map
          (fun r => (r.ID, r.CreatedAt, r.UpdatedAt)) = [(1, 7, 9)] ∧
      (ConfigurationItemHandler.Update noFaults 9 sampleStoreWithItem "1"
        (.ok (sampleItem 1 10 "mfa"))).2 = Success [("message", "配置项更新成功")] ∧
      (ConfigurationItemHandler.Update noFaults 9 sampleStoreWithItem "1"
        (.ok (sampleItem 1 10 "mfa"))).1.items.map
          (fun r => (r.ID, r.CreatedAt, r.UpdatedAt)) = [(1, 0, 9)] := by
  decide

/-! ## The name of the exported file -/

theorem appendInt_value (x w : Nat) : decimalValue (Time.appendInt x w) = x := by
  obtain ⟨_, _, h3⟩ := toDigitsCore_spec (x + 1) x [] (by omega) (by simp)
  have hz : ∀ k, (List.replicate k '0').foldl (fun n c => n * 10 + (c.toNat - 48)) 0 = 0 := by
    intro k
    induction k with
    | zero => rfl
    | succ k ih =>
      rw [List.replicate_succ, List.foldl_cons]
      exact ih
  have hd : Nat.toDigits 10 x = Nat.toDigitsCore 10 (x + 1) x [] := rfl
  unfold Time.appendInt decimalValue
  rw [List.foldl_append, hz, hd, h3]
  simp

theorem yearDay_days (t : Nat) :
    t / 86400 =
      365 * ((Time.yearDay t).1 - 1) + ((Time.yearDay t).1 - 1) / 4 -
        ((Time.yearDay t).1 - 1) / 100 + ((Time.yearDay t).1 - 1) / 400 +
        (Time.yearDay t).2 := by
  unfold Time.yearDay
  simp only
  generalize hD : t / 86400 = D
  generalize ha : D / 146097 = a
  generalize hd1 : D - 146097 * a = d1
  generalize hn : d1 / 36524 = n
  generalize hc : n - n / 4 = c
  generalize hd2 : d1 - 36524 * c = d2
  generalize hb : d2 / 1461 = b
  generalize hd3 : d2 - 1461 * b = d3
  generalize hm : d3 / 365 = m
  generalize hy : m - m / 4 = y
  have h1 : d1 < 146097 := by omega
  have h1' : D = 146097 * a + d1 := by omega
  have h2 : n ≤ 4 := by omega
  have h3 : c ≤ 3 ∧ 36524 * c ≤ d1 := by omega
  have h4 : d2 ≤ 36524 := by omega
  have h4' : d1 = 36524 * c + d2 := by omega
  have h5 : b ≤ 24 ∧ 1461 * b ≤ d2 := by omega
  have h6 : d3 < 1461 := by omega
  have h6' : d2 = 1461 * b + d3 := by omega
  have h7 : m ≤ 4 := by omega
  have h8 : y ≤ 3 ∧ 365 * y ≤ d3 := by omega
  have hN : 400 * a + 100 * c + 4 * b + y + 1 - 1 = 400 * a + 100 * c + 4 * b + y := by omega
  rw [hN]
  have hq4 : (400 * a + 100 * c + 4 * b + y) / 4 = 100 * a + 25 * c + b := by omega
  have hq100 : (400 * a + 100 * c + 4 * b + y) / 100 = 4 * a + c := by omega
  have hq400 : (400 * a + 100 * c + 4 * b + y) / 400 = a := by omega
  rw [hq4, hq100, hq400]
  omega

set_option maxRecDepth 100000 in
theorem monthDay_inverse :
    ∀ leap : Bool, ∀ yday, yday < 366 →
      Time.daysBefore.getD ((Time.monthDay leap yday).1 - 1) 0 + (Time.monthDay leap yday).2 - 1 +
        (if leap && decide (2 < (Time.monthDay leap yday).1) then 1 else 0) = yday := by
  decide

theorem clock_of_fields (a b : Nat)
    (hh : a % 86400 / 3600 = b % 86400 / 3600)
    (hm : a % 86400 % 3600 / 60 = b % 86400 % 3600 / 60)
    (hs : a % 86400 % 60 = b % 86400 % 60) : a % 86400 = b % 86400 := by
  omega

theorem appendInt_inj (x y w : Nat) (h : Time.appendInt x w = Time.appendInt y w) : x = y := by
  rw [← appendInt_value x w, ← appendInt_value y w, h]

theorem formatCompact_fields (t : Nat) :
    (Time.formatCompact t).data =
      Time.appendInt (Time.yearDay t).1 4 ++
        Time.appendInt (Time.monthDay (Time.isLeap (Time.yearDay t).1) (Time.yearDay t).2).1 2 ++
        Time.appendInt (Time.monthDay (Time.isLeap (Time.yearDay t).1) (Time.yearDay t).2).2 2 ++
        Time.appendInt (t % 86400 / 3600) 2 ++ Time.appendInt (t % 86400 % 3600 / 60) 2 ++
        Time.appendInt (t % 86400 % 60) 2 := rfl

theorem formatCompact_injective (a b : Nat) (h : Time.formatCompact a = Time.formatCompact b) :
    a = b := by
  have hdata : (Time.formatCompact a).data = (Time.formatCompact b).data := by rw [h]
  rw [formatCompact_fields, formatCompact_fields] at hdata
  obtain ⟨hyda, _⟩ := yearDay_bounds a
  obtain ⟨hydb, _⟩ := yearDay_bounds b
  obtain ⟨hma, hda⟩ := monthDay_bounds (Time.isLeap (Time.yearDay a).1) _ hyda
  obtain ⟨hmb, hdb⟩ := monthDay_bounds (Time.isLeap (Time.yearDay b).1) _ hydb
  have len2 : ∀ x, x < 100 → (Time.appendInt x 2).length = 2 := fun x hx =>
    (appendInt_shape x 2 (by omega) (lt_of_lt_of_le hx (by norm_num))).1
  obtain ⟨h5, hs⟩ := List.append_inj' hdata
    (by rw [len2 _ (by omega), len2 _ (by omega)])
  obtain ⟨h4, hm⟩ := List.append_inj' h5 (by rw [len2 _ (by omega), len2 _ (by omega)])
  obtain ⟨h3, hh⟩ := List.append_inj' h4 (by rw [len2 _ (by omega), len2 _ (by omega)])
  obtain ⟨h2, hd⟩ := List.append_inj' h3 (by rw [len2 _ hda, len2 _ hdb])
  obtain ⟨hy, hmo⟩ := List.append_inj' h2 (by rw [len2 _ hma, len2 _ hmb])
  have ey := appendInt_inj _ _ _ hy
  have emo := appendInt_inj _ _ _ hmo
  have ed := appendInt_inj _ _ _ hd
  have ehh := appendInt_inj _ _ _ hh
  have emm := appendInt_inj _ _ _ hm
  have ess := appendInt_inj _ _ _ hs
  have hclock := clock_of_fields a b ehh emm ess
  have hyday : (Time.yearDay a).2 = (Time.yearDay b).2 := by
    have ia := monthDay_inverse (Time.isLeap (Time.yearDay a).1) _ hyda
    have ib := monthDay_inverse (Time.isLeap (Time.yearDay b).1) _ hydb
    rw [← ia, ← ib, emo, ed, ey]
  have hdays : a / 86400 = b / 86400 := by
    rw [yearDay_days a, yearDay_days b, ey, hyday]
  omega

theorem filepathJoin_injective (dir a b : String) (h : filepathJoin dir a = filepathJoin dir b) :
    a = b := by
  unfold filepathJoin at h
  split at h
  · exact h
  · have hd : (dir ++ "/" ++ a).data = (dir ++ "/" ++ b).data := by rw [h]
    simp only [String.data_append, List.append_assoc] at hd
    have := List.append_cancel_left (List.append_cancel_left hd)
    exact String.ext this

theorem exportName_injective (a b : String)
    (h : "配置项列表_" ++ a ++ ".xlsx" = "配置项列表_" ++ b ++ ".xlsx") : a = b := by
  have hd : ("配置项列表_" ++ a ++ ".xlsx").data = ("配置项列表_" ++ b ++ ".xlsx").data := by rw [h]
  simp only [String.data_append] at hd
  have := List.append_cancel_left (List.append_cancel_right hd)
  exact String.ext this

theorem export_ok_path (fsl : FileFaults) (exportPath : String) (now : Time)
    (items : List ConfigurationItem) (p : String) (file : ExportedFile)
    (h : Export fsl exportPath now items = ((p, none), some file)) :
    p = filepathJoin exportPath ("配置项列表_" ++ Time.formatCompact now ++ ".xlsx") ∧
      file.path = p := by
  unfold Export at h
  split at h
  · simp at h
  · split at h
    · simp at h
    · simp only at h
      split at h
      · simp at h
      · simp only [Prod.mk.injEq, Option.some.injEq, and_true] at h
        obtain ⟨hp, hf⟩ := h
        subst hf
        exact ⟨hp.symm, hp⟩

/-- C21, as stated, fails: two invocations of `Export` with the directory `exports`, at two
different instants half a second apart, the second one with another list of items, both
succeed and return the same path, so the second workbook is saved over the first. -/
theorem export_same_second_same_path :
    (63839689445000000000 : Instant) ≠ 63839689445500000000 ∧
      Export.atInstant noFileFaults "exports" 63839689445000000000 [sampleExportItem] =
        (("exports/配置项列表_20240101070405.xlsx", none), some sampleExportFile) ∧
      Export.atInstant noFileFaults "exports" 63839689445500000000 [{ sampleExportItem with Name := "tls" }] =
        (("exports/配置项列表_20240101070405.xlsx", none),
          some ⟨"exports/配置项列表_20240101070405.xlsx", "配置项列表",
            Export.cells [{ sampleExportItem with Name := "tls" }]⟩) ∧
      Export.cells [{ sampleExportItem with Name := "tls" }] ≠ sampleExportFile.cells := by
  refine ⟨by decide, rfl, rfl, by decide⟩

/-- C21, amended: for any two invocations of `Export` with the same export directory that
both succeed, the two returned paths, which are the paths of the two workbooks saved, differ
exactly when the two instants do not lie in the same second of the wall clock; two invocations
in different seconds do not overwrite each other, two invocations within one second do. -/
theorem export_paths_differ_iff_seconds_differ (fsl1 fsl2 : FileFaults) (exportPath : String)
    (i1 i2 : Instant) (items1 items2 : List ConfigurationItem) (p1 p2 : String)
    (file1 file2 : ExportedFile)
    (h1 : Export.atInstant fsl1 exportPath i1 items1 = ((p1, none), some file1))
    (h2 : Export.atInstant fsl2 exportPath i2 items2 = ((p2, none), some file2)) :
    (p1 ≠ p2 ↔ Instant.seconds i1 ≠ Instant.seconds i2) ∧
      file1.path = p1 ∧ file2.path = p2 := by
  obtain ⟨e1, f1⟩ := export_ok_path fsl1 exportPath _ items1 p1 file1 h1
  obtain ⟨e2, f2⟩ := export_ok_path fsl2 exportPath _ items2 p2 file2 h2
  refine ⟨?_, f1, f2⟩
  rw [not_iff_not]
  constructor
  · intro hp
    rw [e1, e2] at hp
    exact formatCompact_injective _ _
      (exportName_injective _ _ (filepathJoin_injective _ _ _ hp))
  · intro hs
    rw [e1, e2, hs]

/-- Two exports of the sample item one second apart return two different paths. -/
theorem export_paths_differ_iff_seconds_differ_witness :
    ("exports/配置项列表_20240101070405.xlsx" : String) ≠
      "exports/配置项列表_20240101070406.xlsx" :=
  (export_paths_differ_iff_seconds_differ noFileFaults noFileFaults "exports"
    63839689445000000000 63839689446000000000 [sampleExportItem] [sampleExportItem]
    "exports/配置项列表_20240101070405.xlsx" "exports/配置项列表_20240101070406.xlsx"
    sampleExportFile
    ⟨"exports/配置项列表_20240101070406.xlsx", "配置项列表", Export.cells [sampleExportItem]⟩
    rfl rfl).1.2 (by decide)

/-! ## Deleting a provider or a product -/

theorem deleteProvider_ok_shape (fl : Faults) (cfl : CatalogFaults) (s s1 : Store) (id : Nat)
    (h : DeleteProvider fl cfl s id = (s1, none)) :
    s1 = { s with providers := s.providers.filter (fun r => r.ID != id) } := by
  unfold DeleteProvider at h
  split at h
  · simp [NewServiceError] at h
  · simp [NewServiceError] at h
  · split at h
    · simp at h
    · rename_i s2 hdel
      simp only [Prod.mk.injEq, and_true] at h
      subst h
      unfold cloudProviderRepository.Delete at hdel
      split at hdel
      · simp at hdel
      · simp only [Prod.mk.injEq, and_true] at hdel
        exact hdel.symm

theorem deleteProduct_ok_shape (fl : Faults) (cfl : CatalogFaults) (s s1 : Store) (id : Nat)
    (h : DeleteProduct fl cfl s id = (s1, none)) :
    s1 = { s with products := s.products.filter (fun r => r.ID != id) } := by
  unfold DeleteProduct at h
  split at h
  · simp [NewServiceError] at h
  · simp [NewServiceError] at h
  · split at h
    · simp at h
    · rename_i s2 hdel
      simp only [Prod.mk.injEq, and_true] at h
      subst h
      unfold cloudProductRepository.Delete at hdel
      split at hdel
      · simp at hdel
      · simp only [Prod.mk.injEq, and_true] at hdel
        exact hdel.symm

/-- C24: a `DeleteProvider(id)` that returns no error leaves in the provider table exactly
the rows whose id is not `id`, and leaves the product table and the configuration-item table
as they were, rows that reference the deleted provider included; a `DeleteProduct(id)` that
returns no error leaves in the product table exactly the rows whose id is not `id`, and
leaves the provider table and the configuration-item table as they were. Both return no
error when the row exists and the database calls go through. -/
theorem delete_does_not_cascade (fl : Faults) (cfl : CatalogFaults) (s : Store) (id : Nat) :
    (∀ s1, DeleteProvider fl cfl s id = (s1, none) →
        s1.providers = s.providers.filter (fun r => r.ID != id) ∧
          s1.products = s.products ∧ s1.items = s.items) ∧
      (∀ s1, DeleteProduct fl cfl s id = (s1, none) →
        s1.products = s.products.filter (fun r => r.ID != id) ∧
          s1.providers = s.providers ∧ s1.items = s.items) ∧
      (fl.providerGetByID id = none → cfl.providerDelete id = none → s.hasProvider id →
        (DeleteProvider fl cfl s id).2 = none) ∧
      (fl.productGetByID id = none → cfl.productDelete id = none → s.hasProduct id →
        (DeleteProduct fl cfl s id).2 = none) := by
  refine ⟨?_, ?_, ?_, ?_⟩
  · intro s1 h
    rw [deleteProvider_ok_shape fl cfl s s1 id h]
    exact ⟨rfl, rfl, rfl⟩
  · intro s1 h
    rw [deleteProduct_ok_shape fl cfl s s1 id h]
    exact ⟨rfl, rfl, rfl⟩
  · intro h1 h2 hhas
    obtain ⟨p, hp⟩ := providerGetByID_of_has fl s id h1 hhas
    simp [DeleteProvider, hp, cloudProviderRepository.Delete, h2]
  · intro h1 h2 hhas
    obtain ⟨q, hq⟩ := find?_key_some_of_has (fun p : CloudProduct => p.ID) s.products id hhas
    have hget : cloudProductRepository.GetByID fl s id = .ok (some q) := by
      simp [cloudProductRepository.GetByID, h1, hq]
    simp [DeleteProduct, hget, cloudProductRepository.Delete, h2]

/-- Deleting provider 1 of the sample store keeps product 10 and configuration item 1, which
both reference provider 1; deleting product 10 keeps configuration item 1. -/
theorem delete_does_not_cascade_witness :
    DeleteProvider noFaults noCatalogFaults sampleCatalogStore 1 =
        (⟨[sampleAliyun], [sampleEc2, sampleEcs], sampleCatalogStore.items⟩, none) ∧
      (sampleEc2.CloudProviderID = 1 ∧
        sampleCatalogStore.items.map (fun r => r.CloudProviderID) = [1]) ∧
      (⟨[sampleAliyun], [sampleEc2, sampleEcs], sampleCatalogStore.items⟩ : Store).products =
        sampleCatalogStore.products ∧
      DeleteProduct noFaults noCatalogFaults sampleCatalogStore 10 =
        (⟨[sampleAws, sampleAliyun], [sampleEcs], sampleCatalogStore.items⟩, none) ∧
      (⟨[sampleAws, sampleAliyun], [sampleEcs], sampleCatalogStore.items⟩ : Store).items =
        sampleCatalogStore.items :=
  have t := delete_does_not_cascade noFaults noCatalogFaults sampleCatalogStore 1
  have u := delete_does_not_cascade noFaults noCatalogFaults sampleCatalogStore 10
  have hp := t.1 ⟨[sampleAliyun], [sampleEc2, sampleEcs], sampleCatalogStore.items⟩ (by decide)
  have hq := u.2.1 ⟨[sampleAws, sampleAliyun], [sampleEcs], sampleCatalogStore.items⟩
    (by decide)
  ⟨by decide, by decide, hp.2.1, by decide, hq.2.2⟩

/-! ## Unique codes -/

theorem firstByKey_fold {α : Type} (key : α → Nat) (l : List α) :
    ∀ best : Option α,
      (l.foldl (fun best r =>
          match best with
          | none => some r
          | some b => if key r < key b then some r else some b) best = none ↔
        best = none ∧ l = []) ∧
      ∀ c, l.foldl (fun best r =>
          match best with
          | none => some r
          | some b => if key r < key b then some r else some b) best = some c →
        c ∈ l ∨ best = some c := by
  induction l with
  | nil =>
    intro best
    simp
  | cons a t ih =>
    intro best
    simp only [List.foldl_cons]
    cases best with
    | none =>
      obtain ⟨h1, h2⟩ := ih (some a)
      constructor
      · simp only [h1]
        simp
      · intro c hc
        rcases h2 c hc with h | h
        · exact Or.inl (List.mem_cons_of_mem _ h)
        · simp only [Option.some.injEq] at h
          exact Or.inl (h ▸ List.mem_cons_self _ _)
    | some b =>
      simp only
      by_cases hlt : key a < key b
      · rw [if_pos hlt]
        obtain ⟨h1, h2⟩ := ih (some a)
        constructor
        · simp only [h1]
          simp
        · intro c hc
          rcases h2 c hc with h | h
          · exact Or.inl (List.mem_cons_of_mem _ h)
          · simp only [Option.some.injEq] at h
            exact Or.inl (h ▸ List.mem_cons_self _ _)
      · rw [if_neg hlt]
        obtain ⟨h1, h2⟩ := ih (some b)
        constructor
        · simp only [h1]
          simp
        · intro c hc
          rcases h2 c hc with h | h
          · exact Or.inl (List.mem_cons_of_mem _ h)
          · exact Or.inr h

theorem firstByKey_none {α : Type} (key : α → Nat) (cond : α → Bool) (rows : List α) :
    firstByKey key cond rows = none ↔ ∀ r ∈ rows, cond r = false := by
  unfold firstByKey
  rw [(firstByKey_fold key (rows.filter cond) none).1]
  simp [List.filter_eq_nil_iff]

theorem firstByKey_some {α : Type} (key : α → Nat) (cond : α → Bool) (rows : List α) (c : α)
    (h : firstByKey key cond rows = some c) : c ∈ rows ∧ cond c = true := by
  unfold firstByKey at h
  rcases (firstByKey_fold key (rows.filter cond) none).2 c h with hm | hm
  · exact List.mem_filter.1 hm
  · simp at hm

theorem sqlEq_iff (a b : String) :
    sqlEq a b = true ↔ a.data.map Char.toLower = b.data.map Char.toLower := by
  unfold sqlEq
  exact beq_iff_eq

theorem sqlEq_refl (a : String) : sqlEq a a = true :=
  (sqlEq_iff a a).2 rfl

theorem sqlEq_symm (a b : String) (h : sqlEq a b = true) : sqlEq b a = true :=
  (sqlEq_iff b a).2 ((sqlEq_iff a b).1 h).symm

theorem sqlEq_trans (a b c : String) (h1 : sqlEq a b = true) (h2 : sqlEq b c = true) :
    sqlEq a c = true :=
  (sqlEq_iff a c).2 (((sqlEq_iff a b).1 h1).trans ((sqlEq_iff b c).1 h2))

theorem pairwise_replace {α : Type} (R : α → α → Prop) (hsymm : ∀ a b, R a b → R b a)
    (key : α → Nat) (id : Nat) (new : α) (l : List α)
    (hnd : (l.map key).Nodup) (hp : l.Pairwise R)
    (hnew : ∀ x ∈ l, key x ≠ id → R x new) :
    (l.map (fun r => if key r = id then new else r)).Pairwise R := by
  induction l with
  | nil => simp
  | cons a t ih =>
    simp only [List.map_cons, List.nodup_cons, List.mem_map, not_exists, not_and] at hnd
    rw [List.pairwise_cons] at hp
    have iht := ih hnd.2 hp.2 (fun x hx => hnew x (List.mem_cons_of_mem _ hx))
    rw [List.map_cons, List.pairwise_cons]
    refine ⟨?_, iht⟩
    intro y hy
    obtain ⟨x, hx, rfl⟩ := List.mem_map.1 hy
    by_cases ha : key a = id
    · have hxne : key x ≠ id := fun hxid => hnd.1 x hx (hxid.trans ha.symm)
      rw [if_pos ha, if_neg hxne]
      exact hsymm _ _ (hnew x (List.mem_cons_of_mem _ hx) hxne)
    · rw [if_neg ha]
      by_cases hxid : key x = id
      · rw [if_pos hxid]
        exact hnew a (List.mem_cons_self _ _) ha
      · rw [if_neg hxid]
        exact hp.1 x hx

theorem map_replace_keys {α : Type} (key : α → Nat) (id : Nat) (new : α) (l : List α)
    (hkey : key new = id) :
    (l.map (fun r => if key r = id then new else r)).map key = l.map key := by
  rw [List.map_map]
  apply List.map_congr_left
  intro r _
  simp only [Function.comp]
  split
  · rename_i h
    rw [hkey, h]
  · rfl

theorem nextKey_not_mem (l : List Nat) : l.foldr max 0 + 1 ∉ l := by
  have hle : ∀ x ∈ l, x ≤ l.foldr max 0 := by
    induction l with
    | nil => simp
    | cons a t ih =>
      intro x hx
      simp only [List.foldr_cons]
      rcases List.mem_cons.1 hx with rfl | h
      · exact le_max_left _ _
      · exact le_trans (ih x h) (le_max_right _ _)
  intro h
  have := hle _ h
  omega

theorem productGetByCode_ok (cfl : CatalogFaults) (s : Store) (providerID : Nat) (code : String)
    (r : Option CloudProduct)
    (h : cloudProductRepository.GetByCode cfl s providerID code = .ok r) :
    firstByKey (fun p => p.ID)
      (fun p => p.CloudProviderID == providerID && sqlEq p.Code code) s.products = r := by
  unfold cloudProductRepository.GetByCode at h
  split at h
  · simp at h
  · simpa using h

theorem productCond_iff (q product : CloudProduct) :
    (q.CloudProviderID == product.CloudProviderID && sqlEq q.Code product.Code) = true ↔
      q.samePair product := by
  unfold CloudProduct.samePair
  simp

theorem samePair_symm (a b : CloudProduct) (h : a.samePair b) : b.samePair a :=
  ⟨h.1.symm, sqlEq_symm _ _ h.2⟩

theorem samePair_trans (a b c : CloudProduct) (h1 : a.samePair b) (h2 : b.samePair c) :
    a.samePair c :=
  ⟨h1.1.trans h2.1, sqlEq_trans _ _ _ h1.2 h2.2⟩

theorem productCreate_ok_shape (cfl : CatalogFaults) (now : Time) (s s1 : Store)
    (product : CloudProduct)
    (h : cloudProductRepository.Create cfl now s product = (s1, none)) :
    s1 = { s with products := s.products ++ [createdProduct now s.products product] } ∧
      ∀ r ∈ s.products, r.ID ≠ (createdProduct now s.products product).ID := by
  unfold cloudProductRepository.Create at h
  split at h
  · simp at h
  · simp only at h
    split at h
    · simp at h
    · rename_i hany
      simp only [Prod.mk.injEq, and_true] at h
      refine ⟨h.symm, ?_⟩
      intro r hr hid
      apply hany
      rw [List.any_eq_true]
      exact ⟨r, hr, by simpa using hid⟩

theorem productUpdate_ok_shape (cfl : CatalogFaults) (now : Time) (s s1 : Store)
    (product : CloudProduct) (hid : product.ID ≠ 0)
    (hex : ∃ r ∈ s.products, r.ID = product.ID)
    (h : cloudProductRepository.Update cfl now s product = (s1, none)) :
    s1 = ⟨s.providers,
      s.products.map (fun r => if r.ID = product.ID then savedProduct now product else r),
      s.items⟩ := by
  unfold cloudProductRepository.Update at h
  split at h
  · simp at h
  · rw [if_neg hid] at h
    have hany : s.products.any (fun r => r.ID == product.ID) = true := by
      rw [List.any_eq_true]
      obtain ⟨r, hr, hrid⟩ := hex
      exact ⟨r, hr, by simpa using hrid⟩
    rw [if_pos hany] at h
    simp only [Prod.mk.injEq, and_true] at h
    exact h.symm

theorem createProduct_ok (fl : Faults) (cfl : CatalogFaults) (now : Time) (s s1 : Store)
    (product : CloudProduct) (h : CreateProduct fl cfl now s product = (s1, none)) :
    (∀ r ∈ s.products, ¬ r.samePair product) ∧
      s1 = { s with products := s.products ++ [createdProduct now s.products product] } ∧
      ∀ r ∈ s.products, r.ID ≠ (createdProduct now s.products product).ID := by
  unfold CreateProduct at h
  split at h
  · simp at h
  · simp at h
  · split at h
    · simp at h
    · simp at h
    · rename_i hcode
      have hnone := (firstByKey_none _ _ _).1 (productGetByCode_ok cfl s _ _ none hcode)
      split at h
      · simp at h
      · rename_i s2 hcreate
        simp only [Prod.mk.injEq, and_true] at h
        subst h
        obtain ⟨hs, hfresh⟩ := productCreate_ok_shape cfl now s s2 product hcreate
        refine ⟨?_, hs, hfresh⟩
        intro r hr hsame
        have := hnone r hr
        rw [(productCond_iff r product).2 hsame] at this
        simp at this

theorem updateProduct_ok (fl : Faults) (cfl : CatalogFaults) (now : Time) (s s1 : Store)
    (product : CloudProduct) (h : UpdateProduct fl cfl now s product = (s1, none)) :
    ∃ existing, s.products.find? (fun p => p.ID == product.ID) = some existing ∧
      UpdateProduct.checkCode cfl s product existing = none ∧
      cloudProductRepository.Update cfl now s product = (s1, none) := by
  unfold UpdateProduct at h
  split at h
  · simp at h
  · simp at h
  · rename_i existing hget
    have hfind : s.products.find? (fun p => p.ID == product.ID) = some existing := by
      unfold cloudProductRepository.GetByID at hget
      split at hget
      · simp at hget
      · simpa using hget
    split at h
    · simp at h
    · split at h
      · simp at h
      · rename_i hcheck
        split at h
        · simp at h
        · rename_i s2 hupd
          simp only [Prod.mk.injEq, and_true] at h
          subst h
          exact ⟨existing, hfind, hcheck, hupd⟩

theorem updateProduct_checkCode_none (cfl : CatalogFaults) (s : Store)
    (product existing : CloudProduct)
    (h : UpdateProduct.checkCode cfl s product existing = none) :
    (product.Code = existing.Code ∧ product.CloudProviderID = existing.CloudProviderID) ∨
      (∀ r ∈ s.products, ¬ r.samePair product) ∨
      ∃ c ∈ s.products, c.samePair product ∧ c.ID = product.ID := by
  unfold UpdateProduct.checkCode at h
  split at h
  · split at h
    · simp at h
    · rename_i codeCheck hcode
      split at h
      · simp at h
      · rename_i hid
        have hc := firstByKey_some _ _ _ _ (productGetByCode_ok cfl s _ _ _ hcode)
        refine Or.inr (Or.inr ⟨codeCheck, hc.1, (productCond_iff _ _).1 hc.2, ?_⟩)
        exact not_not.1 hid
    · rename_i hcode
      have hnone := (firstByKey_none _ _ _).1 (productGetByCode_ok cfl s _ _ none hcode)
      refine Or.inr (Or.inl ?_)
      intro r hr hsame
      have := hnone r hr
      rw [(productCond_iff r product).2 hsame] at this
      simp at this
  · rename_i hch
    rw [not_or, not_not, not_not] at hch
    exact Or.inl hch

theorem createProduct_duplicate_only (fl : Faults) (cfl : CatalogFaults) (now : Time)
    (s : Store) (product : CloudProduct) (e : ServiceError)
    (h : (CreateProduct fl cfl now s product).2 = some e) (hcode : e.Code = ErrCodeDuplicate) :
    ∃ q ∈ s.products, q.samePair product := by
  unfold CreateProduct at h
  split at h
  · simp only [Option.some.injEq] at h
    subst h
    simp [NewServiceError, ErrCodeDatabase, ErrCodeNotFound, ErrCodeDuplicate] at hcode
  · simp only [Option.some.injEq] at h
    subst h
    simp [NewServiceError, ErrCodeDatabase, ErrCodeNotFound, ErrCodeDuplicate] at hcode
  · split at h
    · simp only [Option.some.injEq] at h
      subst h
      simp [NewServiceError, ErrCodeDatabase, ErrCodeNotFound, ErrCodeDuplicate] at hcode
    · rename_i q hq
      have hc := firstByKey_some _ _ _ _ (productGetByCode_ok cfl s _ _ _ hq)
      exact ⟨q, hc.1, (productCond_iff _ _).1 hc.2⟩
    · split at h
      · simp only [Option.some.injEq] at h
        subst h
        simp [NewServiceError, ErrCodeDatabase, ErrCodeNotFound, ErrCodeDuplicate] at hcode
      · simp at h

theorem createProduct_duplicate (fl : Faults) (cfl : CatalogFaults) (now : Time)
    (s : Store) (product : CloudProduct)
    (hfp : fl.providerGetByID product.CloudProviderID = none)
    (hfc : cfl.productGetByCode product.CloudProviderID product.Code = none)
    (hprov : s.hasProvider product.CloudProviderID)
    (hex : ∃ q ∈ s.products, q.samePair product) :
    CreateProduct fl cfl now s product =
      (s, some ⟨ErrCodeDuplicate, "该服务商下云产品代码已存在", none⟩) := by
  obtain ⟨p, hp⟩ := providerGetByID_of_has fl s _ hfp hprov
  cases hfirst : firstByKey (fun p : CloudProduct => p.ID)
      (fun p => p.CloudProviderID == product.CloudProviderID && sqlEq p.Code product.Code)
      s.products with
  | none =>
    obtain ⟨q, hq, hsame⟩ := hex
    have := (firstByKey_none _ _ _).1 hfirst q hq
    rw [(productCond_iff q product).2 hsame] at this
    simp at this
  | some c =>
    simp [CreateProduct, hp, cloudProductRepository.GetByCode, hfc, hfirst, NewServiceError]

theorem providerGetByCode_ok (cfl : CatalogFaults) (s : Store) (code : String)
    (r : Option CloudProvider)
    (h : cloudProviderRepository.GetByCode cfl s code = .ok r) :
    firstByKey (fun p => p.ID) (fun p => sqlEq p.Code code) s.providers = r := by
  unfold cloudProviderRepository.GetByCode at h
  split at h
  · simp at h
  · simpa using h

theorem providerCreate_ok_shape (cfl : CatalogFaults) (now : Time) (s s1 : Store)
    (provider : CloudProvider)
    (h : cloudProviderRepository.Create cfl now s provider = (s1, none)) :
    s1 = { s with providers := s.providers ++ [createdProvider now s.providers provider] } ∧
      ∀ r ∈ s.providers, r.ID ≠ (createdProvider now s.providers provider).ID := by
  unfold cloudProviderRepository.Create at h
  split at h
  · simp at h
  · simp only at h
    split at h
    · simp at h
    · rename_i hany
      simp only [Prod.mk.injEq, and_true] at h
      refine ⟨h.symm, ?_⟩
      intro r hr hid
      apply hany
      rw [List.any_eq_true]
      exact ⟨r, hr, by simpa using hid⟩

theorem providerUpdate_ok_shape (cfl : CatalogFaults) (now : Time) (s s1 : Store)
    (provider : CloudProvider) (hid : provider.ID ≠ 0)
    (hex : ∃ r ∈ s.providers, r.ID = provider.ID)
    (h : cloudProviderRepository.Update cfl now s provider = (s1, none)) :
    s1 = ⟨s.providers.map (fun r => if r.ID = provider.ID then savedProvider now provider else r),
      s.products, s.items⟩ := by
  unfold cloudProviderRepository.Update at h
  split at h
  · simp at h
  · rw [if_neg hid] at h
    have hany : s.providers.any (fun r => r.ID == provider.ID) = true := by
      rw [List.any_eq_true]
      obtain ⟨r, hr, hrid⟩ := hex
      exact ⟨r, hr, by simpa using hrid⟩
    rw [if_pos hany] at h
    simp only [Prod.mk.injEq, and_true] at h
    exact h.symm

theorem createProvider_ok (cfl : CatalogFaults) (now : Time) (s s1 : Store)
    (provider : CloudProvider) (h : CreateProvider cfl now s provider = (s1, none)) :
    (∀ r ∈ s.providers, sqlEq r.Code provider.Code = false) ∧
      s1 = { s with providers := s.providers ++ [createdProvider now s.providers provider] } ∧
      ∀ r ∈ s.providers, r.ID ≠ (createdProvider now s.providers provider).ID := by
  unfold CreateProvider at h
  split at h
  · simp at h
  · simp at h
  · rename_i hcode
    have hnone := (firstByKey_none _ _ _).1 (providerGetByCode_ok cfl s _ none hcode)
    split at h
    · simp at h
    · rename_i s2 hcreate
      simp only [Prod.mk.injEq, and_true] at h
      subst h
      obtain ⟨hs, hfresh⟩ := providerCreate_ok_shape cfl now s s2 provider hcreate
      exact ⟨hnone, hs, hfresh⟩

theorem updateProvider_ok (fl : Faults) (cfl : CatalogFaults) (now : Time) (s s1 : Store)
    (provider : CloudProvider) (h : UpdateProvider fl cfl now s provider = (s1, none)) :
    ∃ existing, s.providers.find? (fun p => p.ID == provider.ID) = some existing ∧
      UpdateProvider.checkCode cfl s provider existing = none ∧
      cloudProviderRepository.Update cfl now s provider = (s1, none) := by
  unfold UpdateProvider at h
  split at h
  · simp at h
  · simp at h
  · rename_i existing hget
    have hfind : s.providers.find? (fun p => p.ID == provider.ID) = some existing := by
      unfold cloudProviderRepository.GetByID at hget
      split at hget
      · simp at hget
      · simpa using hget
    split at h
    · simp at h
    · rename_i hcheck
      split at h
      · simp at h
      · rename_i s2 hupd
        simp only [Prod.mk.injEq, and_true] at h
        subst h
        exact ⟨existing, hfind, hcheck, hupd⟩

theorem updateProvider_checkCode_none (cfl : CatalogFaults) (s : Store)
    (provider existing : CloudProvider)
    (h : UpdateProvider.checkCode cfl s provider existing = none) :
    provider.Code = existing.Code ∨
      (∀ r ∈ s.providers, sqlEq r.Code provider.Code = false) ∨
      ∃ c ∈ s.providers, sqlEq c.Code provider.Code = true ∧ c.ID = provider.ID := by
  unfold UpdateProvider.checkCode at h
  split at h
  · split at h
    · simp at h
    · rename_i codeCheck hcode
      split at h
      · simp at h
      · rename_i hid
        have hc := firstByKey_some _ _ _ _ (providerGetByCode_ok cfl s _ _ hcode)
        exact Or.inr (Or.inr ⟨codeCheck, hc.1, hc.2, not_not.1 hid⟩)
    · rename_i hcode
      exact Or.inr (Or.inl
        ((firstByKey_none _ _ _).1 (providerGetByCode_ok cfl s _ none hcode)))
  · rename_i hch
    exact Or.inl (not_not.1 hch)

theorem createProvider_duplicate (cfl : CatalogFaults) (now : Time) (s : Store)
    (provider : CloudProvider) (hfc : cfl.providerGetByCode provider.Code = none)
    (hex : ∃ p ∈ s.providers, sqlEq p.Code provider.Code = true) :
    CreateProvider cfl now s provider =
      (s, some ⟨ErrCodeDuplicate, "云服务商代码已存在", none⟩) := by
  cases hfirst : firstByKey (fun p : CloudProvider => p.ID)
      (fun p => sqlEq p.Code provider.Code) s.providers with
  | none =>
    obtain ⟨q, hq, hsame⟩ := hex
    have := (firstByKey_none _ _ _).1 hfirst q hq
    rw [hsame] at this
    simp at this
  | some c =>
    simp [CreateProvider, cloudProviderRepository.GetByCode, hfc, hfirst, NewServiceError]

theorem updateProvider_same_code_not_duplicate (fl : Faults) (cfl : CatalogFaults) (now : Time)
    (s : Store) (provider existing : CloudProvider)
    (hfind : s.providers.find? (fun p => p.ID == provider.ID) = some existing)
    (hsame : provider.Code = existing.Code) (e : ServiceError)
    (h : (UpdateProvider fl cfl now s provider).2 = some e) : e.Code ≠ ErrCodeDuplicate := by
  have hcheck : UpdateProvider.checkCode cfl s provider existing = none := by
    unfold UpdateProvider.checkCode
    simp [hsame]
  unfold UpdateProvider at h
  split at h
  · simp only [Option.some.injEq] at h
    subst h
    simp [NewServiceError, ErrCodeDatabase, ErrCodeDuplicate]
  · simp only [Option.some.injEq] at h
    subst h
    simp [NewServiceError, ErrCodeNotFound, ErrCodeDuplicate]
  · rename_i existing1 hget
    have hfind1 : s.providers.find? (fun p => p.ID == provider.ID) = some existing1 := by
      unfold cloudProviderRepository.GetByID at hget
      split at hget
      · simp at hget
      · simpa using hget
    rw [hfind] at hfind1
    simp only [Option.some.injEq] at hfind1
    subst hfind1
    rw [hcheck] at h
    simp only at h
    split at h
    · simp only [Option.some.injEq] at h
      subst h
      simp [NewServiceError, ErrCodeDatabase, ErrCodeDuplicate]
    · simp at h

end CloudEye
